import Mathlib

/-! A shallow embedding of `sudsol.c`.

The playfield is the global array `number_t playfield[SIZE_X * SIZE_Y]` of
`uint32_t` cells; it is modelled as a `List Nat` (81 cells, each below `2^32`)
that is threaded through every function.  A function that returns an `int`
and mutates the playfield becomes a function returning the `int` together
with the new playfield.  The `warn` parameters only select diagnostics that
are printed and are left out.  `for` loops with a fixed range are folds over
the list of their indices; loops that may run for an unknown number of rounds
carry an explicit fuel.
-/

namespace Sudsol

/-! ## Constants -/

abbrev SIZE_X : Nat := 9
abbrev SIZE_Y : Nat := 9
abbrev PART_SIZE_X : Nat := 3
abbrev PART_SIZE_Y : Nat := 3
abbrev HORIZONTAL : Nat := 0
abbrev VERTICAL : Nat := 1

/-- The macro `ANY_NUMBER`, `((1<<(SIZE_X+1))-2)`: bits 1..9 set. -/
abbrev ANY_NUMBER : Nat := (1 <<< (SIZE_X + 1)) - 2

/-- The macro `MAX_BACKLOG`. -/
abbrev MAX_BACKLOG : Nat := 99

/-- Bitwise complement on 32 bits: the value of `~m` once it is combined with a
`uint32_t` (or, for small non-negative operands, with an `int`). -/
def NOT32 (m : Nat) : Nat := m ^^^ (2 ^ 32 - 1)

/-! ## The playfield -/

/-- The global `playfield` array. -/
abbrev Grid := List Nat

/-- The macro `PLAYFIELD(x,y)` read as a value: `playfield[(y)*SIZE_X+(x)]`. -/
def PLAYFIELD (g : Grid) (x y : Nat) : Nat := g.getD (y * SIZE_X + x) 0

/-- The macro `PLAYFIELD(x,y)` used as the target of an assignment. -/
def setPLAYFIELD (g : Grid) (x y v : Nat) : Grid := g.set (y * SIZE_X + x) v

/-! ## Loops -/

/-- A `for` loop over the indices `l` whose body may leave the function early
(`.error`) or continue with a new state (`.ok`). -/
def forLoop {ι σ ε : Type} (body : ι → σ → Except ε σ) : List ι → σ → Except ε σ
  | [], s => .ok s
  | i :: is, s =>
    match body i s with
    | .ok s1 => forLoop body is s1
    | .error e => .error e

/-- The coordinates `(x, y)` in the order of
`for (y = 0; y < SIZE_Y; y++) for (x = 0; x < SIZE_X; x++)`. -/
def scanOrder : List (Nat × Nat) :=
  (List.range SIZE_Y).flatMap (fun y => (List.range SIZE_X).map (fun x => (x, y)))

/-- The offsets `(x, y)` in the order of
`for (y = 0; y < PART_SIZE_Y; y++) for (x = 0; x < PART_SIZE_X; x++)`. -/
def partOrder : List (Nat × Nat) :=
  (List.range PART_SIZE_Y).flatMap (fun y => (List.range PART_SIZE_X).map (fun x => (x, y)))

/-- The part origins `(part_x, part_y)` in the order of
`for (part_y = 0; part_y < SIZE_Y; part_y += PART_SIZE_Y)
   for (part_x = 0; part_x < SIZE_X; part_x += PART_SIZE_X)`. -/
def partOrigins : List (Nat × Nat) :=
  (List.range 3).flatMap (fun j => (List.range 3).map (fun i => (i * PART_SIZE_X, j * PART_SIZE_Y)))

/-! ## locate_num and check_solid -/

/-- The scan of `locate_num` over the remaining coordinates `cs`: a cell equal
to `1 << num` is returned when the instance counter is zero and otherwise
decrements it. -/
def locate_scan (g : Grid) (num : Nat) : List (Nat × Nat) → Nat → Option (Nat × Nat)
  | [], _ => none
  | c :: cs, inst =>
    if PLAYFIELD g c.1 c.2 = 1 <<< num then
      match inst with
      | 0 => some c
      | k + 1 => locate_scan g num cs k
    else locate_scan g num cs inst

/-- The function `locate_num`: `some (x, y)` when it returns non-zero, `none`
when it returns zero. -/
def locate_num (g : Grid) (num inst : Nat) : Option (Nat × Nat) :=
  locate_scan g num scanOrder inst

/-- The function `check_solid`, with its `int` result `1` or `0`. -/
def check_solid (val : Nat) : Nat :=
  if (List.range' 1 SIZE_X).any (fun i => val == 1 <<< i) then 1 else 0

/-! ## preprocess -/

/-- The local state of `preprocess`: the playfield and `numchanges`. -/
abbrev PState := Grid × Int

/-- One round of the column scan of step 1 (`for (y = 0; y < SIZE_Y; y++)`);
`.error` is the `return -1`, carrying the playfield as it is at that moment. -/
def clearColumn (step first_x first_y : Nat) (y : Nat) (s : PState) : Except Grid PState :=
  if y = first_y then .ok s
  else if PLAYFIELD s.1 first_x y = 1 <<< step then .error s.1
  else if PLAYFIELD s.1 first_x y &&& (1 <<< step) ≠ 0 then
    .ok (setPLAYFIELD s.1 first_x y (PLAYFIELD s.1 first_x y &&& NOT32 (1 <<< step)), s.2 + 1)
  else .ok s

/-- One round of the row scan of step 1 (`for (x = 0; x < SIZE_X; x++)`). -/
def clearRow (step first_x first_y : Nat) (x : Nat) (s : PState) : Except Grid PState :=
  if x = first_x then .ok s
  else if PLAYFIELD s.1 x first_y = 1 <<< step then .error s.1
  else if PLAYFIELD s.1 x first_y &&& (1 <<< step) ≠ 0 then
    .ok (setPLAYFIELD s.1 x first_y (PLAYFIELD s.1 x first_y &&& NOT32 (1 <<< step)), s.2 + 1)
  else .ok s

/-- The body of `while (locate_num (step, &first_x, &first_y, instance++))`:
the column scan followed by the row scan. -/
def clearLines (step : Nat) (c : Nat × Nat) (s : PState) : Except Grid PState :=
  match forLoop (clearColumn step c.1 c.2) (List.range SIZE_Y) s with
  | .error g => .error g
  | .ok s1 => forLoop (clearRow step c.1 c.2) (List.range SIZE_X) s1

/-- The loop `while (locate_num (step, &first_x, &first_y, instance++))` of
step 1, entered with the instance counter `inst`.  `locate_num` fails as soon
as the instance counter reaches the number of cells, so `SIZE_X * SIZE_Y + 1`
rounds of fuel are never used up (`locateLoop_fuel`). -/
def locateLoop (step : Nat) : Nat → Nat → PState → Except Grid PState
  | 0, _, s => .ok s
  | fuel + 1, inst, s =>
    match locate_num s.1 step inst with
    | none => .ok s
    | some c =>
      match clearLines step c s with
      | .error g => .error g
      | .ok s1 => locateLoop step fuel (inst + 1) s1

/-- Step 1 of `preprocess` (`for (step = 1; step <= SIZE_X; step++)`). -/
def preprocess_step1 (s : PState) : Except Grid PState :=
  forLoop (fun step s => locateLoop step (SIZE_X * SIZE_Y + 1) 0 s) (List.range' 1 SIZE_X) s

/-- The mask of step 2 for the part at `p`: the values solid in that part. -/
def partMask (g : Grid) (p : Nat × Nat) : Nat :=
  partOrder.foldl (fun mask o =>
    (List.range' 1 SIZE_X).foldl (fun mask num =>
      if PLAYFIELD g (p.1 + o.1) (p.2 + o.2) = 1 <<< num then mask ||| (1 <<< num) else mask)
      mask) 0

/-- One round of the loop "Remove the mask" of step 2. -/
def removeMask (mask : Nat) (p : Nat × Nat) (s : PState) (o : Nat × Nat) : PState :=
  if check_solid (PLAYFIELD s.1 (p.1 + o.1) (p.2 + o.2)) = 0 ∧
      PLAYFIELD s.1 (p.1 + o.1) (p.2 + o.2) &&& mask ≠ 0 then
    (setPLAYFIELD s.1 (p.1 + o.1) (p.2 + o.2)
      (PLAYFIELD s.1 (p.1 + o.1) (p.2 + o.2) &&& NOT32 mask), s.2 + 1)
  else s

/-- Step 2 of `preprocess` for one part. -/
def preprocess_part (s : PState) (p : Nat × Nat) : PState :=
  partOrder.foldl (removeMask (partMask s.1 p) p) s

/-- Step 2 of `preprocess`. -/
def preprocess_step2 (s : PState) : PState :=
  partOrigins.foldl preprocess_part s

/-- The function `preprocess`: its return value and the playfield it leaves. -/
def preprocess (g : Grid) : Int × Grid :=
  match preprocess_step1 (g, 0) with
  | .error g1 => (-1, g1)
  | .ok s => ((preprocess_step2 s).2, (preprocess_step2 s).1)

/-! ## postprocess -/

/-- The local state of `postprocess`. -/
structure FState where
  grid : Grid
  empty_x : Nat
  empty_y : Nat
  numchanges : Int

/-- One cell of the first loop of `postprocess` over a part, on the triple
`(curmask, empty_x, empty_y)`: the inner `for (num ...)` loop clears the bit
of a solid cell from `curmask` and counts it in `gotnum`; without a hit the
offset of the cell is recorded as the open spot. -/
def scanPart (g : Grid) (p : Nat × Nat) (st : Nat × Nat × Nat) (o : Nat × Nat) :
    Nat × Nat × Nat :=
  let r := (List.range' 1 SIZE_X).foldl (fun (acc : Nat × Nat) num =>
    if PLAYFIELD g (p.1 + o.1) (p.2 + o.2) = 1 <<< num then
      (acc.1 &&& NOT32 (1 <<< num), acc.2 + 1)
    else acc) (st.1, 0)
  if r.2 = 0 then (r.1, o.1, o.2) else (r.1, st.2.1, st.2.2)

/-- One round of the loop "Check if only a solid number remains". -/
def fillPart (curmask : Nat) (p : Nat × Nat) (empty_x empty_y : Nat) (num : Nat) (s : PState) :
    Except Grid PState :=
  if curmask = 1 <<< num then
    if (preprocess (setPLAYFIELD s.1 (p.1 + empty_x) (p.2 + empty_y) (1 <<< num))).1 = -1 then
      .error (preprocess (setPLAYFIELD s.1 (p.1 + empty_x) (p.2 + empty_y) (1 <<< num))).2
    else
      .ok ((preprocess (setPLAYFIELD s.1 (p.1 + empty_x) (p.2 + empty_y) (1 <<< num))).2, s.2 + 1)
  else .ok s

/-- The body of the loop of `postprocess` over the parts. -/
def postprocess_part (p : Nat × Nat) (s : FState) : Except Grid FState :=
  match forLoop
      (fillPart (partOrder.foldl (scanPart s.grid p) (ANY_NUMBER, s.empty_x, s.empty_y)).1 p
        (partOrder.foldl (scanPart s.grid p) (ANY_NUMBER, s.empty_x, s.empty_y)).2.1
        (partOrder.foldl (scanPart s.grid p) (ANY_NUMBER, s.empty_x, s.empty_y)).2.2)
      (List.range' 1 SIZE_X) (s.grid, s.numchanges) with
  | .error g => .error g
  | .ok s1 =>
    .ok ⟨s1.1, (partOrder.foldl (scanPart s.grid p) (ANY_NUMBER, s.empty_x, s.empty_y)).2.1,
      (partOrder.foldl (scanPart s.grid p) (ANY_NUMBER, s.empty_x, s.empty_y)).2.2, s1.2⟩

/-- The function `postprocess`: its return value and the playfield it leaves. -/
def postprocess (g : Grid) : Int × Grid :=
  match forLoop postprocess_part partOrigins ⟨g, 0, 0, 0⟩ with
  | .error g1 => (-1, g1)
  | .ok s => (s.numchanges, s.grid)

/-! ## check_solved -/

/-- The cells of row `y`, in the order of `for (x = 0; x < SIZE_X; x++)`. -/
def rowCells (y : Nat) : List (Nat × Nat) := (List.range SIZE_X).map (fun x => (x, y))

/-- The cells of column `x`, in the order of `for (y = 0; y < SIZE_Y; y++)`. -/
def colCells (x : Nat) : List (Nat × Nat) := (List.range SIZE_Y).map (fun y => (x, y))

/-- The value of `mask` in `check_solved` after the loops over `step` and over
the cells of one line. -/
def lineMask (g : Grid) (cells : List (Nat × Nat)) : Nat :=
  (List.range' 1 SIZE_X).foldl (fun mask step =>
    cells.foldl (fun mask c =>
      if check_solid (PLAYFIELD g c.1 c.2) ≠ 0 ∧ PLAYFIELD g c.1 c.2 = 1 <<< step then
        mask &&& NOT32 (1 <<< step)
      else mask) mask) ANY_NUMBER

/-- The function `check_solved`, with its `int` result `1` or `0`. -/
def check_solved (g : Grid) : Nat :=
  if (List.range SIZE_Y).any (fun y => lineMask g (rowCells y) != 0) then 0
  else if (List.range SIZE_X).any (fun x => lineMask g (colCells x) != 0) then 0
  else 1

/-! ## mark_number -/

/-- How a call that may loop, or may index outside an array, ends. -/
inductive Outcome (α : Type) where
  /-- The call returned. -/
  | done (a : α)
  /-- The call read or wrote outside `playfield` or outside `backlog`. -/
  | undefined
  /-- The fuel of the model ran out. -/
  | timeout
deriving DecidableEq

/-- A loop `do { pp = f(); } while (again(pp));` on the playfield: the last
`pp` and the playfield, `none` when the fuel ran out. -/
def repeatWhile (f : Grid → Int × Grid) (again : Int → Bool) : Nat → Grid → Option (Int × Grid)
  | 0, _ => none
  | fuel + 1, g => if again (f g).1 then repeatWhile f again fuel (f g).2 else some (f g)

/-- Whether a cell is an open spot for `number`:
`!check_solid (PLAYFIELD(x, y)) && PLAYFIELD(x, y) & (1 << number)`. -/
def isOpen (g : Grid) (number : Nat) (c : Nat × Nat) : Bool :=
  check_solid (PLAYFIELD g c.1 c.2) = 0 ∧ PLAYFIELD g c.1 c.2 &&& (1 <<< number) ≠ 0

/-- The search loops of `mark_number` over the cells `cs` of a line: the cell
at which `goto found` is taken, `none` when the loop ends without.  A cell
whose index lies outside `playfield` makes the read undefined. -/
def mark_find (g : Grid) (number : Nat) : List (Nat × Nat) → Nat → Outcome (Option (Nat × Nat))
  | [], _ => .done none
  | c :: cs, inst =>
    if c.2 * SIZE_X + c.1 < SIZE_X * SIZE_Y then
      if isOpen g number c then
        match inst with
        | 0 => .done (some c)
        | k + 1 => mark_find g number cs k
      else mark_find g number cs inst
    else .undefined

/-- The function `mark_number`: its return value and the playfield it leaves. -/
def mark_number (fuel : Nat) (g : Grid) (number inst dir x y : Nat) : Outcome (Int × Grid) :=
  match mark_find g number (if dir = HORIZONTAL then rowCells y else colCells x) inst with
  | .undefined => .undefined
  | .timeout => .timeout
  | .done none => .done (0, g)
  | .done (some c) =>
    match repeatWhile preprocess (fun pp => !decide (pp < 0) && pp != 0) fuel
        (setPLAYFIELD g c.1 c.2 (1 <<< number)) with
    | none => .timeout
    | some r =>
      if r.1 < 0 then .done (-1, r.2)
      else
        match repeatWhile postprocess (fun pp => !decide (pp < 0) && pp != 0) fuel r.2 with
        | none => .timeout
        | some r2 => if r2.1 < 0 then .done (-1, r2.2) else .done (1, r2.2)

/-! ## solver -/

/-- The structure `struct BACKLOG`. -/
structure BACKLOG where
  playfield : Grid
  number : Nat
  inst : Nat
  direction : Nat
deriving DecidableEq

/-- The global state: `playfield`, the array `backlog` and `cur_backlog`. -/
structure State where
  playfield : Grid
  backlog : List BACKLOG
  cur_backlog : Int
deriving DecidableEq

/-- The locals of `solver` that its search for the least count sets. -/
structure Sel where
  cur_x : Nat
  cur_y : Nat
  dir : Nat
  cur_less : Nat
  cur_num : Nat
deriving DecidableEq

/-- The counter `cur` after the loop over the cells of one line. -/
def countOpen (g : Grid) (cells : List (Nat × Nat)) (step : Nat) : Nat :=
  cells.foldl (fun cur c => if isOpen g step c then cur + 1 else cur) 0

/-- The loop over `step` of the horizontal check, for row `y`; after the loop
over `x` the variable `x` is `SIZE_X`. -/
def selectRow (g : Grid) (s : Sel) (y : Nat) : Sel :=
  (List.range' 1 SIZE_X).foldl (fun s step =>
    if countOpen g (rowCells y) step < s.cur_less ∧ countOpen g (rowCells y) step ≠ 0 then
      ⟨SIZE_X, y, HORIZONTAL, countOpen g (rowCells y) step, step⟩
    else s) s

/-- The loop over `step` of the vertical check, for column `x`; after the loop
over `y` the variable `y` is `SIZE_Y`. -/
def selectCol (g : Grid) (s : Sel) (x : Nat) : Sel :=
  (List.range' 1 SIZE_X).foldl (fun s step =>
    if countOpen g (colCells x) step < s.cur_less ∧ countOpen g (colCells x) step ≠ 0 then
      ⟨x, SIZE_Y, VERTICAL, countOpen g (colCells x) step, step⟩
    else s) s

/-- The labels `try_mark_number` and `try_backlog` of `solver`: the latter when
`restore` is set.  `cur_x` and `cur_y` are not assigned after the search. -/
def solver_try (fuel cur_x cur_y : Nat) :
    Nat → Bool → State → Nat → Nat → Nat → Outcome (Int × State)
  | 0, _, _, _, _, _ => .timeout
  | k + 1, true, st, _, _, _ =>
    if 1 ≤ st.cur_backlog ∧ st.cur_backlog ≤ MAX_BACKLOG then
      match st.backlog[(st.cur_backlog - 1).toNat]? with
      | none => .undefined
      | some f =>
        solver_try fuel cur_x cur_y k false
          { playfield := f.playfield,
            backlog := st.backlog.set (st.cur_backlog - 1).toNat { f with inst := f.inst + 1 },
            cur_backlog := st.cur_backlog }
          f.number (f.inst + 1) f.direction
    else .undefined
  | k + 1, false, st, cur_num, inst, dir =>
    match mark_number fuel st.playfield cur_num inst dir cur_x cur_y with
    | .undefined => .undefined
    | .timeout => .timeout
    | .done r =>
      if r.1 = -1 then
        if st.cur_backlog = 0 then .done (0, { st with playfield := r.2 })
        else solver_try fuel cur_x cur_y k true { st with playfield := r.2 } cur_num inst dir
      else if r.1 = 0 then
        if st.cur_backlog - 1 = -1 ∨ st.cur_backlog - 1 = 0 then
          .done (0, { st with playfield := r.2, cur_backlog := st.cur_backlog - 1 })
        else
          solver_try fuel cur_x cur_y k true
            { st with playfield := r.2, cur_backlog := st.cur_backlog - 1 } cur_num inst dir
      else .done (1, { st with playfield := r.2 })

/-- The label `flag` of `solver`: the forced assignment at `(cur_x, cur_y)`. -/
def solver_flag (fuel : Nat) (st : State) (cur_num dir cur_x cur_y : Nat) :
    Outcome (Int × State) :=
  if cur_y * SIZE_X + cur_x < SIZE_X * SIZE_Y then
    match repeatWhile preprocess (fun pp => pp != -1 && decide (pp > 0)) fuel
        (setPLAYFIELD st.playfield cur_x cur_y (1 <<< cur_num)) with
    | none => .timeout
    | some r =>
      if r.1 = -1 then
        solver_try fuel cur_x cur_y fuel true { st with playfield := r.2 } cur_num 0 dir
      else
        match repeatWhile postprocess (fun pp => decide (pp > 0)) fuel r.2 with
        | none => .timeout
        | some r2 => .done (1, { st with playfield := r2.2 })
  else .undefined

/-- The function `solver`: its return value and the global state it leaves. -/
def solver (fuel : Nat) (st : State) : Outcome (Int × State) :=
  let h := (List.range SIZE_Y).foldl (selectRow st.playfield) ⟨0, 0, 0, SIZE_X, 0⟩
  if h.cur_less = 1 then
    solver_flag fuel st h.cur_num h.dir
      ((rowCells h.cur_y).findIdx (isOpen st.playfield h.cur_num)) h.cur_y
  else
    let v := (List.range SIZE_X).foldl (selectCol st.playfield) h
    if v.cur_less = 1 then
      solver_flag fuel st v.cur_num v.dir v.cur_x
        ((colCells v.cur_x).findIdx (isOpen st.playfield v.cur_num))
    else if v.cur_less = SIZE_X then .done (0, st)
    else if 0 ≤ st.cur_backlog ∧ st.cur_backlog < MAX_BACKLOG then
      if st.cur_backlog + 1 = MAX_BACKLOG then
        .done (0, { st with
          backlog := st.backlog.set st.cur_backlog.toNat ⟨st.playfield, v.cur_num, 0, v.dir⟩,
          cur_backlog := st.cur_backlog + 1 })
      else
        solver_try fuel v.cur_x v.cur_y fuel false
          { st with
            backlog := st.backlog.set st.cur_backlog.toNat ⟨st.playfield, v.cur_num, 0, v.dir⟩,
            cur_backlog := st.cur_backlog + 1 }
          v.cur_num 0 v.dir
    else .undefined

/-! ## main -/

/-- The loop `while (solver() > 0);` of `main`. -/
def solverLoop (fuel : Nat) : Nat → State → Outcome State
  | 0, _ => .timeout
  | k + 1, st =>
    match solver fuel st with
    | .undefined => .undefined
    | .timeout => .timeout
    | .done r => if r.1 > 0 then solverLoop fuel k r.2 else .done r.2

/-- The array `backlog` after `malloc` and `memset (backlog, 0, ...)`. -/
def backlog0 : List BACKLOG :=
  List.replicate MAX_BACKLOG ⟨List.replicate (SIZE_X * SIZE_Y) 0, 0, 0, 0⟩

/-- The three loops of `main`, started on the loaded playfield `g`. -/
def main_loops (fuel : Nat) (g : Grid) : Outcome State :=
  match repeatWhile preprocess (fun pp => decide (pp > 0)) fuel g with
  | none => .timeout
  | some r1 =>
    match repeatWhile postprocess (fun pp => decide (pp > 0)) fuel r1.2 with
    | none => .timeout
    | some r2 => solverLoop fuel fuel ⟨r2.2, backlog0, 0⟩

/-- The value `EXIT_SUCCESS`. -/
abbrev EXIT_SUCCESS : Int := 0

/-- The function `main` once the playfield `g` is loaded and the backlog is
allocated: the exit status, the result of `check_solved` that is printed, and
the final state. -/
def main (fuel : Nat) (g : Grid) : Outcome (Int × Nat × State) :=
  match main_loops fuel g with
  | .undefined => .undefined
  | .timeout => .timeout
  | .done st => .done (EXIT_SUCCESS, check_solved st.playfield, st)

/-! ## Properties of playfields -/

/-- A cell is solid: it is `1 << v` for a value `v` in `1..9`. -/
def Solid (c : Nat) : Prop := ∃ v, 1 ≤ v ∧ v ≤ 9 ∧ c = 1 <<< v


/-- A well-formed playfield: `SIZE_X * SIZE_Y` cells, each a `uint32_t`. -/
def WF (g : Grid) : Prop :=
  g.length = SIZE_X * SIZE_Y ∧ ∀ x < 9, ∀ y < 9, PLAYFIELD g x y < 2 ^ 32

/-- Two cells in the same part of the puzzle. -/
def SamePart (c d : Nat × Nat) : Prop := c.1 / 3 = d.1 / 3 ∧ c.2 / 3 = d.2 / 3

/-- Two distinct cells that share a column, a row or a part. -/
def Peer (c d : Nat × Nat) : Prop := c ≠ d ∧ (c.1 = d.1 ∨ c.2 = d.2 ∨ SamePart c d)

/-- The playfield and change counter `t` are reached from `s` by eliminations:
each one clears from a cell that is not solid a mask `m` that meets the cell,
every bit of `m` being the value of a solid peer, and counts one change. -/
inductive Elim : PState → PState → Prop where
  | refl (s : PState) : Elim s s
  | write {s s1 : PState} (x y m : Nat) : Elim s s1 → x < 9 → y < 9 →
      ¬ Solid (PLAYFIELD s1.1 x y) → PLAYFIELD s1.1 x y &&& m ≠ 0 →
      (∀ v, m.testBit v = true → 1 ≤ v ∧ v ≤ 9 ∧
        ∃ c : Nat × Nat, c.1 < 9 ∧ c.2 < 9 ∧ Peer (x, y) c ∧ PLAYFIELD s1.1 c.1 c.2 = 1 <<< v) →
      Elim s (setPLAYFIELD s1.1 x y (PLAYFIELD s1.1 x y &&& NOT32 m), s1.2 + 1)

/-- What both scans of step 1 do with one cell `d` of the line. -/
def clearCell (step : Nat) (d : Nat × Nat) (s : PState) : Except Grid PState :=
  if PLAYFIELD s.1 d.1 d.2 = 1 <<< step then .error s.1
  else if PLAYFIELD s.1 d.1 d.2 &&& (1 <<< step) ≠ 0 then
    .ok (setPLAYFIELD s.1 d.1 d.2 (PLAYFIELD s.1 d.1 d.2 &&& NOT32 (1 <<< step)), s.2 + 1)
  else .ok s

/-- Eliminations of the value `v` only: a cell that changed was not `1 << v`
and has lost exactly bit `v`. -/
def StepV (v : Nat) (s t : PState) : Prop :=
  Elim s t ∧ ∀ x < 9, ∀ y < 9, PLAYFIELD t.1 x y = PLAYFIELD s.1 x y ∨
    ((PLAYFIELD t.1 x y).testBit v = false ∧ PLAYFIELD s.1 x y ≠ 1 <<< v ∧
      PLAYFIELD t.1 x y = PLAYFIELD s.1 x y &&& NOT32 (1 <<< v))

/-- The cells that hold `1 << v`, in the scan order of `locate_num`. -/
def solids (g : Grid) (v : Nat) : List (Nat × Nat) :=
  scanOrder.filter (fun c => decide (PLAYFIELD g c.1 c.2 = 1 <<< v))

/-- Two cells on one line: the same column or the same row. -/
def SameLine (c d : Nat × Nat) : Prop := c.1 = d.1 ∨ c.2 = d.2

/-! ## Playfields used as examples -/

/-- The playfield that `load_playfield` builds from rows of digits, where `0`
stands for the character `.` (a cell that starts as `ANY_NUMBER`). -/
def loaded (digits : List Nat) : Grid :=
  digits.map (fun d => if d = 0 then ANY_NUMBER else 1 <<< d)

/-- Two cells of row 0 hold the digit 1. -/
def gridRowDup : Grid := loaded
  [1,1,0, 0,0,0, 0,0,0,
   0,0,0, 0,0,0, 0,0,0,
   0,0,0, 0,0,0, 0,0,0,
   0,0,0, 0,0,0, 0,0,0,
   0,0,0, 0,0,0, 0,0,0,
   0,0,0, 0,0,0, 0,0,0,
   0,0,0, 0,0,0, 0,0,0,
   0,0,0, 0,0,0, 0,0,0,
   0,0,0, 0,0,0, 0,0,0]

/-- No cell is known. -/
def gridOpen : Grid := loaded (List.replicate 81 0)

/-- No cell of the playfield is empty. -/
def NoEmptyCell (g : Grid) : Prop := ∀ x < 9, ∀ y < 9, PLAYFIELD g x y ≠ 0

/-- Every cell of the playfield is a subset of the bits 1..9:
`cell & ~ANY_NUMBER` is zero. -/
def InDomain (g : Grid) : Prop := ∀ x < 9, ∀ y < 9, PLAYFIELD g x y &&& NOT32 ANY_NUMBER = 0

/-- A solved puzzle. -/
def gridSolved : Grid := loaded
  [5,3,4, 6,7,8, 9,1,2,
   6,7,2, 1,9,5, 3,4,8,
   1,9,8, 3,4,2, 5,6,7,
   8,5,9, 7,6,1, 4,2,3,
   4,2,6, 8,5,3, 7,9,1,
   7,1,3, 9,2,4, 8,5,6,
   9,6,1, 5,3,7, 2,8,4,
   2,8,7, 4,1,9, 6,3,5,
   3,4,5, 2,8,6, 1,7,9]

/-- Every row and every column holds each digit once, the parts do not. -/
def gridLatin : Grid := loaded
  [1,2,3, 4,5,6, 7,8,9,
   2,3,4, 5,6,7, 8,9,1,
   3,4,5, 6,7,8, 9,1,2,
   4,5,6, 7,8,9, 1,2,3,
   5,6,7, 8,9,1, 2,3,4,
   6,7,8, 9,1,2, 3,4,5,
   7,8,9, 1,2,3, 4,5,6,
   8,9,1, 2,3,4, 5,6,7,
   9,1,2, 3,4,5, 6,7,8]

/-- Two distinct cells on one line hold the same solid value: what makes
step 1 of `preprocess` stop with `return -1`. -/
def Conflict (g : Grid) : Prop :=
  ∃ (v : Nat) (c d : Nat × Nat), 1 ≤ v ∧ v ≤ 9 ∧ c.1 < 9 ∧ c.2 < 9 ∧ d.1 < 9 ∧ d.2 < 9 ∧
    d ≠ c ∧ SameLine d c ∧ PLAYFIELD g c.1 c.2 = 1 <<< v ∧ PLAYFIELD g d.1 d.2 = 1 <<< v

/-- A fully solved playfield: every cell is solid and every row, every column
and every part holds each value of `1..9` exactly once. -/
def IsSolution (g : Grid) : Prop :=
  WF g ∧ (∀ x < 9, ∀ y < 9, Solid (PLAYFIELD g x y)) ∧
  (∀ y < 9, ∀ v, 1 ≤ v → v ≤ 9 → ∃! x, x < 9 ∧ PLAYFIELD g x y = 1 <<< v) ∧
  (∀ x < 9, ∀ v, 1 ≤ v → v ≤ 9 → ∃! y, y < 9 ∧ PLAYFIELD g x y = 1 <<< v) ∧
  (∀ p ∈ partOrigins, ∀ v, 1 ≤ v → v ≤ 9 →
    ∃! o, o ∈ partOrder ∧ PLAYFIELD g (p.1 + o.1) (p.2 + o.2) = 1 <<< v)

/-- Every value of `1..9` occurs in every row, every column and every part. -/
def AllOccur (g : Grid) : Prop :=
  (∀ y < 9, ∀ v < 9, ∃ x < 9, PLAYFIELD g x y = 1 <<< (v + 1)) ∧
  (∀ x < 9, ∀ v < 9, ∃ y < 9, PLAYFIELD g x y = 1 <<< (v + 1)) ∧
  (∀ p ∈ partOrigins, ∀ v < 9, ∃ o ∈ partOrder, PLAYFIELD g (p.1 + o.1) (p.2 + o.2) = 1 <<< (v + 1))

/-- A well-formed playfield whose cells are subsets of the bits 1..9. -/
def Dom (g : Grid) : Prop := WF g ∧ InDomain g

/-- The playfield `g` still allows the solution `sol`: every cell of `g` has the
bit of the value that the cell holds in `sol`. -/
def Consistent (sol g : Grid) : Prop :=
  ∀ x < 9, ∀ y < 9, ∀ w, PLAYFIELD sol x y = 1 <<< w → (PLAYFIELD g x y).testBit w = true

/-- The playfield loaded from the digits of `sol` with the whole row `r`
replaced by the character `.`: the cells of that row are `ANY_NUMBER`. -/
def blankRow (sol : Grid) (r : Nat) : Grid :=
  (List.range (SIZE_X * SIZE_Y)).map
    (fun i => if i / SIZE_X = r then ANY_NUMBER else sol.getD i 0)

/-- The result of a call that returned. -/
def Outcome.result {α : Type} : Outcome α → Option α
  | .done a => some a
  | _ => none

/-- The pair of row `y` and value `v` is the only one for which exactly one cell
of the row is an open spot for the value. -/
def OnlyForcedSingle (g : Grid) (y v : Nat) : Prop :=
  countOpen g (rowCells y) v = 1 ∧
    ∀ y1 < 9, ∀ v1 < 9, countOpen g (rowCells y1) (v1 + 1) = 1 → y1 = y ∧ v1 + 1 = v

/-- A file in which the top-left part holds the digit 2 twice, off any common
line, and lacks 1 and 9. -/
def gridFlip : Grid := loaded
  [0,2,3, 0,0,0, 0,0,0,
   4,5,2, 1,0,0, 0,0,0,
   6,7,8, 0,0,0, 1,0,0,
   0,0,0, 0,0,0, 0,0,0,
   0,0,0, 0,0,0, 0,0,0,
   0,0,0, 0,0,0, 0,0,0,
   0,0,0, 0,0,0, 0,0,0,
   0,0,0, 0,0,0, 0,0,0,
   0,0,0, 0,0,0, 0,0,0]

/-- The playfield with which `main` calls `solver` after loading `gridFlip`:
the one that the first call of `preprocess` leaves, written out cell by cell. -/
def gridFlipSolver : Grid :=
  [514, 4, 8, 1008, 1008, 1008, 1008, 1008, 1008,
   16, 32, 4, 2, 968, 968, 968, 968, 968,
   64, 128, 256, 572, 572, 572, 2, 572, 572,
   942, 858, 754, 1020, 1022, 1022, 1020, 1022, 1022,
   942, 858, 754, 1020, 1022, 1022, 1020, 1022, 1022,
   942, 858, 754, 1020, 1022, 1022, 1020, 1022, 1022,
   942, 858, 754, 1020, 1022, 1022, 1020, 1022, 1022,
   942, 858, 754, 1020, 1022, 1022, 1020, 1022, 1022,
   942, 858, 754, 1020, 1022, 1022, 1020, 1022, 1022]

/-- The playfield after `solver` has set the cell `(0, 0)` of `gridFlipSolver`
to the value 1 and its loop over `preprocess` has ended, written out cell by
cell. -/
def gridFlipA : Grid :=
  [2, 4, 8, 1008, 1008, 1008, 1008, 1008, 1008,
   16, 32, 4, 2, 968, 968, 968, 968, 968,
   64, 128, 256, 572, 572, 572, 2, 572, 572,
   940, 858, 754, 1020, 1022, 1022, 1020, 1022, 1022,
   940, 858, 754, 1020, 1022, 1022, 1020, 1022, 1022,
   940, 858, 754, 1020, 1022, 1022, 1020, 1022, 1022,
   940, 858, 754, 1020, 1022, 1022, 1020, 1022, 1022,
   940, 858, 754, 1020, 1022, 1022, 1020, 1022, 1022,
   940, 858, 754, 1020, 1022, 1022, 1020, 1022, 1022]

/-- The playfield after the first call of `postprocess` on `gridFlipA`, written
out cell by cell. -/
def gridFlipB : Grid :=
  [512, 4, 8, 496, 496, 496, 496, 496, 496,
   16, 32, 4, 2, 968, 968, 968, 968, 968,
   64, 128, 256, 572, 572, 572, 2, 572, 572,
   428, 858, 754, 1020, 1022, 1022, 1020, 1022, 1022,
   428, 858, 754, 1020, 1022, 1022, 1020, 1022, 1022,
   428, 858, 754, 1020, 1022, 1022, 1020, 1022, 1022,
   428, 858, 754, 1020, 1022, 1022, 1020, 1022, 1022,
   428, 858, 754, 1020, 1022, 1022, 1020, 1022, 1022,
   428, 858, 754, 1020, 1022, 1022, 1020, 1022, 1022]

/-- The playfield after the second call of `postprocess`, written out cell by
cell. -/
def gridFlipC : Grid :=
  [2, 4, 8, 496, 496, 496, 496, 496, 496,
   16, 32, 4, 2, 968, 968, 968, 968, 968,
   64, 128, 256, 572, 572, 572, 2, 572, 572,
   428, 858, 754, 1020, 1022, 1022, 1020, 1022, 1022,
   428, 858, 754, 1020, 1022, 1022, 1020, 1022, 1022,
   428, 858, 754, 1020, 1022, 1022, 1020, 1022, 1022,
   428, 858, 754, 1020, 1022, 1022, 1020, 1022, 1022,
   428, 858, 754, 1020, 1022, 1022, 1020, 1022, 1022,
   428, 858, 754, 1020, 1022, 1022, 1020, 1022, 1022]

/-- Whether a call read or wrote outside an array. -/
def Outcome.isUndefined {α : Type} : Outcome α → Bool
  | .undefined => true
  | _ => false

/-- The solved puzzle `gridSolved` with the digit of the cell `(0, 0)` replaced
by the digit 3 of its right neighbour. -/
def gridAlmostSolved : Grid := loaded
  [3,3,4, 6,7,8, 9,1,2,
   6,7,2, 1,9,5, 3,4,8,
   1,9,8, 3,4,2, 5,6,7,
   8,5,9, 7,6,1, 4,2,3,
   4,2,6, 8,5,3, 7,9,1,
   7,1,3, 9,2,4, 8,5,6,
   9,6,1, 5,3,7, 2,8,4,
   2,8,7, 4,1,9, 6,3,5,
   3,4,5, 2,8,6, 1,7,9]

/-- Row 0 holds the digit 1 twice and row 8 lacks only its first digit. -/
def gridRowDupSingle : Grid := loaded
  [1,1,0, 0,0,0, 0,0,0,
   0,0,0, 0,0,0, 0,0,0,
   0,0,0, 0,0,0, 0,0,0,
   0,0,0, 0,0,0, 0,0,0,
   0,0,0, 0,0,0, 0,0,0,
   0,0,0, 0,0,0, 0,0,0,
   0,0,0, 0,0,0, 0,0,0,
   0,0,0, 0,0,0, 0,0,0,
   0,2,3, 4,5,6, 7,8,9]

/-- The playfield `gridRowDupSingle` after the first call of `preprocess`. -/
def gridRowDupSingleP : Grid := (preprocess gridRowDupSingle).2

/-- A puzzle on which the first guess of `solver` is wrong: the rows are
`.....6...`, `....8.123`, `.....3.56`, `21.36.89.`, `.6...7..4`, `.97..4...`,
`5.1......`, `.........`, `.....1..2`. -/
def gridRetry : Grid := loaded
  [0,0,0, 0,0,6, 0,0,0,
   0,0,0, 0,8,0, 1,2,3,
   0,0,0, 0,0,3, 0,5,6,
   2,1,0, 3,6,0, 8,9,0,
   0,6,0, 0,0,7, 0,0,4,
   0,9,7, 0,0,4, 0,0,0,
   5,0,1, 0,0,0, 0,0,0,
   0,0,0, 0,0,0, 0,0,0,
   0,0,0, 0,0,1, 0,0,2]

/-- The playfield of `preprocess` on `gridRetry` after the rounds of step 1 for
the values 1, 2 and 3, written out cell by cell; `numchanges` is 90. -/
def gridRetryA : Grid :=
  [1018, 1020, 1020, 1014, 1022, 64, 1020, 1018, 1010,
   1008, 1008, 1008, 1008, 256, 1008, 2, 4, 8,
   1010, 1012, 1012, 1014, 1014, 8, 1012, 32, 64,
   4, 2, 1008, 8, 64, 1008, 256, 512, 1008,
   1018, 64, 1020, 1014, 1022, 128, 1020, 1018, 16,
   1018, 512, 128, 1014, 1022, 16, 1020, 1018, 1010,
   32, 1020, 2, 1012, 1020, 1012, 1020, 1016, 1008,
   1018, 1020, 1020, 1014, 1022, 1012, 1020, 1018, 1010,
   1016, 1016, 1016, 1008, 1016, 2, 1016, 1016, 4]

/-- The playfield after the rounds of step 1 for the values 4, 5 and 6;
`numchanges` is 171. -/
def gridRetryB : Grid :=
  [922, 956, 956, 950, 958, 64, 956, 922, 930,
   976, 944, 1008, 1008, 256, 928, 2, 4, 8,
   914, 916, 916, 918, 918, 8, 916, 32, 64,
   4, 2, 944, 8, 64, 928, 256, 512, 928,
   906, 64, 940, 934, 942, 128, 940, 906, 16,
   970, 512, 128, 998, 942, 16, 1004, 970, 930,
   32, 924, 2, 980, 924, 900, 988, 984, 896,
   986, 956, 1020, 1014, 958, 932, 1020, 986, 930,
   984, 952, 1016, 1008, 952, 2, 1016, 984, 4]

/-- The playfield after step 1; `numchanges` is 235. -/
def gridRetryC : Grid :=
  [922, 444, 828, 950, 702, 64, 700, 410, 930,
   720, 176, 624, 752, 256, 544, 2, 4, 8,
   914, 404, 788, 918, 662, 8, 660, 32, 64,
   4, 2, 48, 8, 64, 32, 256, 512, 160,
   778, 64, 812, 806, 558, 128, 556, 266, 16,
   330, 512, 128, 358, 46, 16, 108, 330, 290,
   32, 412, 2, 980, 668, 772, 732, 472, 896,
   986, 444, 892, 1014, 702, 804, 764, 474, 930,
   984, 440, 888, 1008, 696, 2, 760, 472, 4]

/-- The playfield `gridRetry` after the first call of `preprocess`, written out
cell by cell. -/
def gridRetry1 : Grid :=
  [922, 444, 828, 694, 694, 64, 656, 400, 896,
   720, 176, 624, 688, 256, 544, 2, 4, 8,
   914, 404, 788, 662, 662, 8, 656, 32, 64,
   4, 2, 48, 8, 64, 32, 256, 512, 160,
   264, 64, 296, 774, 518, 128, 44, 10, 16,
   264, 512, 128, 262, 6, 16, 108, 74, 34,
   32, 412, 2, 980, 668, 772, 728, 472, 896,
   984, 412, 860, 1012, 700, 804, 760, 474, 930,
   984, 408, 856, 1008, 696, 2, 760, 472, 4]

/-- The playfield `gridRetry1` after a call of `preprocess`, written out cell by
cell. -/
def gridRetry2 : Grid :=
  [922, 444, 828, 182, 182, 64, 656, 400, 768,
   208, 176, 112, 176, 256, 512, 2, 4, 8,
   914, 404, 788, 150, 150, 8, 656, 32, 64,
   4, 2, 16, 8, 64, 32, 256, 512, 128,
   264, 64, 296, 774, 518, 128, 44, 10, 16,
   264, 512, 128, 262, 6, 16, 108, 74, 34,
   32, 412, 2, 980, 668, 260, 728, 472, 768,
   984, 412, 860, 1012, 700, 260, 760, 474, 802,
   984, 408, 856, 1008, 696, 2, 760, 472, 4]

/-- The playfield on which the loop `while (preprocess() > 0);` of `main` ends
for the puzzle `gridRetry`, written out cell by cell. -/
def gridRetryP : Grid :=
  [922, 444, 812, 182, 182, 64, 656, 400, 768,
   208, 176, 96, 176, 256, 512, 2, 4, 8,
   914, 404, 772, 150, 150, 8, 656, 32, 64,
   4, 2, 16, 8, 64, 32, 256, 512, 128,
   264, 64, 296, 774, 518, 128, 44, 10, 16,
   264, 512, 128, 262, 6, 16, 108, 74, 34,
   32, 412, 2, 980, 668, 260, 728, 472, 768,
   984, 412, 844, 1012, 700, 260, 760, 474, 802,
   984, 408, 840, 1008, 696, 2, 760, 472, 4]

/-- The playfield that the first call of `solver` leaves on `gridRetryP`,
written out cell by cell. -/
def gridRetryGuess : Grid :=
  [922, 412, 780, 182, 182, 64, 656, 400, 768,
   64, 144, 32, 144, 256, 512, 2, 4, 8,
   914, 404, 772, 150, 150, 8, 656, 32, 64,
   4, 2, 16, 8, 64, 32, 256, 512, 128,
   264, 64, 264, 774, 518, 128, 44, 10, 16,
   264, 512, 128, 262, 6, 16, 108, 74, 34,
   32, 412, 2, 980, 668, 260, 728, 472, 768,
   920, 412, 844, 1012, 700, 260, 760, 474, 802,
   920, 408, 840, 1008, 696, 2, 760, 472, 4]

/-- The state that the first call of `solver` leaves on `gridRetryP`: the
frame `backlog[0]` holds `gridRetryP`, the number 6, the instance 0 and the
direction `HORIZONTAL`. -/
def stateRetry : State :=
  ⟨gridRetryGuess, backlog0.set 0 ⟨gridRetryP, 6, 0, HORIZONTAL⟩, 1⟩

/-- The state that the second call of `solver` leaves. -/
def stateRetryEnd : State :=
  ⟨gridRetryP, backlog0.set 0 ⟨gridRetryP, 6, 1, HORIZONTAL⟩, 0⟩

/-- A solution of the puzzle `gridRetry`. -/
def solRetry : Grid := loaded
  [9,2,3, 1,5,6, 7,4,8,
   4,5,6, 7,8,9, 1,2,3,
   1,7,8, 2,4,3, 9,5,6,
   2,1,4, 3,6,5, 8,9,7,
   8,6,5, 9,1,7, 2,3,4,
   3,9,7, 8,2,4, 5,6,1,
   5,3,1, 4,7,2, 6,8,9,
   7,4,2, 6,9,8, 3,1,5,
   6,8,9, 5,3,1, 4,7,2]

/-- The pairs `(line, value)` in the order in which the loops of `solver` visit
them: the lines `0..8`, and for every line the values `1..9`. -/
def linePairs : List (Nat × Nat) :=
  (List.range SIZE_Y).flatMap (fun l => (List.range' 1 SIZE_X).map (fun v => (l, v)))

/-- The number of cells of row `q.1` that are not solid and have the bit of
the value `q.2`. -/
def rowCount (g : Grid) (q : Nat × Nat) : Nat := countOpen g (rowCells q.1) q.2

/-- The number of cells of column `q.1` that are not solid and have the bit of
the value `q.2`. -/
def colCount (g : Grid) (q : Nat × Nat) : Nat := countOpen g (colCells q.1) q.2

/-- The pair `q` is the first one in scan order that attains the smallest
positive count. -/
def FirstMin (count : Nat × Nat → Nat) (q : Nat × Nat) : Prop :=
  ∃ l1 l2, linePairs = l1 ++ q :: l2 ∧ 0 < count q ∧
    (∀ r ∈ linePairs, 0 < count r → count q ≤ count r) ∧ ∀ r ∈ l1, count r ≠ count q

/-- The locals of `solver` after its horizontal check. -/
def searchRows (g : Grid) : Sel :=
  (List.range SIZE_Y).foldl (selectRow g) ⟨0, 0, 0, SIZE_X, 0⟩

/-- The locals of `solver` after its vertical check. -/
def searchCols (g : Grid) : Sel :=
  (List.range SIZE_X).foldl (selectCol g) (searchRows g)

/-- One round of a check of `solver`, for the pair `q`. -/
def selStep (count : Nat × Nat → Nat) (mk : Nat × Nat → Sel) (s : Sel) (q : Nat × Nat) : Sel :=
  if count q < s.cur_less ∧ count q ≠ 0 then mk q else s

/-! ## Playfields between the calls of the examples, written out cell by cell -/

/-- The playfield of `preprocess` on `gridFlip` after the rounds of step 1 for the
values 1, 2 and 3; `numchanges` is 61. -/
def gridFlip1 : Grid :=
  [1010, 4, 8, 1008, 1010, 1010, 1008, 1010, 1010,
   16, 32, 4, 2, 1016, 1016, 1016, 1016, 1016,
   64, 128, 256, 1020, 1020, 1020, 2, 1020, 1020,
   1022, 1018, 1010, 1020, 1022, 1022, 1020, 1022, 1022,
   1022, 1018, 1010, 1020, 1022, 1022, 1020, 1022, 1022,
   1022, 1018, 1010, 1020, 1022, 1022, 1020, 1022, 1022,
   1022, 1018, 1010, 1020, 1022, 1022, 1020, 1022, 1022,
   1022, 1018, 1010, 1020, 1022, 1022, 1020, 1022, 1022,
   1022, 1018, 1010, 1020, 1022, 1022, 1020, 1022, 1022]

/-- The same after the rounds for the values 4, 5 and 6; `numchanges` is 96. -/
def gridFlip2 : Grid :=
  [930, 4, 8, 1008, 1010, 1010, 1008, 1010, 1010,
   16, 32, 4, 2, 968, 968, 968, 968, 968,
   64, 128, 256, 956, 956, 956, 2, 956, 956,
   942, 986, 1010, 1020, 1022, 1022, 1020, 1022, 1022,
   942, 986, 1010, 1020, 1022, 1022, 1020, 1022, 1022,
   942, 986, 1010, 1020, 1022, 1022, 1020, 1022, 1022,
   942, 986, 1010, 1020, 1022, 1022, 1020, 1022, 1022,
   942, 986, 1010, 1020, 1022, 1022, 1020, 1022, 1022,
   942, 986, 1010, 1020, 1022, 1022, 1020, 1022, 1022]

/-- The same after step 1; `numchanges` is 118. -/
def gridFlip3 : Grid :=
  [930, 4, 8, 1008, 1010, 1010, 1008, 1010, 1010,
   16, 32, 4, 2, 968, 968, 968, 968, 968,
   64, 128, 256, 572, 572, 572, 2, 572, 572,
   942, 858, 754, 1020, 1022, 1022, 1020, 1022, 1022,
   942, 858, 754, 1020, 1022, 1022, 1020, 1022, 1022,
   942, 858, 754, 1020, 1022, 1022, 1020, 1022, 1022,
   942, 858, 754, 1020, 1022, 1022, 1020, 1022, 1022,
   942, 858, 754, 1020, 1022, 1022, 1020, 1022, 1022,
   942, 858, 754, 1020, 1022, 1022, 1020, 1022, 1022]

/-- The playfield `gridRetryP` with the cell `(0, 1)` set to 6, after one call of
`preprocess`. -/
def gridRetryGuess1 : Grid :=
  [922, 412, 780, 182, 182, 64, 656, 400, 768,
   64, 144, 32, 176, 256, 512, 2, 4, 8,
   914, 404, 772, 150, 150, 8, 656, 32, 64,
   4, 2, 16, 8, 64, 32, 256, 512, 128,
   264, 64, 296, 774, 518, 128, 44, 10, 16,
   264, 512, 128, 262, 6, 16, 108, 74, 34,
   32, 412, 2, 980, 668, 260, 728, 472, 768,
   920, 412, 844, 1012, 700, 260, 760, 474, 802,
   920, 408, 840, 1008, 696, 2, 760, 472, 4]

/-- The playfield `gridRetryGuess` with the cell `(6, 4)` set to 5, after one call
of `preprocess`. -/
def gridRetryClash1 : Grid :=
  [922, 412, 780, 182, 182, 64, 656, 400, 768,
   64, 144, 32, 144, 256, 512, 2, 4, 8,
   914, 404, 772, 150, 150, 8, 656, 32, 64,
   4, 2, 16, 8, 64, 32, 256, 512, 128,
   264, 64, 264, 774, 518, 128, 32, 10, 16,
   264, 512, 128, 262, 6, 16, 76, 74, 2,
   32, 412, 2, 980, 668, 260, 728, 472, 768,
   920, 412, 844, 1012, 700, 260, 728, 474, 802,
   920, 408, 840, 1008, 696, 2, 728, 472, 4]

/-- The same after two calls of `preprocess`. -/
def gridRetryClash2 : Grid :=
  [922, 412, 780, 182, 178, 64, 656, 400, 768,
   64, 144, 32, 144, 256, 512, 2, 4, 8,
   914, 404, 772, 150, 146, 8, 656, 32, 64,
   4, 2, 16, 8, 64, 32, 256, 512, 128,
   256, 64, 256, 514, 514, 128, 32, 8, 16,
   8, 512, 128, 256, 4, 16, 72, 72, 2,
   32, 412, 2, 724, 664, 260, 728, 472, 768,
   920, 412, 844, 756, 696, 260, 728, 474, 800,
   920, 408, 840, 752, 696, 2, 728, 472, 4]

/-- The same after the third call of `preprocess`, which returns `-1`. -/
def gridRetryClash3 : Grid :=
  [914, 412, 780, 182, 178, 64, 656, 400, 768,
   64, 144, 32, 144, 256, 512, 2, 4, 8,
   914, 404, 772, 150, 146, 8, 656, 32, 64,
   4, 2, 16, 8, 64, 32, 256, 512, 128,
   256, 64, 256, 514, 514, 128, 32, 8, 16,
   8, 512, 128, 256, 4, 16, 64, 64, 2,
   32, 412, 2, 724, 664, 260, 664, 464, 768,
   912, 412, 844, 756, 696, 260, 664, 466, 800,
   912, 408, 840, 752, 696, 2, 664, 464, 4]


/-! # Theorems -/

/-! ## Bits -/

theorem testBit_bit (v i : Nat) : (1 <<< v).testBit i = decide (v = i) := by
  rw [Nat.one_shiftLeft]; exact Nat.testBit_two_pow

theorem bit_inj {v w : Nat} (h : 1 <<< v = 1 <<< w) : v = w := by
  have := testBit_bit v w
  rw [h, testBit_bit] at this
  simpa using this.symm

theorem and_bit_ne_zero (c v : Nat) : c &&& (1 <<< v) ≠ 0 ↔ c.testBit v = true := by
  constructor
  · intro h
    by_contra hb
    apply h
    apply Nat.eq_of_testBit_eq
    intro i
    rw [Nat.testBit_and, testBit_bit, Nat.zero_testBit]
    by_cases hvi : v = i
    · subst hvi; simp [hb]
    · simp [hvi]
  · intro h h0
    have := Nat.testBit_and c (1 <<< v) v
    rw [h0, testBit_bit, h] at this
    simp at this

theorem and_ne_zero_iff (c m : Nat) : c &&& m ≠ 0 ↔ ∃ i, c.testBit i = true ∧ m.testBit i = true := by
  constructor
  · intro h
    by_contra hne
    apply h
    apply Nat.eq_of_testBit_eq
    intro i
    rw [Nat.testBit_and, Nat.zero_testBit]
    by_contra hh
    apply hne
    refine ⟨i, ?_, ?_⟩
    · cases hc : c.testBit i <;> simp_all
    · cases hc : m.testBit i <;> simp_all
  · rintro ⟨i, hc, hm⟩ h0
    have := Nat.testBit_and c m i
    rw [h0, hc, hm] at this
    simp at this

theorem testBit_and_NOT32 {c : Nat} (hc : c < 2 ^ 32) (m i : Nat) :
    (c &&& NOT32 m).testBit i = (c.testBit i && !m.testBit i) := by
  unfold NOT32
  rw [Nat.testBit_and, Nat.testBit_xor, Nat.testBit_two_pow_sub_one]
  by_cases hi : i < 32
  · simp [hi]
  · have : c.testBit i = false :=
      Nat.testBit_lt_two_pow (lt_of_lt_of_le hc (Nat.pow_le_pow_right (by decide) (by omega)))
    simp [this]

theorem and_NOT32_lt {c : Nat} (hc : c < 2 ^ 32) (m : Nat) : c &&& NOT32 m < 2 ^ 32 :=
  lt_of_le_of_lt Nat.and_le_left hc

theorem any_bit_iff (c : Nat) :
    (List.range' 1 SIZE_X).any (fun i => c == 1 <<< i) = true ↔ Solid c := by
  unfold Solid
  simp only [List.any_eq_true, List.mem_range'_1, beq_iff_eq, SIZE_X]
  constructor
  · rintro ⟨v, ⟨h1, h2⟩, h3⟩
    exact ⟨v, h1, by omega, h3⟩
  · rintro ⟨v, h1, h2, h3⟩
    exact ⟨v, ⟨h1, by omega⟩, h3⟩

theorem check_solid_eq_one_iff (c : Nat) : check_solid c = 1 ↔ Solid c := by
  rw [← any_bit_iff]
  unfold check_solid
  by_cases h : (List.range' 1 SIZE_X).any (fun i => c == 1 <<< i) = true
  · simp [h]
  · simp [h]

theorem check_solid_eq_zero_iff (c : Nat) : check_solid c = 0 ↔ ¬ Solid c := by
  rw [← any_bit_iff]
  unfold check_solid
  by_cases h : (List.range' 1 SIZE_X).any (fun i => c == 1 <<< i) = true
  · simp [h]
  · simp [h]

theorem check_solid_ne_zero_iff (c : Nat) : check_solid c ≠ 0 ↔ Solid c := by
  rw [Ne, check_solid_eq_zero_iff, not_not]

theorem check_solid_bit {v : Nat} (h1 : 1 ≤ v) (h9 : v ≤ 9) : check_solid (1 <<< v) = 1 :=
  (check_solid_eq_one_iff _).2 ⟨v, h1, h9, rfl⟩

/-! ## Reading and writing cells -/

theorem PLAYFIELD_set_self {g : Grid} {x y : Nat} (h : y * SIZE_X + x < g.length) (v : Nat) :
    PLAYFIELD (setPLAYFIELD g x y v) x y = v := by
  unfold PLAYFIELD setPLAYFIELD
  rw [List.getD_eq_getElem?_getD, List.getElem?_set_self h]; rfl

theorem PLAYFIELD_set_ne {g : Grid} {x y x1 y1 : Nat} (h : y * SIZE_X + x ≠ y1 * SIZE_X + x1)
    (v : Nat) : PLAYFIELD (setPLAYFIELD g x y v) x1 y1 = PLAYFIELD g x1 y1 := by
  unfold PLAYFIELD setPLAYFIELD
  rw [List.getD_eq_getElem?_getD, List.getD_eq_getElem?_getD, List.getElem?_set_ne h]

theorem length_setPLAYFIELD (g : Grid) (x y v : Nat) :
    (setPLAYFIELD g x y v).length = g.length := by
  unfold setPLAYFIELD; simp

theorem index_inj {x y x1 y1 : Nat} (hx : x < 9) (hx1 : x1 < 9) :
    y * SIZE_X + x = y1 * SIZE_X + x1 ↔ x = x1 ∧ y = y1 := by
  simp only [SIZE_X]
  constructor
  · intro h; constructor <;> omega
  · rintro ⟨rfl, rfl⟩; rfl


/-! ## Loops -/

theorem forLoop_inv {ι σ ε : Type} {body : ι → σ → Except ε σ} (I : σ → Prop) (E : ε → Prop)
    (l : List ι)
    (hok : ∀ i ∈ l, ∀ s s1, I s → body i s = .ok s1 → I s1)
    (herr : ∀ i ∈ l, ∀ s e, I s → body i s = .error e → E e)
    (s : σ) (hs : I s) :
    (∀ s1, forLoop body l s = .ok s1 → I s1) ∧ (∀ e, forLoop body l s = .error e → E e) := by
  induction l generalizing s with
  | nil =>
    constructor
    · intro s1 h; simp only [forLoop, Except.ok.injEq] at h; exact h ▸ hs
    · intro e h; simp [forLoop] at h
  | cons i is ih =>
    simp only [forLoop]
    cases hb : body i s with
    | error e =>
      constructor
      · intro s1 h; simp at h
      · intro e1 h
        simp only [Except.error.injEq] at h
        exact h ▸ herr i (by simp) s e hs hb
    | ok s1 =>
      exact ih (fun j hj => hok j (by simp [hj])) (fun j hj => herr j (by simp [hj])) s1
        (hok i (by simp) s s1 hs hb)

theorem forLoop_append {ι σ ε : Type} (body : ι → σ → Except ε σ) (l1 l2 : List ι) (s : σ) :
    forLoop body (l1 ++ l2) s =
      match forLoop body l1 s with
      | .ok s1 => forLoop body l2 s1
      | .error e => .error e := by
  induction l1 generalizing s with
  | nil => simp [forLoop]
  | cons i is ih =>
    simp only [List.cons_append, forLoop]
    cases body i s with
    | error e => rfl
    | ok s1 => exact ih s1

theorem foldl_inv {ι σ : Type} {f : σ → ι → σ} (I : σ → Prop) (l : List ι)
    (h : ∀ i ∈ l, ∀ s, I s → I (f s i)) (s : σ) (hs : I s) : I (l.foldl f s) := by
  induction l generalizing s with
  | nil => exact hs
  | cons i is ih =>
    exact ih (fun j hj => h j (by simp [hj])) (f s i) (h i (by simp) s hs)

/-! ## Scan orders -/

theorem mem_scanOrder (c : Nat × Nat) : c ∈ scanOrder ↔ c.1 < 9 ∧ c.2 < 9 := by
  obtain ⟨x, y⟩ := c
  simp only [scanOrder, List.mem_flatMap, List.mem_range, List.mem_map, Prod.mk.injEq]
  constructor
  · rintro ⟨y1, hy, x1, hx, rfl, rfl⟩; exact ⟨hx, hy⟩
  · rintro ⟨hx, hy⟩; exact ⟨y, hy, x, hx, rfl, rfl⟩

theorem mem_partOrder (o : Nat × Nat) : o ∈ partOrder ↔ o.1 < 3 ∧ o.2 < 3 := by
  obtain ⟨x, y⟩ := o
  simp only [partOrder, List.mem_flatMap, List.mem_range, List.mem_map, Prod.mk.injEq]
  constructor
  · rintro ⟨y1, hy, x1, hx, rfl, rfl⟩; exact ⟨hx, hy⟩
  · rintro ⟨hx, hy⟩; exact ⟨y, hy, x, hx, rfl, rfl⟩

theorem mem_partOrigins (p : Nat × Nat) :
    p ∈ partOrigins ↔ ∃ i < 3, ∃ j < 3, p = (i * 3, j * 3) := by
  obtain ⟨x, y⟩ := p
  simp only [partOrigins, List.mem_flatMap, List.mem_range, List.mem_map, Prod.mk.injEq]
  constructor
  · rintro ⟨j, hj, i, hi, rfl, rfl⟩; exact ⟨i, hi, j, hj, rfl, rfl⟩
  · rintro ⟨i, hi, j, hj, rfl, rfl⟩; exact ⟨j, hj, i, hi, rfl, rfl⟩

theorem mem_rowCells (c : Nat × Nat) (y : Nat) : c ∈ rowCells y ↔ c.1 < 9 ∧ c.2 = y := by
  obtain ⟨x1, y1⟩ := c
  simp only [rowCells, List.mem_map, List.mem_range, Prod.mk.injEq]
  constructor
  · rintro ⟨x, hx, rfl, rfl⟩; exact ⟨hx, rfl⟩
  · rintro ⟨hx, rfl⟩; exact ⟨x1, hx, rfl, rfl⟩

theorem mem_colCells (c : Nat × Nat) (x : Nat) : c ∈ colCells x ↔ c.1 = x ∧ c.2 < 9 := by
  obtain ⟨x1, y1⟩ := c
  simp only [colCells, List.mem_map, List.mem_range, Prod.mk.injEq]
  constructor
  · rintro ⟨y, hy, rfl, rfl⟩; exact ⟨rfl, hy⟩
  · rintro ⟨rfl, hy⟩; exact ⟨y1, hy, rfl, rfl⟩

/-! ## locate_num -/

theorem locate_scan_some {g : Grid} {num : Nat} {cs : List (Nat × Nat)} {inst : Nat}
    {c : Nat × Nat} (h : locate_scan g num cs inst = some c) :
    c ∈ cs ∧ PLAYFIELD g c.1 c.2 = 1 <<< num := by
  induction cs generalizing inst with
  | nil => simp [locate_scan] at h
  | cons d ds ih =>
    simp only [locate_scan] at h
    split at h
    · rename_i hd
      cases inst with
      | zero =>
        simp only [Option.some.injEq] at h
        subst h
        exact ⟨by simp, hd⟩
      | succ k =>
        have := ih h
        exact ⟨by simp [this.1], this.2⟩
    · have := ih h
      exact ⟨by simp [this.1], this.2⟩

theorem locate_num_some {g : Grid} {num inst : Nat} {c : Nat × Nat}
    (h : locate_num g num inst = some c) :
    c.1 < 9 ∧ c.2 < 9 ∧ PLAYFIELD g c.1 c.2 = 1 <<< num := by
  have := locate_scan_some h
  exact ⟨((mem_scanOrder c).1 this.1).1, ((mem_scanOrder c).1 this.1).2, this.2⟩

/-- The scan of `locate_num` is the lookup of the instance in the list of the
cells that hold `1 << num`. -/
theorem locate_scan_eq (g : Grid) (num : Nat) (cs : List (Nat × Nat)) (inst : Nat) :
    locate_scan g num cs inst =
      (cs.filter (fun c => decide (PLAYFIELD g c.1 c.2 = 1 <<< num)))[inst]? := by
  induction cs generalizing inst with
  | nil => simp [locate_scan]
  | cons d ds ih =>
    simp only [locate_scan]
    by_cases hd : PLAYFIELD g d.1 d.2 = 1 <<< num
    · rw [if_pos hd, List.filter_cons_of_pos (by simpa using hd)]
      cases inst with
      | zero => simp
      | succ k => simp [ih]
    · rw [if_neg hd, List.filter_cons_of_neg (by simpa using hd)]
      exact ih inst

theorem forLoop_visit {ι σ ε : Type} {body : ι → σ → Except ε σ} (I : σ → Prop)
    (Q : ι → σ → Prop) (l : List ι)
    (hok : ∀ i ∈ l, ∀ s s1, I s → body i s = .ok s1 → I s1 ∧ Q i s1)
    (hQ : ∀ i ∈ l, ∀ j ∈ l, ∀ s s1, I s → Q i s → body j s = .ok s1 → Q i s1)
    (s s1 : σ) (hs : I s) (h : forLoop body l s = .ok s1) : I s1 ∧ ∀ i ∈ l, Q i s1 := by
  have key : ∀ (l1 : List ι), (∀ i ∈ l1, i ∈ l) → ∀ (P : List ι) (s : σ), I s →
      (∀ i ∈ P, i ∈ l ∧ Q i s) → forLoop body l1 s = .ok s1 →
      I s1 ∧ (∀ i ∈ P, Q i s1) ∧ ∀ i ∈ l1, Q i s1 := by
    intro l1
    induction l1 with
    | nil =>
      intro _ P s hs hP h
      simp only [forLoop, Except.ok.injEq] at h
      subst h
      exact ⟨hs, fun i hi => (hP i hi).2, by simp⟩
    | cons j js ih =>
      intro hsub P s hs hP h
      simp only [forLoop] at h
      cases hb : body j s with
      | error e => rw [hb] at h; simp at h
      | ok s2 =>
        rw [hb] at h
        have hj : j ∈ l := hsub j (by simp)
        have h2 := hok j hj s s2 hs hb
        have := ih (fun i hi => hsub i (by simp [hi])) (j :: P) s2 h2.1 (by
          intro i hi
          rcases List.mem_cons.1 hi with rfl | hi
          · exact ⟨hj, h2.2⟩
          · exact ⟨(hP i hi).1, hQ i (hP i hi).1 j hj s s2 hs (hP i hi).2 hb⟩) h
        refine ⟨this.1, fun i hi => this.2.1 i (by simp [hi]), ?_⟩
        intro i hi
        rcases List.mem_cons.1 hi with rfl | hi
        · exact this.2.1 i (by simp)
        · exact this.2.2 i hi
  have := key l (fun _ h => h) [] s hs (by simp) h
  exact ⟨this.1, this.2.2⟩

/-! ## Eliminations -/

theorem Elim.trans {a b c : PState} (h1 : Elim a b) (h2 : Elim b c) : Elim a c := by
  induction h2 with
  | refl => exact h1
  | write x y m _ hx hy hns hm hj ih => exact Elim.write x y m ih hx hy hns hm hj

theorem Elim.length {s t : PState} (h : Elim s t) : t.1.length = s.1.length := by
  induction h with
  | refl => rfl
  | write x y m _ hx hy hns hm hj ih => simpa [length_setPLAYFIELD] using ih

theorem Elim.count {s t : PState} (h : Elim s t) : s.2 ≤ t.2 ∧ (t.2 = s.2 → t = s) := by
  induction h with
  | refl => exact ⟨le_refl _, fun _ => rfl⟩
  | write x y m _ hx hy hns hm hj ih =>
    refine ⟨by have := ih.1; simp only; omega, fun h => ?_⟩
    have := ih.1
    simp only at h
    omega

theorem Elim.solid_fixed {s t : PState} (h : Elim s t) {x y : Nat} (hx : x < 9)
    (hsol : Solid (PLAYFIELD s.1 x y)) : PLAYFIELD t.1 x y = PLAYFIELD s.1 x y := by
  induction h with
  | refl => rfl
  | write x1 y1 m _ hx1 hy1 hns hm hj ih =>
    by_cases hxy : y1 * SIZE_X + x1 = y * SIZE_X + x
    · obtain ⟨rfl, rfl⟩ := (index_inj hx1 hx).1 hxy
      rw [ih] at hns
      exact absurd hsol hns
    · rw [PLAYFIELD_set_ne hxy, ih]

theorem PLAYFIELD_set {g : Grid} (hg : g.length = SIZE_X * SIZE_Y) {x y x1 y1 : Nat}
    (hx : x < 9) (hy : y < 9) (hx1 : x1 < 9) (v : Nat) :
    PLAYFIELD (setPLAYFIELD g x y v) x1 y1 = if x1 = x ∧ y1 = y then v else PLAYFIELD g x1 y1 := by
  by_cases h : x1 = x ∧ y1 = y
  · obtain ⟨rfl, rfl⟩ := h
    rw [PLAYFIELD_set_self (by rw [hg]; simp only [SIZE_X, SIZE_Y]; omega)]; simp
  · rw [if_neg h, PLAYFIELD_set_ne]
    intro h2
    exact h ((index_inj hx hx1).1 h2 |>.imp Eq.symm Eq.symm)

theorem WF_set {g : Grid} (hg : WF g) {x y v : Nat} (hx : x < 9) (hy : y < 9)
    (hv : v < 2 ^ 32) : WF (setPLAYFIELD g x y v) := by
  refine ⟨by rw [length_setPLAYFIELD]; exact hg.1, ?_⟩
  intro x1 hx1 y1 hy1
  rw [PLAYFIELD_set hg.1 hx hy hx1]
  split
  · exact hv
  · exact hg.2 x1 hx1 y1 hy1

theorem Elim.wf {s t : PState} (h : Elim s t) (hs : WF s.1) : WF t.1 := by
  induction h with
  | refl => exact hs
  | write x y m _ hx hy hns hm hj ih =>
    exact WF_set ih hx hy (and_NOT32_lt (ih.2 x hx y hy) m)

theorem Elim.sub {s t : PState} (h : Elim s t) (hs : WF s.1) {x y : Nat} (hx : x < 9)
    (hy : y < 9) (i : Nat) (hb : (PLAYFIELD t.1 x y).testBit i = true) :
    (PLAYFIELD s.1 x y).testBit i = true := by
  induction h with
  | refl => exact hb
  | @write s1 x1 y1 m h1 hx1 hy1 hns hm hj ih =>
    have hw := h1.wf hs
    rw [PLAYFIELD_set hw.1 hx1 hy1 hx] at hb
    split at hb
    · rename_i heq
      obtain ⟨rfl, rfl⟩ := heq
      rw [testBit_and_NOT32 (hw.2 x hx y hy)] at hb
      simp only [Bool.and_eq_true] at hb
      exact ih hb.1
    · exact ih hb


/-! ## Step 1 of preprocess -/

theorem StepV.refl (v : Nat) (s : PState) : StepV v s s :=
  ⟨Elim.refl s, fun _ _ _ _ => Or.inl rfl⟩

theorem StepV.comp {v : Nat} {a b c : PState} (h1 : StepV v a b) (h2 : StepV v b c) :
    StepV v a c := by
  refine ⟨h1.1.trans h2.1, fun x hx y hy => ?_⟩
  rcases h2.2 x hx y hy with h | h
  · rw [h]; exact h1.2 x hx y hy
  · rcases h1.2 x hx y hy with h3 | h3
    · right; rw [← h3]
      exact h
    · refine Or.inr ⟨h.1, h3.2.1, ?_⟩
      rw [h.2.2, h3.2.2, Nat.land_assoc, Nat.and_self]

theorem StepV.lacksV {v : Nat} {s t : PState} (h : StepV v s t) {x y : Nat} (hx : x < 9)
    (hy : y < 9) (hb : (PLAYFIELD s.1 x y).testBit v = false) :
    (PLAYFIELD t.1 x y).testBit v = false := by
  rcases h.2 x hx y hy with h1 | h1
  · rw [h1]; exact hb
  · exact h1.1

theorem StepV.bit_iff {v : Nat} {s t : PState} (h : StepV v s t) {x y : Nat} (hx : x < 9)
    (hy : y < 9) : PLAYFIELD t.1 x y = 1 <<< v ↔ PLAYFIELD s.1 x y = 1 <<< v := by
  rcases h.2 x hx y hy with h1 | h1
  · rw [h1]
  · constructor
    · intro h2
      rw [h2, testBit_bit] at h1
      simp at h1
    · intro h2; exact absurd h2 h1.2.1

theorem StepV.solids_eq {v : Nat} {s t : PState} (h : StepV v s t) :
    solids t.1 v = solids s.1 v := by
  unfold solids
  apply List.filter_congr
  intro c hc
  have := (mem_scanOrder c).1 hc
  simp only [decide_eq_decide]
  exact h.bit_iff this.1 this.2

theorem clearCell_spec {v : Nat} {c d : Nat × Nat} {s : PState} (hw : WF s.1)
    (hv1 : 1 ≤ v) (hv9 : v ≤ 9) (hc1 : c.1 < 9) (hc2 : c.2 < 9) (hd1 : d.1 < 9) (hd2 : d.2 < 9)
    (hne : d ≠ c) (hl : SameLine d c) (hc : PLAYFIELD s.1 c.1 c.2 = 1 <<< v) :
    (∀ t, clearCell v d s = .ok t →
      StepV v s t ∧ PLAYFIELD t.1 c.1 c.2 = 1 <<< v ∧ (PLAYFIELD t.1 d.1 d.2).testBit v = false) ∧
    (∀ e, clearCell v d s = .error e → e = s.1 ∧ PLAYFIELD s.1 d.1 d.2 = 1 <<< v) := by
  unfold clearCell
  by_cases h1 : PLAYFIELD s.1 d.1 d.2 = 1 <<< v
  · rw [if_pos h1]
    exact ⟨fun t h => by simp at h, fun e h => by simp at h; exact ⟨h.symm, h1⟩⟩
  · rw [if_neg h1]
    by_cases h2 : PLAYFIELD s.1 d.1 d.2 &&& (1 <<< v) ≠ 0
    · rw [if_pos h2]
      refine ⟨fun t h => ?_, fun e h => by simp at h⟩
      simp only [Except.ok.injEq] at h
      subst h
      have hbit := (and_bit_ne_zero _ _).1 h2
      have hnew : (PLAYFIELD s.1 d.1 d.2 &&& NOT32 (1 <<< v)).testBit v = false := by
        rw [testBit_and_NOT32 (hw.2 _ hd1 _ hd2), testBit_bit]; simp
      refine ⟨⟨?_, ?_⟩, ?_, ?_⟩
      · refine Elim.write d.1 d.2 (1 <<< v) (Elim.refl s) hd1 hd2 ?_ h2 ?_
        · rintro ⟨w, _, _, hw2⟩
          rw [hw2, testBit_bit] at hbit
          simp only [decide_eq_true_eq] at hbit
          exact h1 (hbit ▸ hw2)
        · intro i hi
          rw [testBit_bit] at hi
          simp only [decide_eq_true_eq] at hi
          subst hi
          exact ⟨hv1, hv9, c, hc1, hc2, ⟨hne, hl.elim Or.inl (fun h => Or.inr (Or.inl h))⟩, hc⟩
      · intro x hx y hy
        simp only
        rw [PLAYFIELD_set hw.1 hd1 hd2 hx]
        split
        · rename_i h
          rw [h.1, h.2]
          exact Or.inr ⟨hnew, h1, rfl⟩
        · exact Or.inl rfl
      · simp only
        rw [PLAYFIELD_set hw.1 hd1 hd2 hc1, if_neg, hc]
        rintro ⟨h3, h4⟩
        exact hne (Prod.ext h3.symm h4.symm)
      · simp only
        rw [PLAYFIELD_set hw.1 hd1 hd2 hd1, if_pos ⟨rfl, rfl⟩]
        exact hnew
    · rw [if_neg h2]
      refine ⟨fun t h => ?_, fun e h => by simp at h⟩
      simp only [Except.ok.injEq] at h
      subst h
      refine ⟨StepV.refl v s, hc, ?_⟩
      by_contra h3
      exact h2 ((and_bit_ne_zero _ _).2 (by simpa using h3))

theorem clearColumn_eq (v fx fy y : Nat) (s : PState) :
    clearColumn v fx fy y s = if y = fy then .ok s else clearCell v (fx, y) s := rfl

theorem clearRow_eq (v fx fy x : Nat) (s : PState) :
    clearRow v fx fy x s = if x = fx then .ok s else clearCell v (x, fy) s := rfl


/-- The invariant of the scans of step 1 started in state `s0` for the solid
cell `c`. -/
theorem scan_inv_ok {v : Nat} {c d : Nat × Nat} {s0 s t : PState} (hw : WF s0.1)
    (hv1 : 1 ≤ v) (hv9 : v ≤ 9) (hc1 : c.1 < 9) (hc2 : c.2 < 9) (hd1 : d.1 < 9) (hd2 : d.2 < 9)
    (hne : d ≠ c) (hl : SameLine d c)
    (hI : StepV v s0 s ∧ PLAYFIELD s.1 c.1 c.2 = 1 <<< v) (h : clearCell v d s = .ok t) :
    (StepV v s0 t ∧ PLAYFIELD t.1 c.1 c.2 = 1 <<< v) ∧ StepV v s t ∧
      (PLAYFIELD t.1 d.1 d.2).testBit v = false := by
  have := (clearCell_spec (hI.1.1.wf hw) hv1 hv9 hc1 hc2 hd1 hd2 hne hl hI.2).1 t h
  exact ⟨⟨hI.1.comp this.1, this.2.1⟩, this.1, this.2.2⟩

theorem clearLines_spec {v : Nat} {c : Nat × Nat} {s : PState} (hw : WF s.1)
    (hv1 : 1 ≤ v) (hv9 : v ≤ 9) (hc1 : c.1 < 9) (hc2 : c.2 < 9)
    (hc : PLAYFIELD s.1 c.1 c.2 = 1 <<< v) :
    (∀ t, clearLines v c s = .ok t →
      StepV v s t ∧ PLAYFIELD t.1 c.1 c.2 = 1 <<< v ∧
      ∀ d : Nat × Nat, d.1 < 9 → d.2 < 9 → d ≠ c → SameLine d c →
        (PLAYFIELD t.1 d.1 d.2).testBit v = false) ∧
    (∀ e, clearLines v c s = .error e → ∃ n, StepV v s (e, n) ∧ Conflict e) := by
  -- the column scan
  have hcol_ok : ∀ y ∈ List.range SIZE_Y, ∀ a b : PState,
      (StepV v s a ∧ PLAYFIELD a.1 c.1 c.2 = 1 <<< v) → clearColumn v c.1 c.2 y a = .ok b →
      (StepV v s b ∧ PLAYFIELD b.1 c.1 c.2 = 1 <<< v) ∧ StepV v a b ∧
        (y ≠ c.2 → (PLAYFIELD b.1 c.1 y).testBit v = false) := by
    intro y hy a b hI hb
    rw [clearColumn_eq] at hb
    by_cases hyc : y = c.2
    · rw [if_pos hyc] at hb
      simp only [Except.ok.injEq] at hb
      subst hb
      exact ⟨hI, StepV.refl v a, fun h => absurd hyc h⟩
    · rw [if_neg hyc] at hb
      have := scan_inv_ok (d := (c.1, y)) hw hv1 hv9 hc1 hc2 hc1 (List.mem_range.1 hy)
        (fun h => hyc (congrArg Prod.snd h)) (Or.inl rfl) hI hb
      exact ⟨this.1, this.2.1, fun _ => this.2.2⟩
  have hcol_err : ∀ y ∈ List.range SIZE_Y, ∀ (a : PState) (e : Grid),
      (StepV v s a ∧ PLAYFIELD a.1 c.1 c.2 = 1 <<< v) → clearColumn v c.1 c.2 y a = .error e →
      ∃ n, StepV v s (e, n) ∧ Conflict e := by
    intro y hy a e hI hb
    rw [clearColumn_eq] at hb
    by_cases hyc : y = c.2
    · rw [if_pos hyc] at hb; simp at hb
    · rw [if_neg hyc] at hb
      obtain ⟨rfl, hd⟩ := (clearCell_spec (d := (c.1, y)) (hI.1.1.wf hw) hv1 hv9 hc1 hc2 hc1
        (List.mem_range.1 hy) (fun h => hyc (congrArg Prod.snd h)) (Or.inl rfl) hI.2).2 e hb
      exact ⟨a.2, hI.1, v, c, (c.1, y), hv1, hv9, hc1, hc2, hc1, List.mem_range.1 hy,
        fun h => hyc (congrArg Prod.snd h), Or.inl rfl, hI.2, hd⟩
  have hrow_ok : ∀ x ∈ List.range SIZE_X, ∀ a b : PState,
      (StepV v s a ∧ PLAYFIELD a.1 c.1 c.2 = 1 <<< v) → clearRow v c.1 c.2 x a = .ok b →
      (StepV v s b ∧ PLAYFIELD b.1 c.1 c.2 = 1 <<< v) ∧ StepV v a b ∧
        (x ≠ c.1 → (PLAYFIELD b.1 x c.2).testBit v = false) := by
    intro x hx a b hI hb
    rw [clearRow_eq] at hb
    by_cases hxc : x = c.1
    · rw [if_pos hxc] at hb
      simp only [Except.ok.injEq] at hb
      subst hb
      exact ⟨hI, StepV.refl v a, fun h => absurd hxc h⟩
    · rw [if_neg hxc] at hb
      have := scan_inv_ok (d := (x, c.2)) hw hv1 hv9 hc1 hc2 (List.mem_range.1 hx) hc2
        (fun h => hxc (congrArg Prod.fst h)) (Or.inr rfl) hI hb
      exact ⟨this.1, this.2.1, fun _ => this.2.2⟩
  have hrow_err : ∀ x ∈ List.range SIZE_X, ∀ (a : PState) (e : Grid),
      (StepV v s a ∧ PLAYFIELD a.1 c.1 c.2 = 1 <<< v) → clearRow v c.1 c.2 x a = .error e →
      ∃ n, StepV v s (e, n) ∧ Conflict e := by
    intro x hx a e hI hb
    rw [clearRow_eq] at hb
    by_cases hxc : x = c.1
    · rw [if_pos hxc] at hb; simp at hb
    · rw [if_neg hxc] at hb
      obtain ⟨rfl, hd⟩ := (clearCell_spec (d := (x, c.2)) (hI.1.1.wf hw) hv1 hv9 hc1 hc2
        (List.mem_range.1 hx) hc2 (fun h => hxc (congrArg Prod.fst h)) (Or.inr rfl) hI.2).2 e hb
      exact ⟨a.2, hI.1, v, c, (x, c.2), hv1, hv9, hc1, hc2, List.mem_range.1 hx, hc2,
        fun h => hxc (congrArg Prod.fst h), Or.inr rfl, hI.2, hd⟩
  have hI0 : StepV v s s ∧ PLAYFIELD s.1 c.1 c.2 = 1 <<< v := ⟨StepV.refl v s, hc⟩
  unfold clearLines
  cases h1 : forLoop (clearColumn v c.1 c.2) (List.range SIZE_Y) s with
  | error e =>
    refine ⟨fun t h => by simp at h, fun e1 h => ?_⟩
    simp only [Except.error.injEq] at h
    subst h
    exact (forLoop_inv (fun a => StepV v s a ∧ PLAYFIELD a.1 c.1 c.2 = 1 <<< v)
      (fun e => ∃ n, StepV v s (e, n) ∧ Conflict e) _ (fun y hy a b hI hb => (hcol_ok y hy a b hI hb).1)
      hcol_err s hI0).2 e h1
  | ok s1 =>
    have hc1v := forLoop_visit (fun a => StepV v s a ∧ PLAYFIELD a.1 c.1 c.2 = 1 <<< v)
      (fun y a => y ≠ c.2 → (PLAYFIELD a.1 c.1 y).testBit v = false) _
      (fun y hy a b hI hb => ⟨(hcol_ok y hy a b hI hb).1, (hcol_ok y hy a b hI hb).2.2⟩)
      (fun i hi j hj a b hI hQ hb hne =>
        (hcol_ok j hj a b hI hb).2.1.lacksV hc1 (List.mem_range.1 hi) (hQ hne))
      s s1 hI0 h1
    simp only
    constructor
    · intro t h2
      have hr := forLoop_visit (fun a => StepV v s a ∧ PLAYFIELD a.1 c.1 c.2 = 1 <<< v ∧
          StepV v s1 a)
        (fun x a => x ≠ c.1 → (PLAYFIELD a.1 x c.2).testBit v = false) _
        (fun x hx a b hI hb =>
          ⟨⟨(hrow_ok x hx a b ⟨hI.1, hI.2.1⟩ hb).1.1, (hrow_ok x hx a b ⟨hI.1, hI.2.1⟩ hb).1.2,
            hI.2.2.comp (hrow_ok x hx a b ⟨hI.1, hI.2.1⟩ hb).2.1⟩,
            (hrow_ok x hx a b ⟨hI.1, hI.2.1⟩ hb).2.2⟩)
        (fun i hi j hj a b hI hQ hb hne =>
          (hrow_ok j hj a b ⟨hI.1, hI.2.1⟩ hb).2.1.lacksV (List.mem_range.1 hi) hc2 (hQ hne))
        s1 t ⟨hc1v.1.1, hc1v.1.2, StepV.refl v s1⟩ h2
      refine ⟨hr.1.1, hr.1.2.1, ?_⟩
      rintro ⟨x, y⟩ hd1 hd2 hne hl
      rcases hl with hl | hl
      · simp only at hl hd1 hd2 ⊢
        subst hl
        have hy : y ≠ c.2 := fun h => hne (Prod.ext rfl h)
        exact hr.1.2.2.lacksV hd1 hd2 (hc1v.2 y (List.mem_range.2 hd2) hy)
      · simp only at hl hd1 hd2 ⊢
        subst hl
        have hx : x ≠ c.1 := fun h => hne (Prod.ext h rfl)
        exact hr.2 x (List.mem_range.2 hd1) hx
    · intro e h2
      exact (forLoop_inv (fun a => StepV v s a ∧ PLAYFIELD a.1 c.1 c.2 = 1 <<< v)
        (fun e => ∃ n, StepV v s (e, n) ∧ Conflict e) _ (fun x hx a b hI hb => (hrow_ok x hx a b hI hb).1)
        hrow_err s1 hc1v.1).2 e h2


theorem locate_num_eq (g : Grid) (v inst : Nat) : locate_num g v inst = (solids g v)[inst]? :=
  locate_scan_eq g v scanOrder inst

theorem mem_solids {g : Grid} {v : Nat} {c : Nat × Nat} :
    c ∈ solids g v ↔ c.1 < 9 ∧ c.2 < 9 ∧ PLAYFIELD g c.1 c.2 = 1 <<< v := by
  unfold solids
  rw [List.mem_filter, mem_scanOrder]
  simp [and_assoc]

theorem solids_length_le (g : Grid) (v : Nat) : (solids g v).length ≤ 81 :=
  le_trans (List.length_filter_le _ _) (by decide)

theorem locateLoop_eq {v : Nat} (hv1 : 1 ≤ v) (hv9 : v ≤ 9) (fuel : Nat) :
    ∀ (inst : Nat) (s : PState), WF s.1 → (solids s.1 v).length < fuel + inst →
      locateLoop v fuel inst s = forLoop (clearLines v) ((solids s.1 v).drop inst) s := by
  induction fuel with
  | zero =>
    intro inst s _ hlen
    rw [List.drop_eq_nil_of_le (by omega)]
    rfl
  | succ k ih =>
    intro inst s hw hlen
    unfold locateLoop
    rw [locate_num_eq]
    by_cases hi : inst < (solids s.1 v).length
    · rw [List.getElem?_eq_getElem hi, List.drop_eq_getElem_cons hi]
      simp only [forLoop]
      have hmem : (solids s.1 v)[inst] ∈ solids s.1 v := List.getElem_mem hi
      have hc := mem_solids.1 hmem
      cases hb : clearLines v (solids s.1 v)[inst] s with
      | error e => rfl
      | ok s1 =>
        have hs := (clearLines_spec hw hv1 hv9 hc.1 hc.2.1 hc.2.2).1 s1 hb
        simp only
        rw [ih (inst + 1) s1 (hs.1.1.wf hw) (by rw [hs.1.solids_eq]; omega), hs.1.solids_eq]
    · rw [List.getElem?_eq_none (by omega), List.drop_eq_nil_of_le (by omega)]
      rfl

/-- The fuel of the loop over the instances is never used up. -/
theorem locateLoop_fuel {v : Nat} (hv1 : 1 ≤ v) (hv9 : v ≤ 9) {s : PState} (hw : WF s.1)
    {fuel : Nat} (hf : SIZE_X * SIZE_Y + 1 ≤ fuel) :
    locateLoop v fuel 0 s = locateLoop v (SIZE_X * SIZE_Y + 1) 0 s := by
  have := solids_length_le s.1 v
  rw [locateLoop_eq hv1 hv9 fuel 0 s hw (by simp only [SIZE_X, SIZE_Y] at hf; omega),
    locateLoop_eq hv1 hv9 _ 0 s hw (by simp only [SIZE_X, SIZE_Y]; omega)]

theorem locateLoop_spec {v : Nat} (hv1 : 1 ≤ v) (hv9 : v ≤ 9) {s : PState} (hw : WF s.1) :
    (∀ t, locateLoop v (SIZE_X * SIZE_Y + 1) 0 s = .ok t →
      StepV v s t ∧ ∀ c ∈ solids s.1 v, ∀ d : Nat × Nat, d.1 < 9 → d.2 < 9 → d ≠ c →
        SameLine d c → (PLAYFIELD t.1 d.1 d.2).testBit v = false) ∧
    (∀ e, locateLoop v (SIZE_X * SIZE_Y + 1) 0 s = .error e → ∃ n, StepV v s (e, n) ∧ Conflict e) := by
  have := solids_length_le s.1 v
  rw [locateLoop_eq hv1 hv9 _ 0 s hw (by simp only [SIZE_X, SIZE_Y]; omega), List.drop_zero]
  have hbody : ∀ c ∈ solids s.1 v, ∀ a : PState, StepV v s a →
      (∀ t, clearLines v c a = .ok t →
        StepV v a t ∧ PLAYFIELD t.1 c.1 c.2 = 1 <<< v ∧
        ∀ d : Nat × Nat, d.1 < 9 → d.2 < 9 → d ≠ c → SameLine d c →
          (PLAYFIELD t.1 d.1 d.2).testBit v = false) ∧
      (∀ e, clearLines v c a = .error e → ∃ n, StepV v a (e, n) ∧ Conflict e) := by
    intro c hc a ha
    have hc := mem_solids.1 hc
    exact clearLines_spec (ha.1.wf hw) hv1 hv9 hc.1 hc.2.1 ((ha.bit_iff hc.1 hc.2.1).2 hc.2.2)
  constructor
  · intro t h
    exact forLoop_visit (fun a => StepV v s a)
      (fun c a => ∀ d : Nat × Nat, d.1 < 9 → d.2 < 9 → d ≠ c → SameLine d c →
        (PLAYFIELD a.1 d.1 d.2).testBit v = false) _
      (fun c hc a b hI hb =>
        ⟨hI.comp ((hbody c hc a hI).1 b hb).1, ((hbody c hc a hI).1 b hb).2.2⟩)
      (fun i _ j hj a b hI hQ hb d hd1 hd2 hne hl =>
        ((hbody j hj a hI).1 b hb).1.lacksV hd1 hd2 (hQ d hd1 hd2 hne hl))
      s t (StepV.refl v s) h
  · intro e h
    exact (forLoop_inv (fun a => StepV v s a) (fun e => ∃ n, StepV v s (e, n) ∧ Conflict e) _
      (fun c hc a b hI hb => hI.comp ((hbody c hc a hI).1 b hb).1)
      (fun c hc a e hI hb => by
        obtain ⟨n, hn⟩ := (hbody c hc a hI).2 e hb
        exact ⟨n, hI.comp hn.1, hn.2⟩)
      s (StepV.refl v s)).2 e h

theorem Elim.lacks {s t : PState} (h : Elim s t) (hs : WF s.1) {x y : Nat} (hx : x < 9)
    (hy : y < 9) {i : Nat} (hb : (PLAYFIELD s.1 x y).testBit i = false) :
    (PLAYFIELD t.1 x y).testBit i = false := by
  by_contra h1
  have := h.sub hs hx hy i (by simpa using h1)
  rw [hb] at this
  simp at this

theorem preprocess_step1_spec {s : PState} (hw : WF s.1) :
    (∀ t, preprocess_step1 s = .ok t →
      Elim s t ∧ ∀ v, 1 ≤ v → v ≤ 9 → ∀ c : Nat × Nat, c.1 < 9 → c.2 < 9 →
        PLAYFIELD s.1 c.1 c.2 = 1 <<< v → ∀ d : Nat × Nat, d.1 < 9 → d.2 < 9 → d ≠ c →
        SameLine d c → (PLAYFIELD t.1 d.1 d.2).testBit v = false) ∧
    (∀ e, preprocess_step1 s = .error e → ∃ n, Elim s (e, n) ∧ Conflict e) := by
  unfold preprocess_step1
  have hr : ∀ v ∈ List.range' 1 SIZE_X, 1 ≤ v ∧ v ≤ 9 := by
    intro v hv
    rw [List.mem_range'_1] at hv
    simp only [SIZE_X] at hv
    omega
  constructor
  · intro t h
    have := forLoop_visit (fun a => Elim s a)
      (fun v a => ∀ c : Nat × Nat, c.1 < 9 → c.2 < 9 →
        PLAYFIELD s.1 c.1 c.2 = 1 <<< v → ∀ d : Nat × Nat, d.1 < 9 → d.2 < 9 → d ≠ c →
        SameLine d c → (PLAYFIELD a.1 d.1 d.2).testBit v = false) _
      (fun v hv a b hI hb => by
        have h1 := (locateLoop_spec (hr v hv).1 (hr v hv).2 (hI.wf hw)).1 b hb
        refine ⟨hI.trans h1.1.1, fun c hc1 hc2 hc d hd1 hd2 hne hl => ?_⟩
        refine h1.2 c (mem_solids.2 ⟨hc1, hc2, ?_⟩) d hd1 hd2 hne hl
        rw [hI.solid_fixed hc1 ⟨v, (hr v hv).1, (hr v hv).2, hc⟩]
        exact hc)
      (fun i hi j hj a b hI hQ hb c hc1 hc2 hc d hd1 hd2 hne hl =>
        ((locateLoop_spec (hr j hj).1 (hr j hj).2 (hI.wf hw)).1 b hb).1.1.lacks (hI.wf hw)
          hd1 hd2 (hQ c hc1 hc2 hc d hd1 hd2 hne hl))
      s t (Elim.refl s) h
    refine ⟨this.1, fun v hv1 hv9 => this.2 v ?_⟩
    rw [List.mem_range'_1]
    simp only [SIZE_X]
    omega
  · intro e h
    exact (forLoop_inv (fun a => Elim s a) (fun e => ∃ n, Elim s (e, n) ∧ Conflict e) _
      (fun v hv a b hI hb =>
        hI.trans ((locateLoop_spec (hr v hv).1 (hr v hv).2 (hI.wf hw)).1 b hb).1.1)
      (fun v hv a e hI hb => by
        obtain ⟨n, hn⟩ := (locateLoop_spec (hr v hv).1 (hr v hv).2 (hI.wf hw)).2 e hb
        exact ⟨n, hI.trans hn.1.1, hn.2⟩)
      s (Elim.refl s)).2 e h


/-! ## Step 2 of preprocess -/

theorem testBit_foldl_or (c : Nat) (l : List Nat) (mask v : Nat) :
    (l.foldl (fun mask num => if c = 1 <<< num then mask ||| (1 <<< num) else mask)
      mask).testBit v = true ↔ mask.testBit v = true ∨ (v ∈ l ∧ c = 1 <<< v) := by
  induction l generalizing mask with
  | nil => simp
  | cons n ns ih =>
    simp only [List.foldl_cons, List.mem_cons]
    rw [ih]
    by_cases hc : c = 1 <<< n
    · rw [if_pos hc, Nat.testBit_or, testBit_bit]
      constructor
      · rintro (h | h)
        · simp only [Bool.or_eq_true, decide_eq_true_eq] at h
          rcases h with h | h
          · exact Or.inl h
          · exact Or.inr ⟨Or.inl h.symm, h ▸ hc⟩
        · exact Or.inr ⟨Or.inr h.1, h.2⟩
      · rintro (h | ⟨h | h, h2⟩)
        · left; simp [h]
        · left; simp [h]
        · exact Or.inr ⟨h, h2⟩
    · rw [if_neg hc]
      constructor
      · rintro (h | h)
        · exact Or.inl h
        · exact Or.inr ⟨Or.inr h.1, h.2⟩
      · rintro (h | ⟨h | h, h2⟩)
        · exact Or.inl h
        · exact absurd (h ▸ h2) hc
        · exact Or.inr ⟨h, h2⟩

theorem testBit_partMask (g : Grid) (p : Nat × Nat) (v : Nat) :
    (partMask g p).testBit v = true ↔
      1 ≤ v ∧ v ≤ 9 ∧ ∃ o ∈ partOrder, PLAYFIELD g (p.1 + o.1) (p.2 + o.2) = 1 <<< v := by
  have key : ∀ (os : List (Nat × Nat)) (mask : Nat),
      (os.foldl (fun mask o =>
        (List.range' 1 SIZE_X).foldl (fun mask num =>
          if PLAYFIELD g (p.1 + o.1) (p.2 + o.2) = 1 <<< num then mask ||| (1 <<< num) else mask)
          mask) mask).testBit v = true ↔
      mask.testBit v = true ∨
        (v ∈ List.range' 1 SIZE_X ∧ ∃ o ∈ os, PLAYFIELD g (p.1 + o.1) (p.2 + o.2) = 1 <<< v) := by
    intro os
    induction os with
    | nil => intro mask; simp
    | cons o os ih =>
      intro mask
      simp only [List.foldl_cons]
      rw [ih, testBit_foldl_or]
      simp only [List.mem_cons, exists_eq_or_imp]
      tauto
  unfold partMask
  rw [key, List.mem_range'_1]
  simp only [Nat.zero_testBit, Bool.false_eq_true, false_or, SIZE_X]
  constructor
  · rintro ⟨⟨h1, h2⟩, h3⟩; exact ⟨h1, by omega, h3⟩
  · rintro ⟨h1, h2, h3⟩; exact ⟨⟨h1, by omega⟩, h3⟩

theorem removeMask_Elim {g0 : Grid} {p o : Nat × Nat} {s : PState}
    (hp : p ∈ partOrigins) (ho : o ∈ partOrder) {n : Int} (hs : Elim (g0, n) s) :
    Elim s (removeMask (partMask g0 p) p s o) := by
  obtain ⟨i, hi, j, hj, rfl⟩ := (mem_partOrigins p).1 hp
  have ho := (mem_partOrder o).1 ho
  unfold removeMask
  split
  · rename_i hc
    refine Elim.write _ _ _ (Elim.refl s) (by simp only; omega) (by simp only; omega)
      ((check_solid_eq_zero_iff _).1 hc.1) hc.2 ?_
    intro v hv
    obtain ⟨hv1, hv9, o1, ho1, hsol⟩ := (testBit_partMask _ _ _).1 hv
    have ho1 := (mem_partOrder o1).1 ho1
    refine ⟨hv1, hv9, (i * 3 + o1.1, j * 3 + o1.2), by simp only; omega, by simp only; omega, ?_, ?_⟩
    · have hsol2 : PLAYFIELD s.1 (i * 3 + o1.1) (j * 3 + o1.2) = 1 <<< v := by
        rw [← hsol]
        exact hs.solid_fixed (by omega) ⟨v, hv1, hv9, hsol⟩
      refine ⟨?_, Or.inr (Or.inr ⟨?_, ?_⟩)⟩
      · intro heq
        simp only [Prod.mk.injEq] at heq
        apply (check_solid_eq_zero_iff _).1 hc.1
        rw [heq.1, heq.2, hsol2]
        exact ⟨v, hv1, hv9, rfl⟩
      · simp only; omega
      · simp only; omega
    · rw [← hsol]
      exact hs.solid_fixed (by simp only; omega) ⟨v, hv1, hv9, hsol⟩
  · exact Elim.refl s

theorem preprocess_part_Elim {p : Nat × Nat} {s : PState}
    (hp : p ∈ partOrigins) : Elim s (preprocess_part s p) := by
  unfold preprocess_part
  exact foldl_inv (fun a => Elim s a) partOrder
    (fun o ho a ha => ha.trans (removeMask_Elim (n := s.2) hp ho ha)) s (Elim.refl s)

theorem preprocess_step2_Elim (s : PState) : Elim s (preprocess_step2 s) := by
  unfold preprocess_step2
  exact foldl_inv (fun a => Elim s a) partOrigins
    (fun p hp a ha => ha.trans (preprocess_part_Elim hp)) s (Elim.refl s)

/-! ## preprocess -/

theorem preprocess_ok {g : Grid} {s : PState} (h : preprocess_step1 (g, 0) = .ok s) :
    preprocess g = ((preprocess_step2 s).2, (preprocess_step2 s).1) := by
  unfold preprocess; rw [h]

theorem preprocess_error {g e : Grid} (h : preprocess_step1 (g, 0) = .error e) :
    preprocess g = (-1, e) := by
  unfold preprocess; rw [h]

/-- The playfield left by `preprocess` is reached by eliminations, and the
result is `-1` or their number. -/
theorem preprocess_Elim {g : Grid} (hw : WF g) :
    ∃ n, Elim (g, 0) ((preprocess g).2, n) ∧ ((preprocess g).1 = -1 ∨ (preprocess g).1 = n) := by
  cases h : preprocess_step1 (g, 0) with
  | error e =>
    obtain ⟨n, hn, _⟩ := (preprocess_step1_spec (s := (g, 0)) hw).2 e h
    rw [preprocess_error h]
    exact ⟨n, hn, Or.inl rfl⟩
  | ok s =>
    have h1 := ((preprocess_step1_spec (s := (g, 0)) hw).1 s h).1
    rw [preprocess_ok h]
    simp only
    refine ⟨(preprocess_step2 s).2, ?_, Or.inr (Eq.refl _)⟩
    simp only [Prod.mk.eta]
    exact h1.trans (preprocess_step2_Elim s)

theorem preprocess_WF {g : Grid} (hw : WF g) : WF (preprocess g).2 := by
  obtain ⟨n, hn, _⟩ := preprocess_Elim hw
  exact hn.wf hw

theorem preprocess_nonneg {g : Grid} (hw : WF g) (h : (preprocess g).1 ≠ -1) :
    0 ≤ (preprocess g).1 := by
  obtain ⟨n, hn, h1 | h1⟩ := preprocess_Elim hw
  · exact absurd h1 h
  · rw [h1]; exact hn.count.1

/-- When step 1 of `preprocess` runs through, no cell on the line of a cell
that was `1 << v` on entry has kept bit `v`. -/
theorem preprocess_lines {g : Grid} (hw : WF g) (h : (preprocess g).1 ≠ -1) {v : Nat}
    (hv1 : 1 ≤ v) (hv9 : v ≤ 9) {c d : Nat × Nat} (hc1 : c.1 < 9) (hc2 : c.2 < 9)
    (hc : PLAYFIELD g c.1 c.2 = 1 <<< v) (hd1 : d.1 < 9) (hd2 : d.2 < 9) (hne : d ≠ c)
    (hl : SameLine d c) : (PLAYFIELD (preprocess g).2 d.1 d.2).testBit v = false := by
  cases h1 : preprocess_step1 (g, 0) with
  | error e => rw [preprocess_error h1] at h; exact absurd rfl h
  | ok s =>
    have hs := (preprocess_step1_spec (s := (g, 0)) hw).1 s h1
    rw [preprocess_ok h1]
    simp only
    exact (preprocess_step2_Elim s).lacks (hs.1.wf hw) hd1 hd2
      (hs.2 v hv1 hv9 c hc1 hc2 hc d hd1 hd2 hne hl)

theorem preprocess_solid_fixed {g : Grid} (hw : WF g) {x y : Nat} (hx : x < 9)
    (hsol : Solid (PLAYFIELD g x y)) : PLAYFIELD (preprocess g).2 x y = PLAYFIELD g x y := by
  obtain ⟨n, hn, _⟩ := preprocess_Elim hw
  exact hn.solid_fixed hx hsol


theorem preprocess_conflict {g : Grid} (hw : WF g) (h : (preprocess g).1 = -1) :
    Conflict (preprocess g).2 := by
  cases h1 : preprocess_step1 (g, 0) with
  | error e =>
    obtain ⟨n, _, hc⟩ := (preprocess_step1_spec (s := (g, 0)) hw).2 e h1
    rw [preprocess_error h1]
    exact hc
  | ok s =>
    exfalso
    have h3 := ((preprocess_step1_spec (s := (g, 0)) hw).1 s h1).1
    have h4 := (h3.trans (preprocess_step2_Elim s)).count.1
    rw [preprocess_ok h1] at h
    simp only at h h4
    omega

theorem Elim.eq_of_solid {s t : PState} (h : Elim s t)
    (hs : ∀ x < 9, ∀ y < 9, Solid (PLAYFIELD s.1 x y)) : t = s := by
  induction h with
  | refl => rfl
  | write x y m _ hx hy hns hm hj ih =>
    rw [ih] at hns
    exact absurd (hs x hx y hy) hns

/-- On a playfield whose cells are all solid and without two equal cells on a
line, `preprocess` changes nothing and returns `0`. -/
theorem preprocess_of_solid {g : Grid} (hw : WF g)
    (hs : ∀ x < 9, ∀ y < 9, Solid (PLAYFIELD g x y)) (hc : ¬ Conflict g) :
    preprocess g = (0, g) := by
  obtain ⟨n, hn, h1⟩ := preprocess_Elim hw
  have heq := hn.eq_of_solid hs
  have hg : (preprocess g).2 = g := congrArg Prod.fst heq
  have hn0 : n = 0 := congrArg Prod.snd heq
  rcases h1 with h1 | h1
  · have := preprocess_conflict hw h1
    rw [hg] at this
    exact absurd this hc
  · exact Prod.ext (by rw [h1, hn0]) hg


/-- Two equal solid cells in one row make `preprocess` return `-1`: had step 1
run through, the second cell would have lost the bit that it still holds. -/
theorem preprocess_of_row_pair {g : Grid} (hw : WF g) {v x1 x2 y : Nat}
    (hv1 : 1 ≤ v) (hv9 : v ≤ 9) (hx1 : x1 < 9) (hx2 : x2 < 9) (hy : y < 9) (hne : x1 ≠ x2)
    (h1 : PLAYFIELD g x1 y = 1 <<< v) (h2 : PLAYFIELD g x2 y = 1 <<< v) :
    (preprocess g).1 = -1 := by
  by_contra h
  have hl := preprocess_lines hw h hv1 hv9 (c := (x1, y)) (d := (x2, y)) hx1 hy h1 hx2 hy
    (fun heq => hne (congrArg Prod.fst heq).symm) (Or.inr rfl)
  have hf := preprocess_solid_fixed hw hx2 (y := y) ⟨v, hv1, hv9, h2⟩
  simp only at hl
  rw [hf, h2, testBit_bit] at hl
  simp at hl


/-! ## check_solved -/

theorem lineMask_inner (g : Grid) (step i : Nat) (cells : List (Nat × Nat)) (mask : Nat)
    (hm : mask < 2 ^ 32) :
    (cells.foldl (fun mask c =>
      if check_solid (PLAYFIELD g c.1 c.2) ≠ 0 ∧ PLAYFIELD g c.1 c.2 = 1 <<< step then
        mask &&& NOT32 (1 <<< step)
      else mask) mask) < 2 ^ 32 ∧
    ((cells.foldl (fun mask c =>
      if check_solid (PLAYFIELD g c.1 c.2) ≠ 0 ∧ PLAYFIELD g c.1 c.2 = 1 <<< step then
        mask &&& NOT32 (1 <<< step)
      else mask) mask).testBit i = true ↔
      mask.testBit i = true ∧ ¬ (step = i ∧ ∃ c ∈ cells,
        Solid (PLAYFIELD g c.1 c.2) ∧ PLAYFIELD g c.1 c.2 = 1 <<< step)) := by
  induction cells generalizing mask with
  | nil => exact ⟨hm, by simp⟩
  | cons c cs ih =>
    simp only [List.foldl_cons, List.mem_cons, exists_eq_or_imp]
    by_cases hc : check_solid (PLAYFIELD g c.1 c.2) ≠ 0 ∧ PLAYFIELD g c.1 c.2 = 1 <<< step
    · rw [if_pos hc]
      have := ih (mask &&& NOT32 (1 <<< step)) (and_NOT32_lt hm _)
      refine ⟨this.1, ?_⟩
      rw [this.2, testBit_and_NOT32 hm, testBit_bit]
      have hs := (check_solid_ne_zero_iff _).1 hc.1
      simp only [Bool.and_eq_true, Bool.not_eq_true', decide_eq_false_iff_not]
      constructor
      · rintro ⟨⟨h1, h2⟩, _⟩; exact ⟨h1, fun h => h2 h.1⟩
      · rintro ⟨h1, h2⟩
        have h3 : ¬ step = i := fun h => h2 ⟨h, Or.inl ⟨hs, hc.2⟩⟩
        exact ⟨⟨h1, h3⟩, fun h => h3 h.1⟩
    · rw [if_neg hc]
      have := ih mask hm
      refine ⟨this.1, ?_⟩
      rw [this.2]
      have hc2 : ¬ (Solid (PLAYFIELD g c.1 c.2) ∧ PLAYFIELD g c.1 c.2 = 1 <<< step) := by
        rw [← check_solid_ne_zero_iff]; exact hc
      constructor
      · rintro ⟨h1, h2⟩; exact ⟨h1, fun h => h.2.elim (fun h3 => hc2 h3) (fun h3 => h2 ⟨h.1, h3⟩)⟩
      · rintro ⟨h1, h2⟩; exact ⟨h1, fun h => h2 ⟨h.1, Or.inr h.2⟩⟩

theorem lineMask_outer (g : Grid) (i : Nat) (cells : List (Nat × Nat)) (steps : List Nat)
    (mask : Nat) (hm : mask < 2 ^ 32) :
    (steps.foldl (fun mask step =>
      cells.foldl (fun mask c =>
        if check_solid (PLAYFIELD g c.1 c.2) ≠ 0 ∧ PLAYFIELD g c.1 c.2 = 1 <<< step then
          mask &&& NOT32 (1 <<< step)
        else mask) mask) mask).testBit i = true ↔
      mask.testBit i = true ∧ ¬ (i ∈ steps ∧ ∃ c ∈ cells,
        Solid (PLAYFIELD g c.1 c.2) ∧ PLAYFIELD g c.1 c.2 = 1 <<< i) := by
  induction steps generalizing mask with
  | nil => simp
  | cons st sts ih =>
    simp only [List.foldl_cons, List.mem_cons]
    rw [ih _ (lineMask_inner g st i cells mask hm).1, (lineMask_inner g st i cells mask hm).2]
    constructor
    · rintro ⟨⟨h1, h2⟩, h3⟩
      refine ⟨h1, ?_⟩
      rintro ⟨h4 | h4, h5⟩
      · exact h2 ⟨h4.symm, h4 ▸ h5⟩
      · exact h3 ⟨h4, h5⟩
    · rintro ⟨h1, h2⟩
      refine ⟨⟨h1, ?_⟩, ?_⟩
      · rintro ⟨h3, h4⟩; exact h2 ⟨Or.inl h3.symm, h3 ▸ h4⟩
      · rintro ⟨h3, h4⟩; exact h2 ⟨Or.inr h3, h4⟩

theorem testBit_ANY (i : Nat) : ANY_NUMBER.testBit i = true ↔ 1 ≤ i ∧ i ≤ 9 := by
  constructor
  · intro h
    by_contra hne
    have hi : i = 0 ∨ 10 ≤ i := by omega
    rcases hi with rfl | hi
    · simp [ANY_NUMBER] at h
    · have : ANY_NUMBER.testBit i = false :=
        Nat.testBit_lt_two_pow (lt_of_lt_of_le (by decide : ANY_NUMBER < 2 ^ 10)
          (Nat.pow_le_pow_right (by decide) hi))
      rw [this] at h
      exact absurd h (by decide)
  · rintro ⟨h1, h9⟩
    interval_cases i <;> decide

theorem lineMask_eq_zero (g : Grid) (cells : List (Nat × Nat)) :
    lineMask g cells = 0 ↔
      ∀ v, 1 ≤ v → v ≤ 9 → ∃ c ∈ cells, PLAYFIELD g c.1 c.2 = 1 <<< v := by
  have key : ∀ i, (lineMask g cells).testBit i = true ↔
      (1 ≤ i ∧ i ≤ 9) ∧ ¬ ∃ c ∈ cells, PLAYFIELD g c.1 c.2 = 1 <<< i := by
    intro i
    unfold lineMask
    rw [lineMask_outer g i cells _ _ (by decide), testBit_ANY, List.mem_range'_1]
    simp only [SIZE_X]
    constructor
    · rintro ⟨h1, h2⟩
      refine ⟨h1, ?_⟩
      rintro ⟨c, hc, hc2⟩
      exact h2 ⟨⟨h1.1, by omega⟩, c, hc, ⟨i, h1.1, h1.2, hc2⟩, hc2⟩
    · rintro ⟨h1, h2⟩
      refine ⟨h1, ?_⟩
      rintro ⟨_, c, hc, _, hc2⟩
      exact h2 ⟨c, hc, hc2⟩
  constructor
  · intro h v hv1 hv9
    by_contra hne
    have := (key v).2 ⟨⟨hv1, hv9⟩, hne⟩
    rw [h, Nat.zero_testBit] at this
    exact absurd this (by decide)
  · intro h
    apply Nat.eq_of_testBit_eq
    intro i
    rw [Nat.zero_testBit]
    by_contra hne
    have := (key i).1 (by simpa using hne)
    exact this.2 (h i this.1.1 this.1.2)

theorem check_solved_ne_zero_iff (g : Grid) :
    check_solved g ≠ 0 ↔
      (∀ y < 9, lineMask g (rowCells y) = 0) ∧ (∀ x < 9, lineMask g (colCells x) = 0) := by
  unfold check_solved
  by_cases h1 : (List.range SIZE_Y).any (fun y => lineMask g (rowCells y) != 0) = true
  · rw [if_pos h1]
    simp only [ne_eq, not_true_eq_false, false_iff, not_and]
    intro h
    simp only [List.any_eq_true, List.mem_range, bne_iff_ne] at h1
    obtain ⟨y, hy, hne⟩ := h1
    exact absurd (h y hy) hne
  · rw [if_neg h1]
    simp only [List.any_eq_true, List.mem_range, bne_iff_ne, not_exists, not_and, not_not] at h1
    by_cases h2 : (List.range SIZE_X).any (fun x => lineMask g (colCells x) != 0) = true
    · rw [if_pos h2]
      simp only [ne_eq, not_true_eq_false, false_iff, not_and]
      intro _ h
      simp only [List.any_eq_true, List.mem_range, bne_iff_ne] at h2
      obtain ⟨x, hx, hne⟩ := h2
      exact absurd (h x hx) hne
    · rw [if_neg h2]
      simp only [List.any_eq_true, List.mem_range, bne_iff_ne, not_exists, not_and, not_not] at h2
      simp only [ne_eq, one_ne_zero, not_false_eq_true, true_iff]
      exact ⟨h1, h2⟩

/-- Nine cells among which every value of `1..9` occurs are all solid and hold
every value exactly once. -/
theorem line_pigeonhole (cell : Nat → Nat)
    (h : ∀ v, 1 ≤ v → v ≤ 9 → ∃ k < 9, cell k = 1 <<< v) :
    (∀ k < 9, Solid (cell k)) ∧ ∀ v, 1 ≤ v → v ≤ 9 → ∃! k, k < 9 ∧ cell k = 1 <<< v := by
  have h1 : ∀ v : Fin 9, ∃ k : Fin 9, cell k.val = 1 <<< (v.val + 1) := by
    intro v
    obtain ⟨k, hk, hc⟩ := h (v.val + 1) (by omega) (by omega)
    exact ⟨⟨k, hk⟩, hc⟩
  choose f hf using h1
  have hinj : Function.Injective f := by
    intro a b hab
    have := hf a
    rw [hab, hf b] at this
    have := bit_inj this
    exact Fin.ext (by omega)
  have hsurj : Function.Surjective f := Finite.injective_iff_surjective.1 hinj
  constructor
  · intro k hk
    obtain ⟨v, hv⟩ := hsurj ⟨k, hk⟩
    have := hf v
    rw [hv] at this
    exact ⟨v.val + 1, by omega, by omega, this⟩
  · intro v hv1 hv9
    refine ⟨(f ⟨v - 1, by omega⟩).val, ⟨(f ⟨v - 1, by omega⟩).isLt, ?_⟩, ?_⟩
    · have := hf ⟨v - 1, by omega⟩
      simp only at this
      rw [this]
      congr 1
      omega
    · rintro k ⟨hk, hc⟩
      obtain ⟨w, hw⟩ := hsurj ⟨k, hk⟩
      have h2 := hf w
      rw [hw] at h2
      simp only at h2
      rw [hc] at h2
      have h3 := bit_inj h2
      have : w = ⟨v - 1, by omega⟩ := Fin.ext (by simp only; omega)
      rw [← this, hw]



/-! ## postprocess -/

theorem scanPart_inner (c i : Nat) (l : List Nat) (acc : Nat × Nat) (hm : acc.1 < 2 ^ 32) :
    (l.foldl (fun (acc : Nat × Nat) num =>
      if c = 1 <<< num then (acc.1 &&& NOT32 (1 <<< num), acc.2 + 1) else acc) acc).1 < 2 ^ 32 ∧
    ((l.foldl (fun (acc : Nat × Nat) num =>
      if c = 1 <<< num then (acc.1 &&& NOT32 (1 <<< num), acc.2 + 1) else acc) acc).1.testBit i
        = true ↔ acc.1.testBit i = true ∧ ¬ (i ∈ l ∧ c = 1 <<< i)) ∧
    ((l.foldl (fun (acc : Nat × Nat) num =>
      if c = 1 <<< num then (acc.1 &&& NOT32 (1 <<< num), acc.2 + 1) else acc) acc).2 = 0 ↔
        acc.2 = 0 ∧ ¬ ∃ num ∈ l, c = 1 <<< num) := by
  induction l generalizing acc with
  | nil => exact ⟨hm, by simp, by simp⟩
  | cons n ns ih =>
    simp only [List.foldl_cons, List.mem_cons, exists_eq_or_imp]
    by_cases hc : c = 1 <<< n
    · rw [if_pos hc]
      have := ih (acc.1 &&& NOT32 (1 <<< n), acc.2 + 1) (and_NOT32_lt hm _)
      refine ⟨this.1, ?_, ?_⟩
      · rw [this.2.1]
        simp only
        rw [testBit_and_NOT32 hm, testBit_bit]
        simp only [Bool.and_eq_true, Bool.not_eq_true', decide_eq_false_iff_not]
        constructor
        · rintro ⟨⟨h1, h2⟩, h3⟩
          refine ⟨h1, ?_⟩
          rintro ⟨h4 | h4, h5⟩
          · exact h2 h4.symm
          · exact h3 ⟨h4, h5⟩
        · rintro ⟨h1, h2⟩
          exact ⟨⟨h1, fun h => h2 ⟨Or.inl h.symm, h ▸ hc⟩⟩, fun h => h2 ⟨Or.inr h.1, h.2⟩⟩
      · rw [this.2.2]
        simp only
        constructor
        · rintro ⟨h1, _⟩; omega
        · rintro ⟨_, h2⟩; exact absurd (Or.inl hc) h2
    · rw [if_neg hc]
      have := ih acc hm
      refine ⟨this.1, ?_, ?_⟩
      · rw [this.2.1]
        constructor
        · rintro ⟨h1, h2⟩
          refine ⟨h1, ?_⟩
          rintro ⟨h4 | h4, h5⟩
          · exact hc (h4 ▸ h5)
          · exact h2 ⟨h4, h5⟩
        · rintro ⟨h1, h2⟩
          exact ⟨h1, fun h => h2 ⟨Or.inr h.1, h.2⟩⟩
      · rw [this.2.2]
        constructor
        · rintro ⟨h1, h2⟩
          exact ⟨h1, fun h => h.elim hc h2⟩
        · rintro ⟨h1, h2⟩
          exact ⟨h1, fun h => h2 (Or.inr h)⟩

theorem scanPart_spec (g : Grid) (p o : Nat × Nat) (st : Nat × Nat × Nat) (hm : st.1 < 2 ^ 32)
    (i : Nat) :
    (scanPart g p st o).1 < 2 ^ 32 ∧
    ((scanPart g p st o).1.testBit i = true ↔ st.1.testBit i = true ∧
      ¬ ((1 ≤ i ∧ i ≤ 9) ∧ PLAYFIELD g (p.1 + o.1) (p.2 + o.2) = 1 <<< i)) ∧
    ((scanPart g p st o).2 = st.2 ∧ Solid (PLAYFIELD g (p.1 + o.1) (p.2 + o.2)) ∨
      (scanPart g p st o).2 = o ∧ ¬ Solid (PLAYFIELD g (p.1 + o.1) (p.2 + o.2))) := by
  have h := scanPart_inner (PLAYFIELD g (p.1 + o.1) (p.2 + o.2)) i (List.range' 1 SIZE_X)
    (st.1, 0) hm
  have hr : ∀ n, n ∈ List.range' 1 SIZE_X ↔ 1 ≤ n ∧ n ≤ 9 := by
    intro n
    rw [List.mem_range'_1]
    simp only [SIZE_X]
    omega
  unfold scanPart
  simp only
  split
  · rename_i h0
    refine ⟨h.1, ?_, Or.inr ⟨rfl, ?_⟩⟩
    · rw [h.2.1, hr]
    · have := (h.2.2.1 h0).2
      rintro ⟨v, hv1, hv9, hv⟩
      exact this ⟨v, (hr v).2 ⟨hv1, hv9⟩, hv⟩
  · rename_i h0
    refine ⟨h.1, ?_, Or.inl ⟨rfl, ?_⟩⟩
    · rw [h.2.1, hr]
    · by_contra hns
      apply h0
      rw [h.2.2]
      refine ⟨rfl, ?_⟩
      rintro ⟨v, hv, hv2⟩
      exact hns ⟨v, ((hr v).1 hv).1, ((hr v).1 hv).2, hv2⟩

/-- The first loop of `postprocess` over a part: `curmask` holds the values of
`1..9` that no cell of the part holds, and the recorded offset is either the one
left by the last part or the offset of a cell of this part that is not solid. -/
theorem scanPart_foldl (g : Grid) (p : Nat × Nat) (ex ey : Nat) (i : Nat) :
    ((partOrder.foldl (scanPart g p) (ANY_NUMBER, ex, ey)).1.testBit i = true ↔
      (1 ≤ i ∧ i ≤ 9) ∧ ¬ ∃ o ∈ partOrder, PLAYFIELD g (p.1 + o.1) (p.2 + o.2) = 1 <<< i) ∧
    ((partOrder.foldl (scanPart g p) (ANY_NUMBER, ex, ey)).2 = (ex, ey) ∧
        (∀ o ∈ partOrder, Solid (PLAYFIELD g (p.1 + o.1) (p.2 + o.2))) ∨
      ∃ o ∈ partOrder, (partOrder.foldl (scanPart g p) (ANY_NUMBER, ex, ey)).2 = o ∧
        ¬ Solid (PLAYFIELD g (p.1 + o.1) (p.2 + o.2))) := by
  have key : ∀ (os : List (Nat × Nat)) (st : Nat × Nat × Nat), st.1 < 2 ^ 32 →
      (os.foldl (scanPart g p) st).1 < 2 ^ 32 ∧
      ((os.foldl (scanPart g p) st).1.testBit i = true ↔ st.1.testBit i = true ∧
        ¬ ((1 ≤ i ∧ i ≤ 9) ∧ ∃ o ∈ os, PLAYFIELD g (p.1 + o.1) (p.2 + o.2) = 1 <<< i)) ∧
      ((os.foldl (scanPart g p) st).2 = st.2 ∧
          (∀ o ∈ os, Solid (PLAYFIELD g (p.1 + o.1) (p.2 + o.2))) ∨
        ∃ o ∈ os, (os.foldl (scanPart g p) st).2 = o ∧
          ¬ Solid (PLAYFIELD g (p.1 + o.1) (p.2 + o.2))) := by
    intro os
    induction os with
    | nil => intro st hm; exact ⟨hm, by simp, Or.inl ⟨rfl, by simp⟩⟩
    | cons o os ih =>
      intro st hm
      have h1 := scanPart_spec g p o st hm i
      have h2 := ih (scanPart g p st o) h1.1
      simp only [List.foldl_cons, List.mem_cons, exists_eq_or_imp, forall_eq_or_imp]
      refine ⟨h2.1, ?_, ?_⟩
      · rw [h2.2.1, h1.2.1]
        constructor
        · rintro ⟨⟨h3, h4⟩, h5⟩
          exact ⟨h3, fun h => h.2.elim (fun h6 => h4 ⟨h.1, h6⟩) (fun h6 => h5 ⟨h.1, h6⟩)⟩
        · rintro ⟨h3, h4⟩
          exact ⟨⟨h3, fun h => h4 ⟨h.1, Or.inl h.2⟩⟩, fun h => h4 ⟨h.1, Or.inr h.2⟩⟩
      · rcases h2.2.2 with ⟨h3, h4⟩ | ⟨o1, ho1, h3, h4⟩
        · rcases h1.2.2 with ⟨h5, h6⟩ | ⟨h5, h6⟩
          · exact Or.inl ⟨by rw [h3, h5], h6, h4⟩
          · exact Or.inr (Or.inl ⟨by rw [h3, h5], h6⟩)
        · exact Or.inr (Or.inr ⟨o1, ho1, h3, h4⟩)
  have hany : ANY_NUMBER < 2 ^ 32 := by decide
  have := key partOrder (ANY_NUMBER, ex, ey) hany
  refine ⟨?_, this.2.2⟩
  rw [this.2.1, testBit_ANY]
  constructor
  · rintro ⟨h3, h4⟩; exact ⟨h3, fun h => h4 ⟨h3, h⟩⟩
  · rintro ⟨h3, h4⟩; exact ⟨h3, fun h => h4 h.2⟩


/-- The invariant rule `forLoop_inv` for a named loop body. -/
theorem forLoop_at {ι σ ε : Type} (body : ι → σ → Except ε σ) (I : σ → Prop) (E : ε → Prop)
    (l : List ι)
    (hok : ∀ i ∈ l, ∀ s s1, I s → body i s = .ok s1 → I s1)
    (herr : ∀ i ∈ l, ∀ s e, I s → body i s = .error e → E e)
    (s : σ) (hs : I s) :
    (∀ s1, forLoop body l s = .ok s1 → I s1) ∧ (∀ e, forLoop body l s = .error e → E e) :=
  forLoop_inv I E l hok herr s hs

theorem mem_range9 (n : Nat) : n ∈ List.range' 1 SIZE_X ↔ 1 ≤ n ∧ n ≤ 9 := by
  rw [List.mem_range'_1]
  simp only [SIZE_X]
  omega

theorem scan_offsets (g : Grid) (p : Nat × Nat) {ex ey : Nat} (hex : ex < 3) (hey : ey < 3) :
    (partOrder.foldl (scanPart g p) (ANY_NUMBER, ex, ey)).2.1 < 3 ∧
      (partOrder.foldl (scanPart g p) (ANY_NUMBER, ex, ey)).2.2 < 3 := by
  rcases (scanPart_foldl g p ex ey 0).2 with ⟨h, _⟩ | ⟨o, ho, h, _⟩
  · rw [h]; exact ⟨hex, hey⟩
  · rw [h]; exact (mem_partOrder o).1 ho

/-- When every part holds every value of `1..9`, `postprocess` changes nothing
and returns `0`. -/
theorem postprocess_of_full {g : Grid}
    (hfull : ∀ p ∈ partOrigins, ∀ v, 1 ≤ v → v ≤ 9 →
      ∃ o ∈ partOrder, PLAYFIELD g (p.1 + o.1) (p.2 + o.2) = 1 <<< v) :
    postprocess g = (0, g) := by
  have hpart : ∀ p ∈ partOrigins, ∀ s : FState, s.grid = g ∧ s.numchanges = 0 →
      (∀ t, postprocess_part p s = .ok t → t.grid = g ∧ t.numchanges = 0) ∧
      (∀ e, postprocess_part p s = .error e → False) := by
    intro p hp s hs
    have hmask : ∀ num ∈ List.range' 1 SIZE_X,
        (partOrder.foldl (scanPart s.grid p) (ANY_NUMBER, s.empty_x, s.empty_y)).1 ≠ 1 <<< num := by
      intro num hnum heq
      have hn := (mem_range9 num).1 hnum
      have h1 := (scanPart_foldl s.grid p s.empty_x s.empty_y num).1
      rw [heq, testBit_bit, hs.1] at h1
      exact (h1.1 (by simp)).2 (hfull p hp num hn.1 hn.2)
    have := forLoop_at
      (fillPart (partOrder.foldl (scanPart s.grid p) (ANY_NUMBER, s.empty_x, s.empty_y)).1 p
        (partOrder.foldl (scanPart s.grid p) (ANY_NUMBER, s.empty_x, s.empty_y)).2.1
        (partOrder.foldl (scanPart s.grid p) (ANY_NUMBER, s.empty_x, s.empty_y)).2.2)
      (fun a : PState => a = (s.grid, s.numchanges)) (fun _ : Grid => False)
      (List.range' 1 SIZE_X)
      (fun num hnum a b ha hb => by
        unfold fillPart at hb
        rw [if_neg (hmask num hnum)] at hb
        simp only [Except.ok.injEq] at hb
        rw [← hb, ha])
      (fun num hnum a e ha hb => by
        unfold fillPart at hb
        rw [if_neg (hmask num hnum)] at hb
        simp at hb)
      (s.grid, s.numchanges) rfl
    unfold postprocess_part
    split
    · rename_i e he
      exact absurd he (fun h => this.2 e h)
    · rename_i s1 hs1
      refine ⟨fun t h => ?_, fun e h => by simp at h⟩
      simp only [Except.ok.injEq] at h
      subst h
      have h2 := this.1 s1 hs1
      rw [h2]
      exact hs
  have := forLoop_at postprocess_part
    (fun a : FState => a.grid = g ∧ a.numchanges = 0) (fun _ : Grid => False) partOrigins
    (fun p hp a b ha hb => (hpart p hp a ha).1 b hb)
    (fun p hp a e ha hb => (hpart p hp a ha).2 e hb)
    ⟨g, 0, 0, 0⟩ ⟨rfl, rfl⟩
  unfold postprocess
  split
  · rename_i e he; exact absurd he (fun h => this.2 e h)
  · rename_i s hs
    rw [(this.1 s hs).1, (this.1 s hs).2]



/-! ## Solved playfields -/

/-- A playfield in which every value occurs in every row, column and part is a
solution: nine cells that hold nine values hold each once. -/
theorem isSolution_of_allOccur {g : Grid} (hw : WF g) (h : AllOccur g) : IsSolution g := by
  have hrow : ∀ y < 9, ∀ v, 1 ≤ v → v ≤ 9 → ∃ k < 9, PLAYFIELD g k y = 1 <<< v := by
    intro y hy v hv1 hv9
    have := h.1 y hy (v - 1) (by omega)
    rwa [Nat.sub_add_cancel hv1] at this
  have hcol : ∀ x < 9, ∀ v, 1 ≤ v → v ≤ 9 → ∃ k < 9, PLAYFIELD g x k = 1 <<< v := by
    intro x hx v hv1 hv9
    have := h.2.1 x hx (v - 1) (by omega)
    rwa [Nat.sub_add_cancel hv1] at this
  have hpart : ∀ p ∈ partOrigins, ∀ v, 1 ≤ v → v ≤ 9 →
      ∃ k < 9, PLAYFIELD g (p.1 + k % 3) (p.2 + k / 3) = 1 <<< v := by
    intro p hp v hv1 hv9
    obtain ⟨o, ho, hv⟩ := h.2.2 p hp (v - 1) (by omega)
    rw [Nat.sub_add_cancel hv1] at hv
    have ho := (mem_partOrder o).1 ho
    refine ⟨o.2 * 3 + o.1, by omega, ?_⟩
    have h1 : (o.2 * 3 + o.1) % 3 = o.1 := by omega
    have h2 : (o.2 * 3 + o.1) / 3 = o.2 := by omega
    rw [h1, h2]; exact hv
  refine ⟨hw, fun x hx y hy => ?_, fun y hy => ?_, fun x hx => ?_, fun p hp v hv1 hv9 => ?_⟩
  · exact (line_pigeonhole (fun k => PLAYFIELD g k y) (hrow y hy)).1 x hx
  · exact (line_pigeonhole (fun k => PLAYFIELD g k y) (hrow y hy)).2
  · exact (line_pigeonhole (fun k => PLAYFIELD g x k) (hcol x hx)).2
  · obtain ⟨k, ⟨hk, hkv⟩, huniq⟩ :=
      (line_pigeonhole (fun k => PLAYFIELD g (p.1 + k % 3) (p.2 + k / 3)) (hpart p hp)).2 v hv1 hv9
    refine ⟨(k % 3, k / 3), ⟨(mem_partOrder _).2 ⟨by simp only; omega, by simp only; omega⟩, hkv⟩,
      ?_⟩
    rintro o ⟨ho, hov⟩
    have ho := (mem_partOrder o).1 ho
    have h1 : (o.2 * 3 + o.1) % 3 = o.1 := by omega
    have h2 : (o.2 * 3 + o.1) / 3 = o.2 := by omega
    have := huniq (o.2 * 3 + o.1) ⟨by omega, by show PLAYFIELD g _ _ = _; rw [h1, h2]; exact hov⟩
    rw [← this, h1, h2]

theorem IsSolution.no_conflict {g : Grid} (h : IsSolution g) : ¬ Conflict g := by
  rintro ⟨v, c, d, hv1, hv9, hc1, hc2, hd1, hd2, hne, hl, hc, hd⟩
  apply hne
  rcases hl with hl | hl
  · have := (h.2.2.2.1 c.1 hc1 v hv1 hv9).unique ⟨hc2, hc⟩ ⟨hd2, hl ▸ hd⟩
    exact Prod.ext hl this.symm
  · have := (h.2.2.1 c.2 hc2 v hv1 hv9).unique ⟨hc1, hc⟩ ⟨hd1, hl ▸ hd⟩
    exact Prod.ext this.symm hl

theorem IsSolution.solved_check {g : Grid} (h : IsSolution g) : check_solved g ≠ 0 := by
  rw [check_solved_ne_zero_iff]
  constructor
  · intro y hy
    rw [lineMask_eq_zero]
    intro v hv1 hv9
    obtain ⟨x, ⟨hx, hv⟩, _⟩ := h.2.2.1 y hy v hv1 hv9
    exact ⟨(x, y), (mem_rowCells _ _).2 ⟨hx, rfl⟩, hv⟩
  · intro x hx
    rw [lineMask_eq_zero]
    intro v hv1 hv9
    obtain ⟨y, ⟨hy, hv⟩, _⟩ := h.2.2.2.1 x hx v hv1 hv9
    exact ⟨(x, y), (mem_colCells _ _).2 ⟨rfl, hy⟩, hv⟩

theorem IsSolution.preprocess_eq {g : Grid} (h : IsSolution g) : preprocess g = (0, g) :=
  preprocess_of_solid h.1 h.2.1 h.no_conflict

theorem IsSolution.postprocess_eq {g : Grid} (h : IsSolution g) : postprocess g = (0, g) :=
  postprocess_of_full (fun p hp v hv1 hv9 => (h.2.2.2.2 p hp v hv1 hv9).exists)

/-! ## The search of solver -/

theorem isOpen_of_solid {g : Grid} {n : Nat} {c : Nat × Nat}
    (h : Solid (PLAYFIELD g c.1 c.2)) : isOpen g n c = false := by
  unfold isOpen
  have := (check_solid_ne_zero_iff _).2 h
  simp [this]

theorem countOpen_eq_zero {g : Grid} {cells : List (Nat × Nat)} {step : Nat}
    (h : ∀ c ∈ cells, isOpen g step c = false) : countOpen g cells step = 0 := by
  unfold countOpen
  exact foldl_inv (fun cur => cur = 0) cells
    (fun c hc cur hcur => by simp only [h c hc, hcur]; rfl) 0 rfl

theorem selectRow_of_solid {g : Grid} (hs : ∀ x < 9, ∀ y < 9, Solid (PLAYFIELD g x y))
    (s : Sel) {y : Nat} (hy : y < 9) : selectRow g s y = s := by
  unfold selectRow
  refine foldl_inv (fun a => a = s) _ (fun step _ a ha => ?_) s rfl
  have : countOpen g (rowCells y) step = 0 :=
    countOpen_eq_zero (fun c hc =>
      isOpen_of_solid (hs c.1 ((mem_rowCells c y).1 hc).1 c.2 (((mem_rowCells c y).1 hc).2 ▸ hy)))
  simp only [this, ne_eq, not_true_eq_false, and_false, if_false]
  exact ha

theorem selectCol_of_solid {g : Grid} (hs : ∀ x < 9, ∀ y < 9, Solid (PLAYFIELD g x y))
    (s : Sel) {x : Nat} (hx : x < 9) : selectCol g s x = s := by
  unfold selectCol
  refine foldl_inv (fun a => a = s) _ (fun step _ a ha => ?_) s rfl
  have : countOpen g (colCells x) step = 0 :=
    countOpen_eq_zero (fun c hc =>
      isOpen_of_solid (hs c.1 (((mem_colCells c x).1 hc).1 ▸ hx) c.2 ((mem_colCells c x).1 hc).2))
  simp only [this, ne_eq, not_true_eq_false, and_false, if_false]
  exact ha

/-- On a playfield whose cells are all solid, `solver` returns `0` at once and
leaves the state as it is. -/
theorem solver_of_solid {st : State} (hs : ∀ x < 9, ∀ y < 9, Solid (PLAYFIELD st.playfield x y))
    (fuel : Nat) : solver fuel st = .done (0, st) := by
  have h1 : (List.range SIZE_Y).foldl (selectRow st.playfield) ⟨0, 0, 0, SIZE_X, 0⟩ =
      ⟨0, 0, 0, SIZE_X, 0⟩ :=
    foldl_inv (fun a => a = (⟨0, 0, 0, SIZE_X, 0⟩ : Sel)) _
      (fun y hy a ha => by rw [ha]; exact selectRow_of_solid hs _ (List.mem_range.1 hy)) _ rfl
  have h2 : (List.range SIZE_X).foldl (selectCol st.playfield) ⟨0, 0, 0, SIZE_X, 0⟩ =
      ⟨0, 0, 0, SIZE_X, 0⟩ :=
    foldl_inv (fun a => a = (⟨0, 0, 0, SIZE_X, 0⟩ : Sel)) _
      (fun x hx a ha => by rw [ha]; exact selectCol_of_solid hs _ (List.mem_range.1 hx)) _ rfl
  unfold solver
  simp only [h1, h2]
  rfl


theorem gridSolved_isSolution : IsSolution gridSolved :=
  isSolution_of_allOccur ⟨by decide, by decide⟩ ⟨by decide!, by decide!, by decide!⟩



/-! ## The candidate domain -/

theorem and_NOT32_ANY_eq_zero {c : Nat} (hc : c < 2 ^ 32) :
    c &&& NOT32 ANY_NUMBER = 0 ↔ ∀ i, c.testBit i = true → 1 ≤ i ∧ i ≤ 9 := by
  constructor
  · intro h i hi
    by_contra hne
    have h1 : (c &&& NOT32 ANY_NUMBER).testBit i = true := by
      rw [testBit_and_NOT32 hc, hi]
      have : ANY_NUMBER.testBit i = false := by
        by_contra h2
        exact hne ((testBit_ANY i).1 (by simpa using h2))
      simp [this]
    rw [h, Nat.zero_testBit] at h1
    exact absurd h1 (by decide)
  · intro h
    apply Nat.eq_of_testBit_eq
    intro i
    rw [testBit_and_NOT32 hc, Nat.zero_testBit]
    cases hi : c.testBit i with
    | false => rfl
    | true => simp [(testBit_ANY i).2 (h i hi)]

theorem Dom.bits {g : Grid} (h : Dom g) {x y i : Nat} (hx : x < 9) (hy : y < 9)
    (hi : (PLAYFIELD g x y).testBit i = true) : 1 ≤ i ∧ i ≤ 9 :=
  (and_NOT32_ANY_eq_zero (h.1.2 x hx y hy)).1 (h.2 x hx y hy) i hi

theorem bit_lt {v : Nat} (hv : v ≤ 9) : 1 <<< v < 2 ^ 32 := by
  rw [Nat.one_shiftLeft]
  exact lt_of_le_of_lt (Nat.pow_le_pow_right (by decide) hv) (by decide)

theorem Dom.set {g : Grid} (h : Dom g) {x y num : Nat} (hx : x < 9) (hy : y < 9)
    (h1 : 1 ≤ num) (h9 : num ≤ 9) : Dom (setPLAYFIELD g x y (1 <<< num)) := by
  refine ⟨WF_set h.1 hx hy (bit_lt h9), fun x1 hx1 y1 hy1 => ?_⟩
  rw [PLAYFIELD_set h.1.1 hx hy hx1]
  split
  · rw [and_NOT32_ANY_eq_zero (bit_lt h9)]
    intro i hi
    rw [testBit_bit] at hi
    simp only [decide_eq_true_eq] at hi
    omega
  · exact h.2 x1 hx1 y1 hy1

theorem IsSolution.peer_ne {sol : Grid} (h : IsSolution sol) {c d : Nat × Nat}
    (hc1 : c.1 < 9) (hc2 : c.2 < 9) (hd1 : d.1 < 9) (hd2 : d.2 < 9) (hp : Peer c d) {w : Nat}
    (hw1 : 1 ≤ w) (hw9 : w ≤ 9) (hc : PLAYFIELD sol c.1 c.2 = 1 <<< w) :
    PLAYFIELD sol d.1 d.2 ≠ 1 <<< w := by
  intro hd
  apply hp.1
  rcases hp.2 with hl | hl | hl
  · have := (h.2.2.2.1 c.1 hc1 w hw1 hw9).unique ⟨hc2, hc⟩ ⟨hd2, hl ▸ hd⟩
    exact Prod.ext hl this
  · have := (h.2.2.1 c.2 hc2 w hw1 hw9).unique ⟨hc1, hc⟩ ⟨hd1, hl ▸ hd⟩
    exact Prod.ext this hl
  · have hp : (c.1 / 3 * 3, c.2 / 3 * 3) ∈ partOrigins :=
      (mem_partOrigins _).2 ⟨c.1 / 3, by omega, c.2 / 3, by omega, rfl⟩
    have e1 : c.1 / 3 * 3 + c.1 % 3 = c.1 := by omega
    have e2 : c.2 / 3 * 3 + c.2 % 3 = c.2 := by omega
    have e3 : c.1 / 3 * 3 + d.1 % 3 = d.1 := by have := hl.1; omega
    have e4 : c.2 / 3 * 3 + d.2 % 3 = d.2 := by have := hl.2; omega
    have hoc : (c.1 % 3, c.2 % 3) ∈ partOrder ∧
        PLAYFIELD sol (c.1 / 3 * 3 + c.1 % 3) (c.2 / 3 * 3 + c.2 % 3) = 1 <<< w :=
      ⟨(mem_partOrder _).2 ⟨by simp only; omega, by simp only; omega⟩, by rw [e1, e2]; exact hc⟩
    have hod : (d.1 % 3, d.2 % 3) ∈ partOrder ∧
        PLAYFIELD sol (c.1 / 3 * 3 + d.1 % 3) (c.2 / 3 * 3 + d.2 % 3) = 1 <<< w :=
      ⟨(mem_partOrder _).2 ⟨by simp only; omega, by simp only; omega⟩, by rw [e3, e4]; exact hd⟩
    have := (h.2.2.2.2 _ hp w hw1 hw9).unique hoc hod
    simp only [Prod.mk.injEq] at this
    exact Prod.ext (by have := hl.1; omega) (by have := hl.2; omega)

theorem IsSolution.value {sol : Grid} (h : IsSolution sol) {x y : Nat} (hx : x < 9) (hy : y < 9) :
    ∃ w, 1 ≤ w ∧ w ≤ 9 ∧ PLAYFIELD sol x y = 1 <<< w := h.2.1 x hx y hy

/-- Eliminations keep every solution that the playfield allows. -/
theorem Elim.consistent {s t : PState} (h : Elim s t) (hw : WF s.1) {sol : Grid}
    (hsol : IsSolution sol) (hc : Consistent sol s.1) : Consistent sol t.1 := by
  induction h with
  | refl => exact hc
  | @write s1 x y m h1 hx hy hns hm hj ih =>
    have hw1 := h1.wf hw
    intro x1 hx1 y1 hy1 w hsw
    rw [PLAYFIELD_set hw1.1 hx hy hx1]
    split
    · rename_i heq
      obtain ⟨rfl, rfl⟩ := heq
      rw [testBit_and_NOT32 (hw1.2 _ hx _ hy), ih _ hx _ hy w hsw]
      simp only [Bool.true_and, Bool.not_eq_true']
      by_contra hmw
      obtain ⟨hw1', hw9', c, hc1, hc2, hp, hcv⟩ := hj w (by simpa using hmw)
      obtain ⟨w2, _, _, hw2⟩ := hsol.value hc1 hc2
      have := ih _ hc1 _ hc2 w2 hw2
      rw [hcv, testBit_bit] at this
      simp only [decide_eq_true_eq] at this
      subst this
      exact hsol.peer_ne (c := (x1, y1)) hx hy hc1 hc2 hp hw1' hw9' hsw hw2
    · exact ih _ hx1 _ hy1 w hsw

theorem Consistent.conflict_free {sol g : Grid} (hsol : IsSolution sol) (hc : Consistent sol g) :
    ¬ Conflict g := by
  rintro ⟨v, c, d, hv1, hv9, hc1, hc2, hd1, hd2, hne, hl, hcv, hdv⟩
  apply hsol.no_conflict
  refine ⟨v, c, d, hv1, hv9, hc1, hc2, hd1, hd2, hne, hl, ?_, ?_⟩
  · obtain ⟨w, _, _, hw⟩ := hsol.value hc1 hc2
    have := hc _ hc1 _ hc2 w hw
    rw [hcv, testBit_bit] at this
    simp only [decide_eq_true_eq] at this
    exact this ▸ hw
  · obtain ⟨w, _, _, hw⟩ := hsol.value hd1 hd2
    have := hc _ hd1 _ hd2 w hw
    rw [hdv, testBit_bit] at this
    simp only [decide_eq_true_eq] at this
    exact this ▸ hw

/-- On a playfield that allows a solution, `preprocess` does not return `-1`
and the playfield it leaves still allows the solution. -/
theorem preprocess_sound {g sol : Grid} (hw : WF g) (hsol : IsSolution sol)
    (hc : Consistent sol g) : (preprocess g).1 ≠ -1 ∧ Consistent sol (preprocess g).2 := by
  obtain ⟨n, hn, _⟩ := preprocess_Elim hw
  have h2 : Consistent sol (preprocess g).2 := hn.consistent hw hsol hc
  exact ⟨fun h => h2.conflict_free hsol (preprocess_conflict hw h), h2⟩



/-! ## A solution with one row left out -/

theorem grid_ext {g h : Grid} (hg : g.length = SIZE_X * SIZE_Y) (hh : h.length = SIZE_X * SIZE_Y)
    (heq : ∀ x < 9, ∀ y < 9, PLAYFIELD g x y = PLAYFIELD h x y) : g = h := by
  apply List.ext_getElem (by rw [hg, hh])
  intro i hi1 hi2
  have hi : i < 81 := by rw [hg] at hi1; exact hi1
  have := heq (i % 9) (Nat.mod_lt _ (by decide)) (i / 9) (by omega)
  unfold PLAYFIELD at this
  have hidx : i / 9 * SIZE_X + i % 9 = i := by simp only [SIZE_X]; omega
  rw [hidx, List.getD_eq_getElem?_getD, List.getD_eq_getElem?_getD,
    List.getElem?_eq_getElem hi1, List.getElem?_eq_getElem hi2] at this
  exact this

theorem length_blankRow (sol : Grid) (r : Nat) : (blankRow sol r).length = SIZE_X * SIZE_Y := by
  unfold blankRow; simp

theorem PLAYFIELD_blankRow (sol : Grid) (r : Nat) {x y : Nat} (hx : x < 9) (hy : y < 9) :
    PLAYFIELD (blankRow sol r) x y = if y = r then ANY_NUMBER else PLAYFIELD sol x y := by
  unfold PLAYFIELD blankRow
  have hi : y * SIZE_X + x < SIZE_X * SIZE_Y := by simp only [SIZE_X, SIZE_Y]; omega
  have hd : (y * SIZE_X + x) / SIZE_X = y := by simp only [SIZE_X]; omega
  rw [List.getD_eq_getElem?_getD, List.getElem?_map, List.getElem?_range hi]
  simp only [Option.map_some', Option.getD_some, hd]

theorem WF_blankRow {sol : Grid} (h : WF sol) (r : Nat) : WF (blankRow sol r) := by
  refine ⟨length_blankRow sol r, fun x hx y hy => ?_⟩
  rw [PLAYFIELD_blankRow sol r hx hy]
  split
  · decide
  · exact h.2 x hx y hy

theorem consistent_blankRow {sol : Grid} (h : IsSolution sol) (r : Nat) :
    Consistent sol (blankRow sol r) := by
  intro x hx y hy w hw
  rw [PLAYFIELD_blankRow sol r hx hy]
  split
  · obtain ⟨w2, h1, h9, hw2⟩ := h.value hx hy
    have := bit_inj (hw.symm.trans hw2)
    subst this
    exact (testBit_ANY w).2 ⟨h1, h9⟩
  · rw [hw, testBit_bit]; simp

/-- One call of `preprocess` fills the row that was left out. -/
theorem preprocess_blankRow {sol : Grid} (h : IsSolution sol) {r : Nat} (hr : r < 9) :
    (preprocess (blankRow sol r)).1 ≠ -1 ∧ (preprocess (blankRow sol r)).2 = sol := by
  have hw := WF_blankRow h.1 r
  have hs := preprocess_sound hw h (consistent_blankRow h r)
  refine ⟨hs.1, ?_⟩
  obtain ⟨n, hn, _⟩ := preprocess_Elim hw
  refine grid_ext (hn.length.trans hw.1) h.1.1 (fun x hx y hy => ?_)
  by_cases hy2 : y = r
  · subst hy2
    obtain ⟨w, hw1, hw9, hsw⟩ := h.value hx hy
    rw [hsw]
    apply Nat.eq_of_testBit_eq
    intro i
    rw [testBit_bit]
    by_cases hi : w = i
    · subst hi
      rw [hs.2 x hx y hy w hsw]; simp
    · have hdec : decide (w = i) = false := by simpa using hi
      rw [hdec]
      by_contra hbit
      have hbit : (PLAYFIELD (preprocess (blankRow sol y)).2 x y).testBit i = true := by
        simpa using hbit
      have hsub := hn.sub hw hx hy i hbit
      simp only at hsub
      rw [PLAYFIELD_blankRow sol y hx hy, if_pos rfl, testBit_ANY] at hsub
      obtain ⟨y1, ⟨hy1, hv⟩, _⟩ := h.2.2.2.1 x hx i hsub.1 hsub.2
      have hne : y1 ≠ y := by
        rintro rfl
        exact hi (bit_inj (hsw.symm.trans hv))
      have hentry : PLAYFIELD (blankRow sol y) x y1 = 1 <<< i := by
        rw [PLAYFIELD_blankRow sol y hx hy1, if_neg hne]; exact hv
      have := preprocess_lines hw hs.1 hsub.1 hsub.2 (c := (x, y1)) (d := (x, y)) hx hy1 hentry
        hx hy (fun heq => hne (congrArg Prod.snd heq).symm) (Or.inl rfl)
      simp only at this
      rw [this] at hbit
      exact absurd hbit (by decide)
  · have hentry : PLAYFIELD (blankRow sol r) x y = PLAYFIELD sol x y := by
      rw [PLAYFIELD_blankRow sol r hx hy, if_neg hy2]
    rw [preprocess_solid_fixed hw hx (hentry ▸ h.2.1 x hx y hy), hentry]

theorem repeatWhile_stop {f : Grid → Int × Grid} {again : Int → Bool} {g : Grid} (fuel : Nat)
    (h : again (f g).1 = false) : repeatWhile f again (fuel + 1) g = some (f g) := by
  simp [repeatWhile, h]

theorem repeatWhile_step {f : Grid → Int × Grid} {again : Int → Bool} {g : Grid} (fuel : Nat)
    (h : again (f g).1 = true) :
    repeatWhile f again (fuel + 1) g = repeatWhile f again fuel (f g).2 := by
  simp [repeatWhile, h]

attribute [irreducible] preprocess postprocess solver

theorem solverLoop_stop {fuel : Nat} {st : State} {r : Int × State} (k : Nat)
    (h : solver fuel st = .done r) (hr : ¬ r.1 > 0) : solverLoop fuel (k + 1) st = .done r.2 := by
  rw [solverLoop, h]
  simp only
  rw [if_neg hr]

/-- The three loops of `main` on a solution with one row left out: what each
loop ends with. -/
theorem main_loops_blankRow {sol : Grid} (h : IsSolution sol) {r : Nat} (hr : r < 9)
    {fuel : Nat} (hf : 2 ≤ fuel) :
    repeatWhile preprocess (fun pp => decide (pp > 0)) fuel (blankRow sol r) = some (0, sol) ∧
      repeatWhile postprocess (fun pp => decide (pp > 0)) fuel sol = some (0, sol) ∧
      solver fuel ⟨sol, backlog0, 0⟩ = .done (0, ⟨sol, backlog0, 0⟩) ∧
      main_loops fuel (blankRow sol r) = .done ⟨sol, backlog0, 0⟩ := by
  obtain ⟨k, rfl⟩ : ∃ k, fuel = k + 2 := ⟨fuel - 2, by omega⟩
  have hp := preprocess_blankRow h hr
  have hnn := preprocess_nonneg (WF_blankRow h.1 r) hp.1
  have h1 : repeatWhile preprocess (fun pp => decide (pp > 0)) (k + 2) (blankRow sol r) =
      some (0, sol) := by
    by_cases hpos : (preprocess (blankRow sol r)).1 > 0
    · rw [repeatWhile_step _ (by simpa using hpos), hp.2,
        repeatWhile_stop _ (by rw [h.preprocess_eq]; rfl), h.preprocess_eq]
    · rw [repeatWhile_stop _ (by simpa using hpos)]
      have : (preprocess (blankRow sol r)).1 = 0 := by omega
      exact congrArg some (Prod.ext this hp.2)
  have h2 : repeatWhile postprocess (fun pp => decide (pp > 0)) (k + 2) sol = some (0, sol) := by
    rw [repeatWhile_stop _ (by rw [h.postprocess_eq]; rfl), h.postprocess_eq]
  have h3 : solverLoop (k + 2) (k + 2) ⟨sol, backlog0, 0⟩ = .done ⟨sol, backlog0, 0⟩ :=
    solverLoop_stop (k + 1) (solver_of_solid h.2.1 _)
      (fun hpos => absurd (show (0 : Int) > 0 from hpos) (by decide))
  refine ⟨h1, h2, solver_of_solid h.2.1 _, ?_⟩
  unfold main_loops
  rw [h1]
  simp only
  rw [h2]
  exact h3

/-! ## Runs composed of single calls -/

theorem repeatWhile_fuel_le {f : Grid → Int × Grid} {again : Int → Bool} {k : Nat} {g : Grid}
    {r : Int × Grid} (h : repeatWhile f again k g = some r) {j : Nat} (hj : k ≤ j) :
    repeatWhile f again j g = some r := by
  induction k generalizing g j with
  | zero => simp [repeatWhile] at h
  | succ k ih =>
    obtain ⟨i, rfl⟩ : ∃ i, j = i + 1 := ⟨j - 1, by omega⟩
    rw [repeatWhile] at h ⊢
    by_cases ha : again (f g).1 = true
    · rw [if_pos ha] at h ⊢
      exact ih h (by omega)
    · rw [if_neg ha] at h ⊢
      exact h

theorem repeatWhile_unique {f : Grid → Int × Grid} {again : Int → Bool} {k j : Nat} {g : Grid}
    {r s : Int × Grid} (h : repeatWhile f again k g = some r)
    (hs : repeatWhile f again j g = some s) : r = s := by
  rcases le_total k j with hkj | hjk
  · have := repeatWhile_fuel_le h hkj
    rw [hs] at this
    exact (Option.some.inj this).symm
  · have := repeatWhile_fuel_le hs hjk
    rw [h] at this
    exact Option.some.inj this

theorem repeatWhile_next {f : Grid → Int × Grid} {again : Int → Bool} {g g1 : Grid} {n : Int}
    (h : f g = (n, g1)) (ha : again n = true) (fuel : Nat) :
    repeatWhile f again (fuel + 1) g = repeatWhile f again fuel g1 := by
  rw [repeatWhile, h]
  simp only [ha, if_true]

theorem repeatWhile_last {f : Grid → Int × Grid} {again : Int → Bool} {g g1 : Grid} {n : Int}
    (h : f g = (n, g1)) (ha : again n = false) (fuel : Nat) :
    repeatWhile f again (fuel + 1) g = some (n, g1) := by
  rw [repeatWhile, h]
  simp only [ha]
  rfl

/-- When the first two loops of `main` end and `solver` does not return on the
playfield they leave, `main` does not return. -/
theorem main_timeout {g p q : Grid} {k j : Nat} {n m : Int}
    (h1 : repeatWhile preprocess (fun pp => decide (pp > 0)) k g = some (n, p))
    (h2 : repeatWhile postprocess (fun pp => decide (pp > 0)) j p = some (m, q))
    (h3 : ∀ fuel, solver fuel ⟨q, backlog0, 0⟩ = .timeout) (fuel : Nat) :
    main fuel g = .timeout := by
  unfold main main_loops
  cases e1 : repeatWhile preprocess (fun pp => decide (pp > 0)) fuel g with
  | none => rfl
  | some r1 =>
    have hr1 := repeatWhile_unique h1 e1
    subst hr1
    simp only
    cases e2 : repeatWhile postprocess (fun pp => decide (pp > 0)) fuel p with
    | none => rfl
    | some r2 =>
      have hr2 := repeatWhile_unique h2 e2
      subst hr2
      simp only
      cases fuel with
      | zero => rfl
      | succ i =>
        rw [solverLoop, h3]

/-- A run of `main` in which the first loop ends on a playfield that
`postprocess` leaves as it is, the first call of `solver` returns `1` and the
second returns `0`. -/
theorem main_two_calls {fuel : Nat} {g p : Grid} {s1 s2 : State} (hf : 2 ≤ fuel)
    (h1 : repeatWhile preprocess (fun pp => decide (pp > 0)) fuel g = some (0, p))
    (h2 : postprocess p = (0, p))
    (h3 : solver fuel ⟨p, backlog0, 0⟩ = .done (1, s1))
    (h4 : solver fuel s1 = .done (0, s2)) :
    main fuel g = .done (EXIT_SUCCESS, check_solved s2.playfield, s2) := by
  obtain ⟨k, rfl⟩ : ∃ k, fuel = k + 2 := ⟨fuel - 2, by omega⟩
  have hp : repeatWhile postprocess (fun pp => decide (pp > 0)) (k + 2) p = some (0, p) :=
    repeatWhile_last h2 rfl (k + 1)
  unfold main main_loops
  rw [h1]
  simp only
  rw [hp]
  simp only
  rw [solverLoop, h3]
  simp only
  rw [if_pos (by decide), solverLoop, h4]
  simp only
  rw [if_neg (by decide)]

theorem fst_nonneg_of_eq {r : Int × Grid} {n : Int} {g : Grid} (h : r = (n, g)) (hn : 0 ≤ n) :
    0 ≤ r.1 := by
  subst h; exact hn

theorem fst_of_eq {r : Int × Grid} {n : Int} {g : Grid} (h : r = (n, g)) : r.1 = n := by
  subst h; rfl

theorem snd_of_eq {r : Int × Grid} {n : Int} {g : Grid} (h : r = (n, g)) : r.2 = g := by
  subst h; rfl

theorem cur_less_of_eq {s t : Sel} (h : s = t) (ht : t.cur_less < SIZE_X) :
    s.cur_less < SIZE_X := by
  subst h; exact ht

theorem toOption_ok {x : Except Grid PState} {s : PState} (h : x.toOption = some s) :
    x = .ok s := by
  cases x with
  | error e => simp [Except.toOption] at h
  | ok a =>
    simp only [Except.toOption, Option.some.injEq] at h
    rw [h]

/-- A call of `preprocess`, composed of step 1 for the values 1 to 3, 4 to 6
and 7 to 9, and of step 2. -/
theorem preprocess_of_pieces {g a b c d : Grid} {na nb nc nd : Int}
    (h1 : (forLoop (fun step s => locateLoop step (SIZE_X * SIZE_Y + 1) 0 s) [1, 2, 3]
      (g, 0)).toOption = some (a, na))
    (h2 : (forLoop (fun step s => locateLoop step (SIZE_X * SIZE_Y + 1) 0 s) [4, 5, 6]
      (a, na)).toOption = some (b, nb))
    (h3 : (forLoop (fun step s => locateLoop step (SIZE_X * SIZE_Y + 1) 0 s) [7, 8, 9]
      (b, nb)).toOption = some (c, nc))
    (h4 : preprocess_step2 (c, nc) = (d, nd)) : preprocess g = (nd, d) := by
  have e : List.range' 1 SIZE_X = [1, 2, 3] ++ ([4, 5, 6] ++ [7, 8, 9]) := rfl
  have hs : preprocess_step1 (g, 0) = .ok (c, nc) := by
    unfold preprocess_step1
    rw [e, forLoop_append, toOption_ok h1]
    simp only
    rw [forLoop_append, toOption_ok h2]
    simp only
    exact toOption_ok h3
  rw [preprocess_ok hs, h4]

theorem main_of_loops {fuel : Nat} {g p q : Grid} {n m : Int} {s : State}
    (h1 : repeatWhile preprocess (fun pp => decide (pp > 0)) fuel g = some (n, p))
    (h2 : repeatWhile postprocess (fun pp => decide (pp > 0)) fuel p = some (m, q))
    (h3 : solverLoop fuel fuel ⟨q, backlog0, 0⟩ = .done s) :
    main fuel g = .done (EXIT_SUCCESS, check_solved s.playfield, s) := by
  unfold main main_loops
  rw [h1]
  simp only
  rw [h2]
  simp only
  rw [h3]

theorem result_of_done {o : Outcome (Int × Nat × State)} {c v : Nat} {s : State}
    (h : o = .done (EXIT_SUCCESS, c, s)) (hc : c = v) :
    o.result.map (fun r => (r.1, r.2.1, r.2.2.playfield)) = some (EXIT_SUCCESS, v, s.playfield) := by
  subst h hc
  rfl

theorem check_solved_eq_one {g : Grid} (h : check_solved g ≠ 0) : check_solved g = 1 := by
  unfold check_solved at h ⊢
  split_ifs at h ⊢ with h1 h2
  · exact absurd rfl h
  · exact absurd rfl h
  · rfl

/-- A run of `main` on a playfield of solid cells that the first calls of
`preprocess` and `postprocess` leave as it is. -/
theorem main_of_solid {g : Grid} {n : Int} (hn : ¬ n > 0)
    (hs : ∀ x < 9, ∀ y < 9, Solid (PLAYFIELD g x y))
    (h1 : preprocess g = (n, g)) (h2 : postprocess g = (0, g)) (fuel : Nat) :
    main (fuel + 1) g =
      .done (EXIT_SUCCESS, check_solved g, ⟨g, backlog0, 0⟩) := by
  have ha : (fun pp : Int => decide (pp > 0)) n = false := by
    simpa using hn
  have l1 : repeatWhile preprocess (fun pp => decide (pp > 0)) (fuel + 1) g = some (n, g) :=
    repeatWhile_last h1 ha fuel
  have l2 : repeatWhile postprocess (fun pp => decide (pp > 0)) (fuel + 1) g = some (0, g) :=
    repeatWhile_last h2 rfl fuel
  have hsol : solver (fuel + 1) ⟨g, backlog0, 0⟩ = .done (0, ⟨g, backlog0, 0⟩) :=
    solver_of_solid hs (fuel + 1)
  have l3 : solverLoop (fuel + 1) (fuel + 1) ⟨g, backlog0, 0⟩ = .done ⟨g, backlog0, 0⟩ :=
    solverLoop_stop fuel hsol (fun h => absurd (show (0 : Int) > 0 from h) (by decide))
  have hm := main_of_loops l1 l2 l3
  exact hm



/-! ## A loop of postprocess that does not end -/

theorem repeatWhile_cycle {f : Grid → Int × Grid} {again : Int → Bool} {a b : Grid}
    (ha : again (f a).1 = true ∧ (f a).2 = b) (hb : again (f b).1 = true ∧ (f b).2 = a)
    (fuel : Nat) : repeatWhile f again fuel a = none ∧ repeatWhile f again fuel b = none := by
  induction fuel with
  | zero => exact ⟨rfl, rfl⟩
  | succ k ih =>
    constructor
    · rw [repeatWhile_step _ ha.1, ha.2]; exact ih.2
    · rw [repeatWhile_step _ hb.1, hb.2]; exact ih.1

set_option maxRecDepth 100000 in
theorem gridFlip_step1a :
    (forLoop (fun step s => locateLoop step (SIZE_X * SIZE_Y + 1) 0 s) [1, 2, 3]
      (gridFlip, 0)).toOption = some (gridFlip1, 61) := by
  decide!

set_option maxRecDepth 100000 in
theorem gridFlip_step1b :
    (forLoop (fun step s => locateLoop step (SIZE_X * SIZE_Y + 1) 0 s) [4, 5, 6]
      (gridFlip1, 61)).toOption = some (gridFlip2, 96) := by
  decide!

set_option maxRecDepth 100000 in
theorem gridFlip_step1c :
    (forLoop (fun step s => locateLoop step (SIZE_X * SIZE_Y + 1) 0 s) [7, 8, 9]
      (gridFlip2, 96)).toOption = some (gridFlip3, 118) := by
  decide!

set_option maxRecDepth 100000 in
theorem gridFlip_step2 : preprocess_step2 (gridFlip3, 118) = (gridFlipSolver, 123) := by
  decide!

/-- The first call of `preprocess` on `gridFlip`. -/
theorem gridFlip_call1 : preprocess gridFlip = (123, gridFlipSolver) :=
  preprocess_of_pieces gridFlip_step1a gridFlip_step1b gridFlip_step1c gridFlip_step2

set_option maxRecDepth 100000 in
theorem gridFlip_call2 : preprocess gridFlipSolver = (0, gridFlipSolver) := by
  decide!

set_option maxRecDepth 100000 in
theorem gridFlip_post : postprocess gridFlipSolver = (0, gridFlipSolver) := by
  decide!

theorem gridFlip_main :
    repeatWhile preprocess (fun pp => decide (pp > 0)) 2 gridFlip = some (0, gridFlipSolver) ∧
      repeatWhile postprocess (fun pp => decide (pp > 0)) 1 gridFlipSolver =
        some (0, gridFlipSolver) :=
  ⟨(repeatWhile_next gridFlip_call1 rfl 1).trans (repeatWhile_last gridFlip_call2 rfl 0),
    repeatWhile_last gridFlip_post rfl 0⟩

set_option maxRecDepth 100000 in
theorem gridFlip_hyp :
    OnlyForcedSingle gridFlipSolver 0 1 ∧ isOpen gridFlipSolver 1 (0, 0) = true := by
  unfold OnlyForcedSingle
  decide!

set_option maxRecDepth 100000 in
theorem gridFlip_select :
    (List.range SIZE_Y).foldl (selectRow gridFlipSolver) ⟨0, 0, 0, SIZE_X, 0⟩ =
        ⟨SIZE_X, 0, HORIZONTAL, 1, 1⟩ ∧
      (rowCells 0).findIdx (isOpen gridFlipSolver 1) = 0 := by
  decide!

set_option maxRecDepth 100000 in
theorem gridFlip_assign :
    preprocess (setPLAYFIELD gridFlipSolver 0 0 (1 <<< 1)) = (6, gridFlipA) := by
  decide!

set_option maxRecDepth 100000 in
theorem gridFlipA_fixpoint : preprocess gridFlipA = (0, gridFlipA) := by
  decide!

/-- The loop over `preprocess` at the label `flag` after the forced assignment
on `gridFlipSolver`. -/
theorem gridFlip_forced_loop :
    repeatWhile preprocess (fun pp => pp != -1 && decide (pp > 0)) 2
      (setPLAYFIELD gridFlipSolver 0 0 (1 <<< 1)) = some (0, gridFlipA) :=
  (repeatWhile_next gridFlip_assign rfl 1).trans (repeatWhile_last gridFlipA_fixpoint rfl 0)

theorem gridFlip_propagate :
    (preprocess (setPLAYFIELD gridFlipSolver 0 0 (1 <<< 1))).1 = 6 ∧
      preprocess gridFlipA = (0, gridFlipA) :=
  ⟨fst_of_eq gridFlip_assign, gridFlipA_fixpoint⟩

set_option maxRecDepth 100000 in
theorem gridFlip_fillA : postprocess gridFlipA = (1, gridFlipB) := by
  decide!

set_option maxRecDepth 100000 in
theorem gridFlip_fillB : postprocess gridFlipB = (1, gridFlipC) := by
  decide!

set_option maxRecDepth 100000 in
theorem gridFlip_fillC : postprocess gridFlipC = (1, gridFlipB) := by
  decide!

theorem gridFlip_cells :
    PLAYFIELD gridFlipB 0 0 = 1 <<< 9 ∧ PLAYFIELD gridFlipC 0 0 = 1 <<< 1 := by
  decide

theorem gridFlip_fill :
    (postprocess gridFlipA).1 = 1 ∧ (postprocess gridFlipB).1 = 1 ∧
      postprocess gridFlipC = (1, gridFlipB) ∧
      PLAYFIELD gridFlipB 0 0 = 1 <<< 9 ∧ PLAYFIELD gridFlipC 0 0 = 1 <<< 1 :=
  ⟨fst_of_eq gridFlip_fillA, fst_of_eq gridFlip_fillB, gridFlip_fillC, gridFlip_cells.1,
    gridFlip_cells.2⟩

theorem gridFlipA_eq : (preprocess (setPLAYFIELD gridFlipSolver 0 0 (1 <<< 1))).2 = gridFlipA :=
  snd_of_eq gridFlip_assign

theorem gridFlipB_eq : (postprocess gridFlipA).2 = gridFlipB :=
  snd_of_eq gridFlip_fillA

theorem gridFlipC_eq : (postprocess gridFlipB).2 = gridFlipC :=
  snd_of_eq gridFlip_fillB

/-- The loop `while (postprocess(1) > 0);` does not end on `gridFlipA`. -/
theorem gridFlip_postprocess_loop (fuel : Nat) :
    repeatWhile postprocess (fun pp => decide (pp > 0)) fuel gridFlipA = none := by
  have hB : (fun pp : Int => decide (pp > 0)) (postprocess gridFlipB).1 = true ∧
      (postprocess gridFlipB).2 = gridFlipC := by
    refine ⟨?_, gridFlipC_eq⟩
    rw [gridFlip_fill.2.1]; rfl
  have hC : (fun pp : Int => decide (pp > 0)) (postprocess gridFlipC).1 = true ∧
      (postprocess gridFlipC).2 = gridFlipB := by
    rw [gridFlip_fill.2.2.1]
    exact ⟨rfl, rfl⟩
  cases fuel with
  | zero => rfl
  | succ k =>
    rw [repeatWhile_step _ (by rw [gridFlip_fill.1]; rfl), gridFlipB_eq]
    exact (repeatWhile_cycle hB hC k).1

/-- The loop over `preprocess` after the forced assignment ends with the result
`0` and the playfield `gridFlipA`, when the fuel suffices for its two calls. -/
theorem gridFlip_preprocess_loop (fuel : Nat) :
    repeatWhile preprocess (fun pp => pp != -1 && decide (pp > 0)) fuel
        (setPLAYFIELD gridFlipSolver 0 0 (1 <<< 1)) = none ∨
      repeatWhile preprocess (fun pp => pp != -1 && decide (pp > 0)) fuel
        (setPLAYFIELD gridFlipSolver 0 0 (1 <<< 1)) = some (0, gridFlipA) := by
  cases fuel with
  | zero => exact Or.inl rfl
  | succ k =>
    rw [repeatWhile_step _ (by rw [gridFlip_propagate.1]; rfl), gridFlipA_eq]
    cases k with
    | zero => exact Or.inl rfl
    | succ j =>
      rw [repeatWhile_stop _ (by rw [gridFlip_propagate.2]; rfl), gridFlip_propagate.2]
      exact Or.inr rfl

theorem solver_flag_gridFlip (fuel : Nat) (bl : List BACKLOG) (cb : Int) :
    solver_flag fuel ⟨gridFlipSolver, bl, cb⟩ 1 HORIZONTAL 0 0 = .timeout := by
  unfold solver_flag
  rw [if_pos (by decide)]
  rcases gridFlip_preprocess_loop fuel with h | h
  · simp only [h]
  · simp only [h, gridFlip_postprocess_loop fuel]
    rfl

/-- Called on `gridFlipSolver`, `solver` does not return. -/
theorem solver_gridFlip (fuel : Nat) (bl : List BACKLOG) (cb : Int) :
    solver fuel ⟨gridFlipSolver, bl, cb⟩ = .timeout := by
  unfold solver
  simp only [gridFlip_select.1, gridFlip_select.2]
  exact solver_flag_gridFlip fuel bl cb


/-! ## The run of main on a playfield with two equal digits in a row -/

/-- On `gridRowDupSingle` the first call of `solver` finds the forced single of
row 8, `preprocess` returns `-1`, and the jump to `try_backlog` reads
`backlog[cur_backlog - 1]` with `cur_backlog = 0`. -/
theorem main_gridRowDupSingle : (main 5 gridRowDupSingle).isUndefined = true := by
  decide!

/-! ## The forced single with an empty backlog -/

/-- When the first call of `preprocess` at the label `flag` returns `-1` and
`cur_backlog` is `0`, the jump to `try_backlog` reads `backlog[-1]`. -/
theorem solver_flag_empty {fuel : Nat} {st : State} {cur_num dir cur_x cur_y : Nat}
    (hcb : st.cur_backlog = 0) (hxy : cur_y * SIZE_X + cur_x < SIZE_X * SIZE_Y)
    (hpre : (preprocess (setPLAYFIELD st.playfield cur_x cur_y (1 <<< cur_num))).1 = -1) :
    solver_flag (fuel + 1) st cur_num dir cur_x cur_y = .undefined := by
  unfold solver_flag
  rw [if_pos hxy, repeatWhile_stop _ (by rw [hpre]; rfl)]
  simp only [hpre, if_true]
  unfold solver_try
  simp only [hcb]
  rfl

set_option maxRecDepth 100000 in
theorem gridRowDupSingle_facts :
    preprocess gridRowDupSingle = (-1, gridRowDupSingleP) ∧
      postprocess gridRowDupSingleP = (0, gridRowDupSingleP) ∧
      (List.range SIZE_Y).foldl (selectRow gridRowDupSingleP) ⟨0, 0, 0, SIZE_X, 0⟩ =
        ⟨SIZE_X, 8, HORIZONTAL, 1, 2⟩ ∧
      (rowCells 8).findIdx (isOpen gridRowDupSingleP 2) = 0 ∧
      (preprocess (setPLAYFIELD gridRowDupSingleP 0 8 (1 <<< 2))).1 = -1 := by
  decide!


/-! ## The loop of postprocess over one part -/

theorem fill_loop_none {m : Nat} {p : Nat × Nat} {ex ey : Nat} (l : List Nat)
    (h : ∀ num ∈ l, m ≠ 1 <<< num) (a : PState) :
    forLoop (fillPart m p ex ey) l a = .ok a := by
  induction l with
  | nil => rfl
  | cons i is ih =>
    have hi : fillPart m p ex ey i a = .ok a := by
      unfold fillPart
      rw [if_neg (h i (by simp))]
    simp only [forLoop, hi]
    exact ih (fun n hn => h n (by simp [hn]))

theorem fill_loop_one {p : Nat × Nat} {ex ey num : Nat} (l : List Nat) (hnd : l.Nodup)
    (hnum : num ∈ l) (a : PState) :
    forLoop (fillPart (1 <<< num) p ex ey) l a = fillPart (1 <<< num) p ex ey num a := by
  induction l with
  | nil => simp at hnum
  | cons i is ih =>
    have hnd1 := List.nodup_cons.1 hnd
    by_cases hi : i = num
    · subst hi
      have hrest : ∀ b, forLoop (fillPart (1 <<< i) p ex ey) is b = .ok b := fun b =>
        fill_loop_none is (fun n hn h => hnd1.1 (by rw [bit_inj h]; exact hn)) b
      cases hf : fillPart (1 <<< i) p ex ey i a with
      | error e => simp only [forLoop, hf]
      | ok b => simp only [forLoop, hf]; exact hrest b
    · have hne : fillPart (1 <<< num) p ex ey i a = .ok a := by
        unfold fillPart
        rw [if_neg (fun h => hi (bit_inj h).symm)]
      simp only [forLoop, hne]
      rcases List.mem_cons.1 hnum with h | h
      · exact absurd h.symm hi
      · exact ih hnd1.2 h

/-- A part whose `curmask` is a single bit: `postprocess` assigns at the
recorded offset and calls `preprocess`. -/
theorem postprocess_part_fill {p : Nat × Nat} {s : FState} {num : Nat} (h1 : 1 ≤ num)
    (h9 : num ≤ 9)
    (hm : (partOrder.foldl (scanPart s.grid p) (ANY_NUMBER, s.empty_x, s.empty_y)).1 =
      1 <<< num) {s1 : PState}
    (hf : fillPart (1 <<< num) p
      (partOrder.foldl (scanPart s.grid p) (ANY_NUMBER, s.empty_x, s.empty_y)).2.1
      (partOrder.foldl (scanPart s.grid p) (ANY_NUMBER, s.empty_x, s.empty_y)).2.2
      num (s.grid, s.numchanges) = .ok s1) :
    postprocess_part p s =
      .ok ⟨s1.1, (partOrder.foldl (scanPart s.grid p) (ANY_NUMBER, s.empty_x, s.empty_y)).2.1,
        (partOrder.foldl (scanPart s.grid p) (ANY_NUMBER, s.empty_x, s.empty_y)).2.2, s1.2⟩ := by
  unfold postprocess_part
  rw [hm, fill_loop_one _ (List.nodup_range' 1 SIZE_X) ((mem_range9 num).2 ⟨h1, h9⟩), hf]

/-- A part whose `curmask` is not a single bit of `1..9` is left as it is. -/
theorem postprocess_part_skip {p : Nat × Nat} {s : FState}
    (hm : ∀ num, 1 ≤ num → num ≤ 9 →
      (partOrder.foldl (scanPart s.grid p) (ANY_NUMBER, s.empty_x, s.empty_y)).1 ≠ 1 <<< num) :
    postprocess_part p s =
      .ok ⟨s.grid, (partOrder.foldl (scanPart s.grid p) (ANY_NUMBER, s.empty_x, s.empty_y)).2.1,
        (partOrder.foldl (scanPart s.grid p) (ANY_NUMBER, s.empty_x, s.empty_y)).2.2,
        s.numchanges⟩ := by
  unfold postprocess_part
  rw [fill_loop_none _ (fun n hn => hm n ((mem_range9 n).1 hn).1 ((mem_range9 n).1 hn).2)]

theorem forLoop_total {ι σ ε : Type} {body : ι → σ → Except ε σ} (I : σ → Prop) (l : List ι)
    (h : ∀ i ∈ l, ∀ s, I s → ∃ t, body i s = .ok t ∧ I t) (s : σ) (hs : I s) :
    ∃ t, forLoop body l s = .ok t ∧ I t := by
  induction l generalizing s with
  | nil => exact ⟨s, rfl, hs⟩
  | cons i is ih =>
    obtain ⟨t, ht, hI⟩ := h i (by simp) s hs
    simp only [forLoop, ht]
    exact ih (fun j hj => h j (by simp [hj])) t hI

/-- When `curmask` is the single bit `num`, no cell of the part holds `num` and
every other value of `1..9` is held by a cell of the part. -/
theorem curmask_single {g : Grid} {p : Nat × Nat} {ex ey num : Nat}
    (hm : (partOrder.foldl (scanPart g p) (ANY_NUMBER, ex, ey)).1 = 1 <<< num) :
    (1 ≤ num → num ≤ 9 → ¬ ∃ o ∈ partOrder, PLAYFIELD g (p.1 + o.1) (p.2 + o.2) = 1 <<< num) ∧
      ∀ i, 1 ≤ i → i ≤ 9 → i ≠ num →
        ∃ o ∈ partOrder, PLAYFIELD g (p.1 + o.1) (p.2 + o.2) = 1 <<< i := by
  constructor
  · intro _ _
    have := (scanPart_foldl g p ex ey num).1
    rw [hm, testBit_bit] at this
    exact (this.1 (by simp)).2
  · intro i hi1 hi9 hne
    by_contra hno
    have := (scanPart_foldl g p ex ey i).1
    rw [hm, testBit_bit] at this
    have h := this.2 ⟨⟨hi1, hi9⟩, hno⟩
    have e : num = i := by simpa using h
    exact hne e.symm

/-- On a playfield that allows the solution `sol`, the forced assignment of
`postprocess` writes the value that the cell holds in `sol`. -/
theorem fill_consistent {g sol : Grid} (hw : WF g) (hsol : IsSolution sol)
    (hc : Consistent sol g) {p : Nat × Nat} (hp : p ∈ partOrigins) (ex ey : Nat) {num : Nat}
    (h1 : 1 ≤ num) (h9 : num ≤ 9)
    (hm : (partOrder.foldl (scanPart g p) (ANY_NUMBER, ex, ey)).1 = 1 <<< num) :
    Consistent sol (setPLAYFIELD g
      (p.1 + (partOrder.foldl (scanPart g p) (ANY_NUMBER, ex, ey)).2.1)
      (p.2 + (partOrder.foldl (scanPart g p) (ANY_NUMBER, ex, ey)).2.2) (1 <<< num)) := by
  have hnone := (curmask_single hm).1 h1 h9
  have hall := (curmask_single hm).2
  obtain ⟨i, hi, j, hj, rfl⟩ := (mem_partOrigins p).1 hp
  simp only at hnone hall ⊢
  have hval : ∀ o ∈ partOrder, ∀ w, PLAYFIELD g (i * 3 + o.1) (j * 3 + o.2) = 1 <<< w →
      PLAYFIELD sol (i * 3 + o.1) (j * 3 + o.2) = 1 <<< w := by
    intro o ho w hg
    have ho1 := (mem_partOrder o).1 ho
    obtain ⟨w1, _, _, hs⟩ := hsol.value (x := i * 3 + o.1) (y := j * 3 + o.2) (by omega) (by omega)
    have := hc _ (by omega) _ (by omega) w1 hs
    rw [hg, testBit_bit] at this
    have e : w = w1 := by simpa using this
    rw [e]; exact hs
  rcases (scanPart_foldl g (i * 3, j * 3) ex ey 0).2 with ⟨_, hsolid⟩ | ⟨o, ho, hoe, hns⟩
  · exfalso
    obtain ⟨o, ⟨ho, hso⟩, _⟩ := hsol.2.2.2.2 (i * 3, j * 3) hp num h1 h9
    obtain ⟨w, hw1, hw9, hg⟩ := hsolid o ho
    have h2 := hval o ho w hg
    simp only at hso hg
    rw [h2] at hso
    have e := bit_inj hso
    exact hnone ⟨o, ho, by rw [hg, e]⟩
  · have ho1 := (mem_partOrder o).1 ho
    simp only at hns
    obtain ⟨w, hw1, hw9, hs⟩ := hsol.value (x := i * 3 + o.1) (y := j * 3 + o.2)
      (by omega) (by omega)
    have hwn : w = num := by
      by_contra hne
      obtain ⟨o1, ho2, hg1⟩ := hall w hw1 hw9 hne
      have hs1 := hval o1 ho2 w hg1
      have e := (hsol.2.2.2.2 (i * 3, j * 3) hp w hw1 hw9).unique ⟨ho2, hs1⟩ ⟨ho, hs⟩
      subst e
      exact hns ⟨w, hw1, hw9, hg1⟩
    subst hwn
    rw [hoe]
    intro x1 hx1 y1 hy1 w1 hs1
    rw [PLAYFIELD_set hw.1 (by omega) (by omega) hx1]
    split
    · rename_i heq
      obtain ⟨rfl, rfl⟩ := heq
      rw [hs] at hs1
      rw [bit_inj hs1, testBit_bit]
      simp
    · exact hc x1 hx1 y1 hy1 w1 hs1

theorem postprocess_part_sound {sol : Grid} (hsol : IsSolution sol) {p : Nat × Nat}
    (hp : p ∈ partOrigins) {s : FState}
    (hs : WF s.grid ∧ Consistent sol s.grid ∧ s.empty_x < 3 ∧ s.empty_y < 3 ∧
      0 ≤ s.numchanges) :
    ∃ t, postprocess_part p s = .ok t ∧ WF t.grid ∧ Consistent sol t.grid ∧ t.empty_x < 3 ∧
      t.empty_y < 3 ∧ 0 ≤ t.numchanges := by
  have ho := scan_offsets s.grid p hs.2.2.1 hs.2.2.2.1
  by_cases hex : ∃ num, 1 ≤ num ∧ num ≤ 9 ∧
      (partOrder.foldl (scanPart s.grid p) (ANY_NUMBER, s.empty_x, s.empty_y)).1 = 1 <<< num
  · obtain ⟨num, h1, h9, hm⟩ := hex
    have hc := fill_consistent hs.1 hsol hs.2.1 hp s.empty_x s.empty_y h1 h9 hm
    obtain ⟨i, hi, j, hj, rfl⟩ := (mem_partOrigins p).1 hp
    have hw := WF_set hs.1
      (x := i * 3 + (partOrder.foldl (scanPart s.grid (i * 3, j * 3))
        (ANY_NUMBER, s.empty_x, s.empty_y)).2.1)
      (y := j * 3 + (partOrder.foldl (scanPart s.grid (i * 3, j * 3))
        (ANY_NUMBER, s.empty_x, s.empty_y)).2.2)
      (by omega) (by omega) (bit_lt h9)
    have hp1 := preprocess_sound hw hsol hc
    have hf : fillPart (1 <<< num) (i * 3, j * 3)
        (partOrder.foldl (scanPart s.grid (i * 3, j * 3)) (ANY_NUMBER, s.empty_x, s.empty_y)).2.1
        (partOrder.foldl (scanPart s.grid (i * 3, j * 3)) (ANY_NUMBER, s.empty_x, s.empty_y)).2.2
        num (s.grid, s.numchanges) = .ok ((preprocess (setPLAYFIELD s.grid
          (i * 3 + (partOrder.foldl (scanPart s.grid (i * 3, j * 3))
            (ANY_NUMBER, s.empty_x, s.empty_y)).2.1)
          (j * 3 + (partOrder.foldl (scanPart s.grid (i * 3, j * 3))
            (ANY_NUMBER, s.empty_x, s.empty_y)).2.2) (1 <<< num))).2, s.numchanges + 1) := by
      unfold fillPart
      rw [if_pos rfl, if_neg hp1.1]
    rw [postprocess_part_fill h1 h9 hm hf]
    exact ⟨_, rfl, preprocess_WF hw, hp1.2, ho.1, ho.2, by simp only; omega⟩
  · rw [postprocess_part_skip (fun num h1 h9 hm => hex ⟨num, h1, h9, hm⟩)]
    exact ⟨_, rfl, hs.1, hs.2.1, ho.1, ho.2, hs.2.2.2.2⟩

/-- On a playfield that allows the solution `sol`, `postprocess` does not
return `-1` and leaves a playfield that allows `sol`. -/
theorem postprocess_sound {g sol : Grid} (hw : WF g) (hsol : IsSolution sol)
    (hc : Consistent sol g) : (postprocess g).1 ≠ -1 ∧ Consistent sol (postprocess g).2 := by
  obtain ⟨t, ht, h⟩ := forLoop_total
    (fun s : FState => WF s.grid ∧ Consistent sol s.grid ∧ s.empty_x < 3 ∧ s.empty_y < 3 ∧
      0 ≤ s.numchanges) partOrigins
    (fun p hp s hs => postprocess_part_sound hsol hp hs) ⟨g, 0, 0, 0⟩
    ⟨hw, hc, Nat.zero_lt_succ 2, Nat.zero_lt_succ 2, le_refl _⟩
  unfold postprocess
  rw [ht]
  exact ⟨fun h1 => by have := h.2.2.2.2; simp only at h1; omega, h.2.1⟩

/-! ## postprocess at a fixpoint of preprocess -/

theorem foldl_Elim_fixed {ι : Type} {f : PState → ι → PState} (l : List ι) (s : PState)
    (hf : ∀ i ∈ l, ∀ a, Elim s a → Elim a (f a i)) (h : (l.foldl f s).2 = s.2) :
    ∀ i ∈ l, f s i = s := by
  induction l with
  | nil => intro i hi; simp at hi
  | cons j js ih =>
    have h1 : Elim s (f s j) := hf j (by simp) s (Elim.refl s)
    have h2 : Elim (f s j) (js.foldl f (f s j)) :=
      foldl_inv (fun a => Elim (f s j) a) js
        (fun i hi a ha => ha.trans (hf i (by simp [hi]) a (h1.trans ha))) (f s j) (Elim.refl _)
    simp only [List.foldl_cons] at h
    have e : f s j = s := h1.count.2 (by have := h1.count.1; have := h2.count.1; omega)
    rw [e] at h
    intro i hi
    rcases List.mem_cons.1 hi with rfl | hi
    · exact e
    · exact ih (fun i hi a ha => hf i (by simp [hi]) a ha) h i hi

/-- When `preprocess` returns `0`, it leaves the playfield as it is, and no
cell that is not solid meets the mask of the solid cells of its part. -/
theorem preprocess_zero {g : Grid} (hw : WF g) (h0 : (preprocess g).1 = 0) :
    (preprocess g).2 = g ∧ ∀ p ∈ partOrigins, ∀ o ∈ partOrder,
      ¬ (check_solid (PLAYFIELD g (p.1 + o.1) (p.2 + o.2)) = 0 ∧
        PLAYFIELD g (p.1 + o.1) (p.2 + o.2) &&& partMask g p ≠ 0) := by
  cases h : preprocess_step1 (g, 0) with
  | error e =>
    rw [preprocess_error h] at h0
    exact absurd (show (-1 : Int) = 0 from h0) (by decide)
  | ok s =>
    have h1 := ((preprocess_step1_spec (s := (g, 0)) hw).1 s h).1
    have h2 := preprocess_step2_Elim s
    rw [preprocess_ok h] at h0 ⊢
    simp only at h0 ⊢
    have c1 := h1.count
    have c2 := h2.count
    have es : s = (g, 0) := c1.2 (by have := c1.1; have := c2.1; simp only at *; omega)
    subst es
    have e2 : preprocess_step2 (g, 0) = (g, 0) := c2.2 h0
    refine ⟨by rw [e2], fun p hp o ho => ?_⟩
    have hpart : preprocess_part (g, 0) p = (g, 0) :=
      foldl_Elim_fixed partOrigins (g, 0) (fun q hq a _ => preprocess_part_Elim hq)
        (by
          have : partOrigins.foldl preprocess_part (g, 0) = (g, 0) := e2
          rw [this]) p hp
    have hcell : removeMask (partMask g p) p (g, 0) o = (g, 0) :=
      foldl_Elim_fixed partOrder (g, 0)
        (fun q hq a ha => removeMask_Elim (n := 0) hp hq ha)
        (by
          have : partOrder.foldl (removeMask (partMask g p) p) (g, 0) = (g, 0) := hpart
          rw [this]) o ho
    intro hcond
    unfold removeMask at hcell
    rw [if_pos hcond] at hcell
    have := congrArg Prod.snd hcell
    simp at this

theorem part_pigeonhole (cell : Nat → Nat) (num : Nat) (h1 : 1 ≤ num) (h9 : num ≤ 9)
    (hs : ∀ k < 9, ∃ v, 1 ≤ v ∧ v ≤ 9 ∧ v ≠ num ∧ cell k = 1 <<< v)
    (hinj : ∀ a < 9, ∀ b < 9, cell a = cell b → a = b) : False := by
  have h : ∀ k : Fin 9, ∃ v : Fin 9, v.val + 1 ≠ num ∧ cell k.val = 1 <<< (v.val + 1) := by
    intro k
    obtain ⟨v, hv1, hv9, hvn, hc⟩ := hs k.val k.isLt
    refine ⟨⟨v - 1, by omega⟩, by simp only; omega, ?_⟩
    rw [hc]
    congr 1
    simp only
    omega
  choose f hf using h
  have hinj1 : Function.Injective f := by
    intro a b hab
    have ha := (hf a).2
    rw [hab, ← (hf b).2] at ha
    exact Fin.ext (hinj a.val a.isLt b.val b.isLt ha)
  obtain ⟨k, hk⟩ := (Finite.injective_iff_surjective.1 hinj1) ⟨num - 1, by omega⟩
  have := (hf k).1
  rw [hk] at this
  simp only at this
  omega

/-- At a fixpoint of `preprocess` without empty cells and without two equal
solid cells in a part, the `curmask` of a part is never a single bit. -/
theorem curmask_not_single {g : Grid} (hd : Dom g) (hne : NoEmptyCell g)
    (hdist : ∀ c d : Nat × Nat, c.1 < 9 → c.2 < 9 → d.1 < 9 → d.2 < 9 → c ≠ d → SamePart c d →
      Solid (PLAYFIELD g c.1 c.2) → Solid (PLAYFIELD g d.1 d.2) →
      PLAYFIELD g c.1 c.2 ≠ PLAYFIELD g d.1 d.2)
    (hfix : ∀ p ∈ partOrigins, ∀ o ∈ partOrder,
      ¬ (check_solid (PLAYFIELD g (p.1 + o.1) (p.2 + o.2)) = 0 ∧
        PLAYFIELD g (p.1 + o.1) (p.2 + o.2) &&& partMask g p ≠ 0))
    {p : Nat × Nat} (hp : p ∈ partOrigins) (ex ey num : Nat) (h1 : 1 ≤ num) (h9 : num ≤ 9) :
    (partOrder.foldl (scanPart g p) (ANY_NUMBER, ex, ey)).1 ≠ 1 <<< num := by
  intro hm
  have hnone := (curmask_single hm).1 h1 h9
  have hall := (curmask_single hm).2
  have hfixp := hfix p hp
  obtain ⟨i, hi, j, hj, rfl⟩ := (mem_partOrigins p).1 hp
  simp only at hnone hall hfixp
  have hopen : ∃ o ∈ partOrder, ¬ Solid (PLAYFIELD g (i * 3 + o.1) (j * 3 + o.2)) := by
    by_contra hno
    have hs : ∀ o ∈ partOrder, Solid (PLAYFIELD g (i * 3 + o.1) (j * 3 + o.2)) := by
      intro o ho
      by_contra h
      exact hno ⟨o, ho, h⟩
    have hmem : ∀ k < 9, (k % 3, k / 3) ∈ partOrder := fun k hk =>
      (mem_partOrder _).2 ⟨by simp only; omega, by simp only; omega⟩
    apply part_pigeonhole (fun k => PLAYFIELD g (i * 3 + k % 3) (j * 3 + k / 3)) num h1 h9
    · intro k hk
      obtain ⟨v, hv1, hv9, hc⟩ := hs (k % 3, k / 3) (hmem k hk)
      refine ⟨v, hv1, hv9, ?_, hc⟩
      rintro rfl
      exact hnone ⟨(k % 3, k / 3), hmem k hk, hc⟩
    · intro a ha b hb hab
      by_contra hne1
      exact hdist (i * 3 + a % 3, j * 3 + a / 3) (i * 3 + b % 3, j * 3 + b / 3)
        (by simp only; omega) (by simp only; omega) (by simp only; omega) (by simp only; omega)
        (fun h => hne1 (by simp only [Prod.mk.injEq] at h; omega))
        ⟨by simp only; omega, by simp only; omega⟩
        (hs (a % 3, a / 3) (hmem a ha)) (hs (b % 3, b / 3) (hmem b hb)) hab
  obtain ⟨o, ho, hns⟩ := hopen
  have ho1 := (mem_partOrder o).1 ho
  have hbits : ∀ b, (PLAYFIELD g (i * 3 + o.1) (j * 3 + o.2)).testBit b = true → b = num := by
    intro b hb
    by_contra hbn
    have hb19 := hd.bits (x := i * 3 + o.1) (y := j * 3 + o.2) (by omega) (by omega) hb
    obtain ⟨o1, ho2, hg1⟩ := hall b hb19.1 hb19.2 hbn
    exact hfixp o ho ⟨(check_solid_eq_zero_iff _).2 hns, (and_ne_zero_iff _ _).2
      ⟨b, hb, (testBit_partMask g (i * 3, j * 3) b).2 ⟨hb19.1, hb19.2, o1, ho2, hg1⟩⟩⟩
  obtain ⟨b0, hb0⟩ := Nat.ne_zero_implies_bit_true
    (hne (i * 3 + o.1) (by omega) (j * 3 + o.2) (by omega))
  have hnumbit : (PLAYFIELD g (i * 3 + o.1) (j * 3 + o.2)).testBit num = true := by
    rw [← hbits b0 hb0]; exact hb0
  apply hns
  refine ⟨num, h1, h9, ?_⟩
  apply Nat.eq_of_testBit_eq
  intro b
  rw [testBit_bit]
  by_cases hb : (PLAYFIELD g (i * 3 + o.1) (j * 3 + o.2)).testBit b = true
  · rw [hb, hbits b hb]; simp
  · have hf : (PLAYFIELD g (i * 3 + o.1) (j * 3 + o.2)).testBit b = false := by simpa using hb
    rw [hf]
    have : num ≠ b := fun e => by rw [e] at hnumbit; exact hb hnumbit
    simp [this]

/-- When no part has a single-bit `curmask`, `postprocess` changes nothing and
returns `0`. -/
theorem postprocess_skip {g : Grid}
    (hmask : ∀ p ∈ partOrigins, ∀ ex ey num, 1 ≤ num → num ≤ 9 →
      (partOrder.foldl (scanPart g p) (ANY_NUMBER, ex, ey)).1 ≠ 1 <<< num) :
    postprocess g = (0, g) := by
  have hpart : ∀ p ∈ partOrigins, ∀ s : FState, s.grid = g ∧ s.numchanges = 0 →
      ∃ t, postprocess_part p s = .ok t ∧ t.grid = g ∧ t.numchanges = 0 := by
    intro p hp s hs
    rw [postprocess_part_skip (fun num h1 h9 => by
      rw [hs.1]; exact hmask p hp s.empty_x s.empty_y num h1 h9)]
    exact ⟨_, rfl, hs.1, hs.2⟩
  obtain ⟨t, ht, h⟩ := forLoop_total
    (fun s : FState => s.grid = g ∧ s.numchanges = 0) partOrigins hpart ⟨g, 0, 0, 0⟩ ⟨rfl, rfl⟩
  unfold postprocess
  rw [ht]
  simp only
  rw [h.1, h.2]

theorem foldl_pairs {σ : Type} (f : σ → Nat × Nat → σ) (l m : List Nat) (s : σ) :
    (l.flatMap (fun a => m.map (fun b => (a, b)))).foldl f s =
      l.foldl (fun s a => m.foldl (fun s b => f s (a, b)) s) s := by
  induction l generalizing s with
  | nil => rfl
  | cons a as ih =>
    simp only [List.flatMap_cons, List.foldl_append, List.foldl_map, List.foldl_cons, ih]

theorem searchRows_eq (g : Grid) :
    searchRows g = linePairs.foldl
      (selStep (rowCount g) (fun q => ⟨SIZE_X, q.1, HORIZONTAL, rowCount g q, q.2⟩))
      ⟨0, 0, 0, SIZE_X, 0⟩ := by
  unfold searchRows linePairs
  rw [foldl_pairs]
  rfl

theorem searchCols_eq (g : Grid) :
    searchCols g = linePairs.foldl
      (selStep (colCount g) (fun q => ⟨q.1, SIZE_Y, VERTICAL, colCount g q, q.2⟩))
      (searchRows g) := by
  unfold searchCols linePairs
  rw [foldl_pairs]
  rfl

/-- A check of `solver` either leaves its locals as they are, when no count is
positive and below `cur_less`, or ends with the first pair that attains the
least such count. -/
theorem selStep_foldl (count : Nat × Nat → Nat) (mk : Nat × Nat → Sel)
    (hmk : ∀ q, (mk q).cur_less = count q) (l : List (Nat × Nat)) (s : Sel) :
    ((∀ r ∈ l, count r = 0 ∨ s.cur_less ≤ count r) ∧ l.foldl (selStep count mk) s = s) ∨
      ∃ l1 q l2, l = l1 ++ q :: l2 ∧ 0 < count q ∧ count q < s.cur_less ∧
        l.foldl (selStep count mk) s = mk q ∧
        (∀ r ∈ l1, count r = 0 ∨ count q < count r) ∧
        ∀ r ∈ l2, count r = 0 ∨ count q ≤ count r := by
  induction l generalizing s with
  | nil => exact Or.inl ⟨fun r hr => by simp at hr, rfl⟩
  | cons a as ih =>
    by_cases hc : count a < s.cur_less ∧ count a ≠ 0
    · have hs : selStep count mk s a = mk a := by unfold selStep; rw [if_pos hc]
      rcases ih (mk a) with ⟨h1, h2⟩ | ⟨l1, q, l2, h1, h2, h3, h4, h5, h6⟩
      · refine Or.inr ⟨[], a, as, rfl, by omega, hc.1, ?_, fun r hr => by simp at hr, ?_⟩
        · rw [List.foldl_cons, hs, h2]
        · intro r hr
          have := h1 r hr
          rw [hmk] at this
          exact this
      · rw [hmk] at h3
        refine Or.inr ⟨a :: l1, q, l2, by rw [h1]; rfl, h2, by omega, ?_, ?_, h6⟩
        · rw [List.foldl_cons, hs, h4]
        · intro r hr
          rcases List.mem_cons.1 hr with rfl | hr
          · exact Or.inr h3
          · exact h5 r hr
    · have hs : selStep count mk s a = s := by unfold selStep; rw [if_neg hc]
      have ha : count a = 0 ∨ s.cur_less ≤ count a := by
        by_cases h0 : count a = 0
        · exact Or.inl h0
        · exact Or.inr (by by_contra h; exact hc ⟨by omega, h0⟩)
      rcases ih s with ⟨h1, h2⟩ | ⟨l1, q, l2, h1, h2, h3, h4, h5, h6⟩
      · refine Or.inl ⟨?_, by rw [List.foldl_cons, hs, h2]⟩
        intro r hr
        rcases List.mem_cons.1 hr with rfl | hr
        · exact ha
        · exact h1 r hr
      · refine Or.inr ⟨a :: l1, q, l2, by rw [h1]; rfl, h2, h3, ?_, ?_, h6⟩
        · rw [List.foldl_cons, hs, h4]
        · intro r hr
          rcases List.mem_cons.1 hr with rfl | hr
          · rcases ha with h | h
            · exact Or.inl h
            · exact Or.inr (by omega)
          · exact h5 r hr

/-- The first pair that attains the least count of a check is `FirstMin`. -/
theorem firstMin_of_split {count : Nat × Nat → Nat} {l1 l2 : List (Nat × Nat)} {q : Nat × Nat}
    (h1 : linePairs = l1 ++ q :: l2) (h2 : 0 < count q)
    (h5 : ∀ r ∈ l1, count r = 0 ∨ count q < count r)
    (h6 : ∀ r ∈ l2, count r = 0 ∨ count q ≤ count r) : FirstMin count q := by
  refine ⟨l1, l2, h1, h2, fun r hr hpos => ?_, fun r hr => ?_⟩
  · rw [h1] at hr
    rcases List.mem_append.1 hr with hr | hr
    · rcases h5 r hr with h | h <;> omega
    · rcases List.mem_cons.1 hr with rfl | hr
      · exact le_refl _
      · rcases h6 r hr with h | h <;> omega
  · rcases h5 r hr with h | h <;> omega

theorem solver_search (fuel : Nat) (st : State) :
    solver fuel st =
      if (searchRows st.playfield).cur_less = 1 then
        solver_flag fuel st (searchRows st.playfield).cur_num (searchRows st.playfield).dir
          ((rowCells (searchRows st.playfield).cur_y).findIdx
            (isOpen st.playfield (searchRows st.playfield).cur_num))
          (searchRows st.playfield).cur_y
      else if (searchCols st.playfield).cur_less = 1 then
        solver_flag fuel st (searchCols st.playfield).cur_num (searchCols st.playfield).dir
          (searchCols st.playfield).cur_x
          ((colCells (searchCols st.playfield).cur_x).findIdx
            (isOpen st.playfield (searchCols st.playfield).cur_num))
      else if (searchCols st.playfield).cur_less = SIZE_X then .done (0, st)
      else if 0 ≤ st.cur_backlog ∧ st.cur_backlog < MAX_BACKLOG then
        if st.cur_backlog + 1 = MAX_BACKLOG then
          .done (0, { st with
            backlog := st.backlog.set st.cur_backlog.toNat
              ⟨st.playfield, (searchCols st.playfield).cur_num, 0, (searchCols st.playfield).dir⟩,
            cur_backlog := st.cur_backlog + 1 })
        else
          solver_try fuel (searchCols st.playfield).cur_x (searchCols st.playfield).cur_y fuel false
            { st with
              backlog := st.backlog.set st.cur_backlog.toNat
                ⟨st.playfield, (searchCols st.playfield).cur_num, 0,
                  (searchCols st.playfield).dir⟩,
              cur_backlog := st.cur_backlog + 1 }
            (searchCols st.playfield).cur_num 0 (searchCols st.playfield).dir
      else .undefined := by
  unfold solver
  rfl

/-! ## Calls of solver and postprocess, composed of their steps -/

/-- A call of `solver` whose search ends with a count other than 1 and
`SIZE_X`: the playfield is pushed to the backlog and `mark_number` is tried. -/
theorem solver_guess {fuel : Nat} {g : Grid} {bl : List BACKLOG} {cb : Int}
    {rx ry rd rl rn cx cy dir less num : Nat}
    (hr : searchRows g = ⟨rx, ry, rd, rl, rn⟩) (hl : rl ≠ 1)
    (hc : searchCols g = ⟨cx, cy, dir, less, num⟩) (h1 : less ≠ 1) (h9 : less ≠ SIZE_X)
    (hb : 0 ≤ cb ∧ cb < MAX_BACKLOG) (hm : cb + 1 ≠ MAX_BACKLOG) :
    solver fuel ⟨g, bl, cb⟩ =
      solver_try fuel cx cy fuel false ⟨g, bl.set cb.toNat ⟨g, num, 0, dir⟩, cb + 1⟩
        num 0 dir := by
  rw [solver_search]
  simp only [hr, hc]
  rw [if_neg hl, if_neg h1, if_neg h9, if_pos hb, if_neg hm]

/-- A call of `solver` whose horizontal check finds a forced single. -/
theorem solver_forced_row {fuel : Nat} {g : Grid} {bl : List BACKLOG} {cb : Int}
    {rx ry rd rn x : Nat} (hr : searchRows g = ⟨rx, ry, rd, 1, rn⟩)
    (hx : (rowCells ry).findIdx (isOpen g rn) = x) :
    solver fuel ⟨g, bl, cb⟩ = solver_flag fuel ⟨g, bl, cb⟩ rn rd x ry := by
  rw [solver_search]
  simp only [hr]
  rw [if_pos trivial, hx]

/-- The label `flag` when the loop over `preprocess` ends with `-1`. -/
theorem solver_flag_conflict {fuel : Nat} {g : Grid} {bl : List BACKLOG} {cb : Int}
    {cur_num dir cur_x cur_y : Nat} {g1 : Grid}
    (hxy : cur_y * SIZE_X + cur_x < SIZE_X * SIZE_Y)
    (hpre : repeatWhile preprocess (fun pp => pp != -1 && decide (pp > 0)) fuel
      (setPLAYFIELD g cur_x cur_y (1 <<< cur_num)) = some (-1, g1)) :
    solver_flag fuel ⟨g, bl, cb⟩ cur_num dir cur_x cur_y =
      solver_try fuel cur_x cur_y fuel true ⟨g1, bl, cb⟩ cur_num 0 dir := by
  unfold solver_flag
  simp only
  rw [if_pos hxy, hpre]
  simp only [if_true]

/-- The label `try_backlog` with a backlog that is not empty. -/
theorem solver_try_restore {fuel cur_x cur_y k : Nat} {g : Grid} {bl : List BACKLOG} {cb : Int}
    {cur_num inst dir : Nat} {fg : Grid} {fnum finst fdir : Nat}
    (hb : 1 ≤ cb ∧ cb ≤ MAX_BACKLOG)
    (hf : bl[(cb - 1).toNat]? = some ⟨fg, fnum, finst, fdir⟩) :
    solver_try fuel cur_x cur_y (k + 1) true ⟨g, bl, cb⟩ cur_num inst dir =
      solver_try fuel cur_x cur_y k false
        ⟨fg, bl.set (cb - 1).toNat ⟨fg, fnum, finst + 1, fdir⟩, cb⟩ fnum (finst + 1) fdir := by
  rw [solver_try]
  simp only
  rw [if_pos hb, hf]

/-- The label `try_mark_number` when `mark_number` returns `1`. -/
theorem solver_try_marked {fuel cur_x cur_y k : Nat} {g : Grid} {bl : List BACKLOG} {cb : Int}
    {cur_num inst dir : Nat} {g1 : Grid}
    (hm : mark_number fuel g cur_num inst dir cur_x cur_y = .done (1, g1)) :
    solver_try fuel cur_x cur_y (k + 1) false ⟨g, bl, cb⟩ cur_num inst dir =
      .done (1, ⟨g1, bl, cb⟩) := by
  rw [solver_try]
  simp only
  rw [hm]
  rfl

/-- The label `try_mark_number` when `mark_number` returns `0` and the backlog
holds one entry. -/
theorem solver_try_exhausted {fuel cur_x cur_y k : Nat} {g : Grid} {bl : List BACKLOG}
    {cb : Int} {cur_num inst dir : Nat} {g1 : Grid}
    (hm : mark_number fuel g cur_num inst dir cur_x cur_y = .done (0, g1))
    (hb : cb - 1 = -1 ∨ cb - 1 = 0) :
    solver_try fuel cur_x cur_y (k + 1) false ⟨g, bl, cb⟩ cur_num inst dir =
      .done (0, ⟨g1, bl, cb - 1⟩) := by
  rw [solver_try]
  simp only
  rw [hm]
  simp only
  rw [if_neg (by decide), if_pos trivial, if_pos hb]

/-- A call of `mark_number` that finds its cell and whose two loops end with
`0`. -/
theorem mark_number_found {fuel : Nat} {g : Grid} {number inst dir x y : Nat}
    {cells : List (Nat × Nat)} {c : Nat × Nat} {g1 g2 : Grid}
    (hcells : (if dir = HORIZONTAL then rowCells y else colCells x) = cells)
    (hf : mark_find g number cells inst = .done (some c))
    (hp : repeatWhile preprocess (fun pp => !decide (pp < 0) && pp != 0) fuel
      (setPLAYFIELD g c.1 c.2 (1 <<< number)) = some (0, g1))
    (hq : repeatWhile postprocess (fun pp => !decide (pp < 0) && pp != 0) fuel g1 =
      some (0, g2)) :
    mark_number fuel g number inst dir x y = .done (1, g2) := by
  unfold mark_number
  rw [hcells, hf]
  simp only
  rw [hp]
  simp only
  rw [if_neg (by decide), hq]
  simp only
  rw [if_neg (by decide)]

/-- A call of `postprocess` that fills a spot of the first part and finds no
other part to fill. -/
theorem postprocess_first_fill {g g1 : Grid} {p : Nat × Nat} {rest : List (Nat × Nat)}
    {ex ey num : Nat} {n : Int} (hp : partOrigins = p :: rest)
    (hscan : partOrder.foldl (scanPart g p) (ANY_NUMBER, 0, 0) = (1 <<< num, ex, ey))
    (h1 : 1 ≤ num) (h9 : num ≤ 9)
    (hpre : preprocess (setPLAYFIELD g (p.1 + ex) (p.2 + ey) (1 <<< num)) = (n, g1))
    (hn : n ≠ -1)
    (hrest : (forLoop postprocess_part rest ⟨g1, ex, ey, 1⟩).toOption.map
      (fun s => (s.numchanges, s.grid)) = some (1, g1)) :
    postprocess g = (1, g1) := by
  have hfill : postprocess_part p ⟨g, 0, 0, 0⟩ = .ok ⟨g1, ex, ey, 1⟩ := by
    have hm : (partOrder.foldl (scanPart (FState.grid ⟨g, 0, 0, 0⟩) p)
        (ANY_NUMBER, FState.empty_x ⟨g, 0, 0, 0⟩, FState.empty_y ⟨g, 0, 0, 0⟩)).1 =
        1 <<< num := by
      show (partOrder.foldl (scanPart g p) (ANY_NUMBER, 0, 0)).1 = 1 <<< num
      rw [hscan]
    have hf : fillPart (1 <<< num) p
        (partOrder.foldl (scanPart (FState.grid ⟨g, 0, 0, 0⟩) p)
          (ANY_NUMBER, FState.empty_x ⟨g, 0, 0, 0⟩, FState.empty_y ⟨g, 0, 0, 0⟩)).2.1
        (partOrder.foldl (scanPart (FState.grid ⟨g, 0, 0, 0⟩) p)
          (ANY_NUMBER, FState.empty_x ⟨g, 0, 0, 0⟩, FState.empty_y ⟨g, 0, 0, 0⟩)).2.2
        num (FState.grid ⟨g, 0, 0, 0⟩, FState.numchanges ⟨g, 0, 0, 0⟩) = .ok (g1, 1) := by
      show fillPart (1 <<< num) p (partOrder.foldl (scanPart g p) (ANY_NUMBER, 0, 0)).2.1
        (partOrder.foldl (scanPart g p) (ANY_NUMBER, 0, 0)).2.2 num (g, 0) = .ok (g1, 1)
      rw [hscan]
      unfold fillPart
      simp only
      rw [if_pos trivial, hpre]
      simp only
      rw [if_neg hn]
      rfl
    rw [postprocess_part_fill h1 h9 hm hf]
    show Except.ok (FState.mk g1 (partOrder.foldl (scanPart g p) (ANY_NUMBER, 0, 0)).2.1
      (partOrder.foldl (scanPart g p) (ANY_NUMBER, 0, 0)).2.2 1) = _
    rw [hscan]
  unfold postprocess
  rw [hp, forLoop, hfill]
  simp only
  cases hr : forLoop postprocess_part rest ⟨g1, ex, ey, 1⟩ with
  | error e =>
    rw [hr] at hrest
    simp [Except.toOption] at hrest
  | ok s =>
    rw [hr] at hrest
    simp only [Except.toOption, Option.map_some', Option.some.injEq, Prod.mk.injEq] at hrest
    simp only [hrest.1, hrest.2]

/-! ## Facts about single playfields -/

/-- A search of `solver` that ends with its locals as they were initialised
makes `solver` return `0` with the state unchanged. -/
theorem solver_nothing_chosen {g : Grid} (hr : searchRows g = ⟨0, 0, 0, SIZE_X, 0⟩)
    (hc : searchCols g = ⟨0, 0, 0, SIZE_X, 0⟩) (bl : List BACKLOG) (cb : Int) (fuel : Nat) :
    solver fuel ⟨g, bl, cb⟩ = .done (0, ⟨g, bl, cb⟩) := by
  rw [solver_search]
  simp only [hr, hc]
  rfl

/-- Distinct solid cells part by part give distinct solid cells for every two
cells of one part. -/
theorem distinct_of_parts {g : Grid}
    (h : ∀ p ∈ partOrigins, ∀ a ∈ partOrder, ∀ b ∈ partOrder, a ≠ b →
      check_solid (PLAYFIELD g (p.1 + a.1) (p.2 + a.2)) ≠ 0 →
      PLAYFIELD g (p.1 + a.1) (p.2 + a.2) ≠ PLAYFIELD g (p.1 + b.1) (p.2 + b.2))
    (c d : Nat × Nat) (hc1 : c.1 < 9) (hc2 : c.2 < 9) (hd1 : d.1 < 9) (hd2 : d.2 < 9)
    (hne : c ≠ d) (hp : SamePart c d) (hs : Solid (PLAYFIELD g c.1 c.2))
    (_ : Solid (PLAYFIELD g d.1 d.2)) : PLAYFIELD g c.1 c.2 ≠ PLAYFIELD g d.1 d.2 := by
  obtain ⟨c1, c2⟩ := c
  obtain ⟨d1, d2⟩ := d
  simp only at hc1 hc2 hd1 hd2 hs ⊢
  have hp1 : c1 / 3 = d1 / 3 := hp.1
  have hp2 : c2 / 3 = d2 / 3 := hp.2
  have e1 : c1 = c1 / 3 * 3 + c1 % 3 := by omega
  have e2 : c2 = c2 / 3 * 3 + c2 % 3 := by omega
  have e3 : d1 = c1 / 3 * 3 + d1 % 3 := by omega
  have e4 : d2 = c2 / 3 * 3 + d2 % 3 := by omega
  have key := h (c1 / 3 * 3, c2 / 3 * 3)
    ((mem_partOrigins _).2 ⟨c1 / 3, by omega, c2 / 3, by omega, rfl⟩)
    (c1 % 3, c2 % 3) ((mem_partOrder _).2 ⟨by simp only; omega, by simp only; omega⟩)
    (d1 % 3, d2 % 3) ((mem_partOrder _).2 ⟨by simp only; omega, by simp only; omega⟩)
    (fun hab => hne (by
      simp only [Prod.mk.injEq] at hab ⊢
      omega))
  simp only at key
  rw [← e1, ← e2, ← e3, ← e4] at key
  exact key ((check_solid_ne_zero_iff _).2 hs)

/-! ## The puzzle gridRetry -/

theorem solRetry_isSolution : IsSolution solRetry :=
  isSolution_of_allOccur ⟨by decide, by decide⟩ ⟨by decide!, by decide!, by decide!⟩

set_option maxRecDepth 100000 in
theorem gridRetry_solvable :
    PLAYFIELD solRetry 2 1 = 1 <<< 6 ∧
      ∀ x < 9, ∀ y < 9, PLAYFIELD gridRetry x y = ANY_NUMBER ∨
        PLAYFIELD gridRetry x y = PLAYFIELD solRetry x y := by
  decide!

theorem gridRetry_consistent : Consistent solRetry gridRetry := by
  intro x hx y hy w hw
  rcases gridRetry_solvable.2 x hx y hy with h | h
  · rw [h]
    obtain ⟨v, hv1, hv9, hv⟩ := solRetry_isSolution.value hx hy
    rw [hv] at hw
    rw [← bit_inj hw]
    exact (testBit_ANY v).2 ⟨hv1, hv9⟩
  · rw [h, hw, testBit_bit]
    simp

set_option maxRecDepth 100000 in
theorem gridRetry_step1a :
    (forLoop (fun step s => locateLoop step (SIZE_X * SIZE_Y + 1) 0 s) [1, 2, 3]
      (gridRetry, 0)).toOption = some (gridRetryA, 90) := by
  decide!

set_option maxRecDepth 100000 in
theorem gridRetry_step1b :
    (forLoop (fun step s => locateLoop step (SIZE_X * SIZE_Y + 1) 0 s) [4, 5, 6]
      (gridRetryA, 90)).toOption = some (gridRetryB, 171) := by
  decide!

set_option maxRecDepth 100000 in
theorem gridRetry_step1c :
    (forLoop (fun step s => locateLoop step (SIZE_X * SIZE_Y + 1) 0 s) [7, 8, 9]
      (gridRetryB, 171)).toOption = some (gridRetryC, 235) := by
  decide!

set_option maxRecDepth 100000 in
theorem gridRetry_step2 : preprocess_step2 (gridRetryC, 235) = (gridRetry1, 263) := by
  decide!

/-- The first call of `preprocess` on `gridRetry`. -/
theorem gridRetry_call1 : preprocess gridRetry = (263, gridRetry1) :=
  preprocess_of_pieces gridRetry_step1a gridRetry_step1b gridRetry_step1c gridRetry_step2

set_option maxRecDepth 100000 in
theorem gridRetry_call2 : preprocess gridRetry1 = (16, gridRetry2) := by
  decide!

set_option maxRecDepth 100000 in
theorem gridRetry_call3 : preprocess gridRetry2 = (5, gridRetryP) := by
  decide!

set_option maxRecDepth 100000 in
theorem gridRetryP_fixpoint : preprocess gridRetryP = (0, gridRetryP) := by
  decide!

/-- The first loop of `main` on `gridRetry`: four calls of `preprocess`. -/
theorem gridRetry_preprocess :
    repeatWhile preprocess (fun pp => decide (pp > 0)) 6 gridRetry = some (0, gridRetryP) :=
  (repeatWhile_next gridRetry_call1 rfl 5).trans
    ((repeatWhile_next gridRetry_call2 rfl 4).trans
      ((repeatWhile_next gridRetry_call3 rfl 3).trans
        (repeatWhile_last gridRetryP_fixpoint rfl 2)))

set_option maxRecDepth 100000 in
theorem gridRetry_postprocess : postprocess gridRetryP = (0, gridRetryP) := by
  decide!

set_option maxRecDepth 100000 in
/-- The search of the first call of `solver`, and the open cells for the
value 6 in row 1 of `gridRetryP`. -/
theorem gridRetry_search :
    searchCols gridRetryP = ⟨SIZE_X, 1, HORIZONTAL, 2, 6⟩ ∧
      mark_find gridRetryP 6 (rowCells 1) 0 = .done (some (0, 1)) ∧
      mark_find gridRetryP 6 (rowCells 1) 1 = .done (some (2, 1)) := by
  decide!

set_option maxRecDepth 100000 in
/-- The search of the second call of `solver`, and the retry in row 4. -/
theorem gridRetry_retry :
    searchRows gridRetryGuess = ⟨SIZE_X, 4, HORIZONTAL, 1, 5⟩ ∧
      (rowCells 4).findIdx (isOpen gridRetryGuess 5) = 6 ∧
      mark_find gridRetryP 6 (rowCells 4) 1 = .done none ∧
      mark_number 6 gridRetryP 6 1 HORIZONTAL 6 4 = .done (0, gridRetryP) := by
  decide!

set_option maxRecDepth 100000 in
theorem gridRetry_rows : searchRows gridRetryP = ⟨SIZE_X, 1, HORIZONTAL, 2, 6⟩ := by
  decide!

set_option maxRecDepth 100000 in
theorem gridRetry_guess1 :
    preprocess (setPLAYFIELD gridRetryP 0 1 (1 <<< 6)) = (6, gridRetryGuess1) := by
  decide!

set_option maxRecDepth 100000 in
theorem gridRetry_guess2 : preprocess gridRetryGuess1 = (2, gridRetryGuess) := by
  decide!

set_option maxRecDepth 100000 in
theorem gridRetry_guess3 : preprocess gridRetryGuess = (0, gridRetryGuess) := by
  decide!

set_option maxRecDepth 100000 in
theorem gridRetry_guess4 : postprocess gridRetryGuess = (0, gridRetryGuess) := by
  decide!

set_option maxRecDepth 100000 in
theorem gridRetry_clash1 :
    preprocess (setPLAYFIELD gridRetryGuess 6 4 (1 <<< 5)) = (4, gridRetryClash1) := by
  decide!

set_option maxRecDepth 100000 in
theorem gridRetry_clash2 : preprocess gridRetryClash1 = (20, gridRetryClash2) := by
  decide!

set_option maxRecDepth 100000 in
theorem gridRetry_clash3 : preprocess gridRetryClash2 = (-1, gridRetryClash3) := by
  decide!

/-- The call of `mark_number` in the first call of `solver`. -/
theorem gridRetry_mark :
    mark_number 6 gridRetryP 6 0 HORIZONTAL SIZE_X 1 = .done (1, gridRetryGuess) :=
  mark_number_found rfl gridRetry_search.2.1
    ((repeatWhile_next gridRetry_guess1 rfl 5).trans
      ((repeatWhile_next gridRetry_guess2 rfl 4).trans (repeatWhile_last gridRetry_guess3 rfl 3)))
    (repeatWhile_last gridRetry_guess4 rfl 5)

/-- The first call of `solver`. -/
theorem gridRetry_first_call :
    solver 6 ⟨gridRetryP, backlog0, 0⟩ = .done (1, stateRetry) :=
  (solver_guess gridRetry_rows (by decide) gridRetry_search.1 (by decide) (by decide)
    (by decide) (by decide)).trans (solver_try_marked gridRetry_mark)

/-- The loop over `preprocess` at the label `flag` in the second call of
`solver`. -/
theorem gridRetry_clash :
    repeatWhile preprocess (fun pp => pp != -1 && decide (pp > 0)) 6
      (setPLAYFIELD gridRetryGuess 6 4 (1 <<< 5)) = some (-1, gridRetryClash3) :=
  (repeatWhile_next gridRetry_clash1 rfl 5).trans
    ((repeatWhile_next gridRetry_clash2 rfl 4).trans (repeatWhile_last gridRetry_clash3 rfl 3))

/-- The second call of `solver`. -/
theorem gridRetry_second_call : solver 6 stateRetry = .done (0, stateRetryEnd) :=
  (solver_forced_row gridRetry_retry.1 gridRetry_retry.2.1).trans
    ((solver_flag_conflict (by decide) gridRetry_clash).trans
      ((solver_try_restore (by decide) rfl).trans
        (solver_try_exhausted gridRetry_retry.2.2.2 (by decide))))

/-- The run of `main` on `gridRetry`. -/
theorem gridRetry_main :
    main 6 gridRetry = .done (EXIT_SUCCESS, check_solved stateRetryEnd.playfield, stateRetryEnd) :=
  main_two_calls (by decide) gridRetry_preprocess gridRetry_postprocess gridRetry_first_call
    gridRetry_second_call

set_option maxRecDepth 100000 in
theorem gridRetryP_cells :
    check_solved gridRetryP = 0 ∧ PLAYFIELD gridRetryP 6 1 = 1 <<< 1 ∧
      ∀ x < 9, ∀ y < 9,
        PLAYFIELD gridRetryP x y ≠ 0 ∧ PLAYFIELD gridRetryP x y &&& NOT32 ANY_NUMBER = 0 := by
  decide!

set_option maxRecDepth 100000 in
theorem gridRetryP_parts :
    ∀ p ∈ partOrigins, ∀ a ∈ partOrder, ∀ b ∈ partOrder, a ≠ b →
      check_solid (PLAYFIELD gridRetryP (p.1 + a.1) (p.2 + a.2)) ≠ 0 →
      PLAYFIELD gridRetryP (p.1 + a.1) (p.2 + a.2) ≠
        PLAYFIELD gridRetryP (p.1 + b.1) (p.2 + b.2) := by
  decide!

/-! ## postprocess and its single call of preprocess -/

set_option maxRecDepth 100000 in
theorem gridOpen_search :
    searchRows gridOpen = ⟨0, 0, 0, SIZE_X, 0⟩ ∧ searchCols gridOpen = ⟨0, 0, 0, SIZE_X, 0⟩ := by
  decide!

set_option maxRecDepth 100000 in
theorem gridOpen_counts :
    ∀ l < 9, ∀ v < 10, 1 ≤ v →
      countOpen gridOpen (rowCells l) v = 9 ∧ countOpen gridOpen (colCells l) v = 9 := by
  decide!

set_option maxRecDepth 100000 in
theorem gridOpen_main :
    check_solved gridOpen = 0 ∧ main 1 gridOpen = .done (EXIT_SUCCESS, 0, ⟨gridOpen, backlog0, 0⟩) := by
  decide!

/-! ## The playfield in which a cell loses its last candidate -/

set_option maxRecDepth 100000 in
theorem gridAlmostSolved_call : preprocess gridAlmostSolved = (-1, gridAlmostSolved) := by
  decide!

set_option maxRecDepth 100000 in
theorem gridAlmostSolved_scan :
    partOrder.foldl (scanPart gridAlmostSolved (0, 0)) (ANY_NUMBER, 0, 0) = (1 <<< 5, 0, 0) ∧
      setPLAYFIELD gridAlmostSolved 0 0 (1 <<< 5) = gridSolved := by
  decide!

set_option maxRecDepth 100000 in
/-- The parts after the first one, on the playfield `gridSolved`. -/
theorem gridSolved_rest :
    (forLoop postprocess_part [(3, 0), (6, 0), (0, 3), (3, 3), (6, 3), (0, 6), (3, 6), (6, 6)]
      ⟨gridSolved, 0, 0, 1⟩).toOption.map (fun s => (s.numchanges, s.grid)) =
        some (1, gridSolved) := by
  decide!

/-- The call of `postprocess` on `gridAlmostSolved`: it writes the value 5 to
the cell at the stale offset `(0, 0)`. -/
theorem gridAlmostSolved_fill : postprocess gridAlmostSolved = (1, gridSolved) :=
  postprocess_first_fill rfl gridAlmostSolved_scan.1 (by decide) (by decide)
    ((congrArg preprocess gridAlmostSolved_scan.2).trans gridSolved_isSolution.preprocess_eq)
    (by decide) gridSolved_rest

/-- On `gridAlmostSolved`, whose row 0 starts with `33`, the first call of
`postprocess` finds the top-left part without an open spot and with the single
value 5 missing, and writes it to the cell at the stale offset `(0, 0)`: the run
of `main` ends with the playfield `gridSolved` and reports it as solved. -/
theorem main_gridAlmostSolved :
    (main 3 gridAlmostSolved).result.map (fun r => (r.1, r.2.1, r.2.2.playfield)) =
      some (EXIT_SUCCESS, 1, gridSolved) :=
  result_of_done
    (main_of_loops (repeatWhile_last gridAlmostSolved_call rfl 2)
      ((repeatWhile_next gridAlmostSolved_fill rfl 2).trans
        (repeatWhile_last gridSolved_isSolution.postprocess_eq rfl 1))
      (solverLoop_stop 2 (solver_of_solid gridSolved_isSolution.2.1 3) (by decide)))
    (check_solved_eq_one gridSolved_isSolution.solved_check)

/-! ## The run of main on gridLatin -/

set_option maxRecDepth 100000 in
theorem gridLatin_cells : ∀ x < 9, ∀ y < 9, check_solid (PLAYFIELD gridLatin x y) ≠ 0 := by
  decide!

theorem gridLatin_solid : ∀ x < 9, ∀ y < 9, Solid (PLAYFIELD gridLatin x y) :=
  fun x hx y hy => (check_solid_ne_zero_iff _).1 (gridLatin_cells x hx y hy)

set_option maxRecDepth 100000 in
theorem gridLatin_call : preprocess gridLatin = (0, gridLatin) := by
  decide!

set_option maxRecDepth 100000 in
theorem gridLatin_post : postprocess gridLatin = (0, gridLatin) := by
  decide!

set_option maxRecDepth 100000 in
theorem gridLatin_check : check_solved gridLatin = 1 := by
  decide!


/-! # The claims -/

/-- C1: on a well-formed playfield in which two distinct cells `(x1, y)` and
`(x2, y)` of one row both hold `1 << v` for a value `v` in `1..9`, `preprocess`
returns `-1`. -/
theorem preprocess_row_duplicate (g : Grid) (hw : WF g) (v x1 x2 y : Nat)
    (hv1 : 1 ≤ v) (hv9 : v ≤ 9) (hx1 : x1 < 9) (hx2 : x2 < 9) (hy : y < 9) (hne : x1 ≠ x2)
    (h1 : PLAYFIELD g x1 y = 1 <<< v) (h2 : PLAYFIELD g x2 y = 1 <<< v) :
    (preprocess g).1 = -1 :=
  preprocess_of_row_pair hw hv1 hv9 hx1 hx2 hy hne h1 h2

/-- C1, on the playfield loaded from a file whose first row starts with `11`. -/
theorem preprocess_row_duplicate_witness :
    WF gridRowDup ∧ PLAYFIELD gridRowDup 0 0 = 1 <<< 1 ∧ PLAYFIELD gridRowDup 1 0 = 1 <<< 1 ∧
      (preprocess gridRowDup).1 = -1 :=
  ⟨⟨by decide, by decide⟩, by decide, by decide,
    preprocess_row_duplicate gridRowDup ⟨by decide, by decide⟩ 1 0 1 0 (by decide) (by decide)
      (by decide) (by decide) (by decide) (by decide) (by decide) (by decide)⟩

/-- C2: when `preprocess` returns `0` on a well-formed playfield, it has left
the playfield as it was, and the next call returns `0` again. -/
theorem preprocess_fixpoint (g : Grid) (hw : WF g) (h : (preprocess g).1 = 0) :
    (preprocess g).2 = g ∧ (preprocess (preprocess g).2).1 = 0 := by
  obtain ⟨n, hn, h1 | h1⟩ := preprocess_Elim hw
  · rw [h] at h1; exact absurd h1 (by decide)
  · have hg : (preprocess g).2 = g := by
      have := hn.count.2 (by rw [← h1, h])
      exact congrArg Prod.fst this
    exact ⟨hg, by rw [hg, h]⟩

/-- C2, on the playfield in which no cell is known. -/
theorem preprocess_fixpoint_witness :
    WF gridOpen ∧ (preprocess gridOpen).1 = 0 ∧
      (preprocess gridOpen).2 = gridOpen ∧ (preprocess (preprocess gridOpen).2).1 = 0 :=
  ⟨⟨by decide, by decide⟩, by decide!,
    preprocess_fixpoint gridOpen ⟨by decide, by decide⟩ (by decide!)⟩

/-- C5: when `check_solved` returns non-zero, every cell is solid and, in each
row and in each column, each value of `1..9` is held by exactly one cell. -/
theorem check_solved_lines (g : Grid) (h : check_solved g ≠ 0) :
    (∀ x < 9, ∀ y < 9, Solid (PLAYFIELD g x y)) ∧
    (∀ y < 9, ∀ v, 1 ≤ v → v ≤ 9 → ∃! x, x < 9 ∧ PLAYFIELD g x y = 1 <<< v) ∧
    (∀ x < 9, ∀ v, 1 ≤ v → v ≤ 9 → ∃! y, y < 9 ∧ PLAYFIELD g x y = 1 <<< v) := by
  rw [check_solved_ne_zero_iff] at h
  have hrow : ∀ y < 9, ∀ v, 1 ≤ v → v ≤ 9 → ∃ k < 9, PLAYFIELD g k y = 1 <<< v := by
    intro y hy v hv1 hv9
    obtain ⟨c, hc, hcv⟩ := (lineMask_eq_zero g _).1 (h.1 y hy) v hv1 hv9
    rw [mem_rowCells] at hc
    exact ⟨c.1, hc.1, hc.2 ▸ hcv⟩
  have hcol : ∀ x < 9, ∀ v, 1 ≤ v → v ≤ 9 → ∃ k < 9, PLAYFIELD g x k = 1 <<< v := by
    intro x hx v hv1 hv9
    obtain ⟨c, hc, hcv⟩ := (lineMask_eq_zero g _).1 (h.2 x hx) v hv1 hv9
    rw [mem_colCells] at hc
    exact ⟨c.2, hc.2, hc.1 ▸ hcv⟩
  refine ⟨fun x hx y hy => ?_, fun y hy => ?_, fun x hx => ?_⟩
  · exact (line_pigeonhole (fun k => PLAYFIELD g k y) (hrow y hy)).1 x hx
  · exact (line_pigeonhole (fun k => PLAYFIELD g k y) (hrow y hy)).2
  · exact (line_pigeonhole (fun k => PLAYFIELD g x k) (hcol x hx)).2

/-- C5, on a solved puzzle. -/
theorem check_solved_lines_witness :
    check_solved gridSolved ≠ 0 ∧
      ((∀ x < 9, ∀ y < 9, Solid (PLAYFIELD gridSolved x y)) ∧
      (∀ y < 9, ∀ v, 1 ≤ v → v ≤ 9 → ∃! x, x < 9 ∧ PLAYFIELD gridSolved x y = 1 <<< v) ∧
      (∀ x < 9, ∀ v, 1 ≤ v → v ≤ 9 → ∃! y, y < 9 ∧ PLAYFIELD gridSolved x y = 1 <<< v)) :=
  ⟨by decide!, check_solved_lines gridSolved (by decide!)⟩

/-- C6, the code at the failing input: `check_solved` returns `1` on
`gridLatin`, whose cells `(1, 0)` and `(0, 1)` lie in one part and both hold the
value 2, so that this part is not a permutation of `1..9`; and `main`, started
on `gridLatin`, leaves the playfield as it is and reports it as solved. -/
theorem check_solved_accepts_latin :
    check_solved gridLatin = 1 ∧ SamePart (1, 0) (0, 1) ∧
      PLAYFIELD gridLatin 1 0 = 1 <<< 2 ∧ PLAYFIELD gridLatin 0 1 = 1 <<< 2 ∧
      (main 1 gridLatin).result.map (fun r => (r.1, r.2.1, r.2.2.playfield)) =
        some (EXIT_SUCCESS, 1, gridLatin) :=
  ⟨gridLatin_check, ⟨by decide, by decide⟩, by decide, by decide,
    result_of_done (main_of_solid (by decide) gridLatin_solid gridLatin_call gridLatin_post 0)
      gridLatin_check⟩

/-- C7: on a solved playfield (every cell a single digit, every row, column and
part a permutation of `1..9`) `preprocess` and `postprocess` return `0` and
leave the playfield as it is, the first call of `solver` returns `0` and leaves
the backlog untouched with `cur_backlog = 0`, and `check_solved` is non-zero. -/
theorem presolved_input (g : Grid) (h : IsSolution g) (fuel : Nat) :
    preprocess g = (0, g) ∧ postprocess g = (0, g) ∧
      solver fuel ⟨g, backlog0, 0⟩ = .done (0, ⟨g, backlog0, 0⟩) ∧ check_solved g ≠ 0 :=
  ⟨h.preprocess_eq, h.postprocess_eq, solver_of_solid h.2.1 fuel, h.solved_check⟩

/-- C7, on `gridSolved`. -/
theorem presolved_input_witness :
    IsSolution gridSolved ∧ preprocess gridSolved = (0, gridSolved) ∧
      postprocess gridSolved = (0, gridSolved) ∧
      solver 1 ⟨gridSolved, backlog0, 0⟩ = .done (0, ⟨gridSolved, backlog0, 0⟩) ∧
      check_solved gridSolved ≠ 0 :=
  ⟨gridSolved_isSolution, presolved_input gridSolved gridSolved_isSolution 1⟩

/-- C8, the code at the failing input.  After loading `gridFlip`, the loops of
`main` over `preprocess` and `postprocess` end with the playfield
`gridFlipSolver`.  There the value 1 in row 0 is the only pair of a row and a
value with exactly one open spot, the cell `(0, 0)`.  `solver` sets that cell
and propagates without any contradiction: its loop over `preprocess` ends with
the result `0` and the playfield `gridFlipA`.  Its loop over `postprocess` then
writes the values 9 and 1 to the cell by turns (`gridFlipB`, `gridFlipC`), each
call returning 1, so that `solver` returns for no amount of fuel. -/
theorem solver_forced_single_diverges :
    repeatWhile preprocess (fun pp => decide (pp > 0)) 2 gridFlip = some (0, gridFlipSolver) ∧
      repeatWhile postprocess (fun pp => decide (pp > 0)) 1 gridFlipSolver =
        some (0, gridFlipSolver) ∧
      OnlyForcedSingle gridFlipSolver 0 1 ∧ isOpen gridFlipSolver 1 (0, 0) = true ∧
      repeatWhile preprocess (fun pp => pp != -1 && decide (pp > 0)) 2
        (setPLAYFIELD gridFlipSolver 0 0 (1 <<< 1)) = some (0, gridFlipA) ∧
      (postprocess gridFlipA).1 = 1 ∧ (postprocess gridFlipA).2 = gridFlipB ∧
      (postprocess gridFlipB).1 = 1 ∧ (postprocess gridFlipB).2 = gridFlipC ∧
      postprocess gridFlipC = (1, gridFlipB) ∧
      PLAYFIELD gridFlipB 0 0 = 1 <<< 9 ∧ PLAYFIELD gridFlipC 0 0 = 1 <<< 1 ∧
      ∀ fuel, solver fuel ⟨gridFlipSolver, backlog0, 0⟩ = .timeout :=
  ⟨gridFlip_main.1, gridFlip_main.2, gridFlip_hyp.1, gridFlip_hyp.2, gridFlip_forced_loop,
    gridFlip_fill.1, gridFlipB_eq, gridFlip_fill.2.1, gridFlipC_eq, gridFlip_fill.2.2.1, gridFlip_fill.2.2.2.1,
    gridFlip_fill.2.2.2.2, fun fuel => solver_gridFlip fuel backlog0 0⟩

/-- C9: for a solved playfield `sol` and a row `r`, started on the playfield
loaded from `sol` with row `r` left out, the loop over `preprocess` ends with
the result `0` and the playfield `sol`, the loop over `postprocess` ends at once
with `0`, the single call of `solver` returns `0` and leaves the backlog
untouched with `cur_backlog = 0`, so that the three loops of `main` end in the
state with playfield `sol` and an unused backlog, and `check_solved` is non-zero
on `sol`. -/
theorem single_missing_row (sol : Grid) (h : IsSolution sol) (r : Nat) (hr : r < 9)
    (fuel : Nat) (hf : 2 ≤ fuel) :
    repeatWhile preprocess (fun pp => decide (pp > 0)) fuel (blankRow sol r) = some (0, sol) ∧
      repeatWhile postprocess (fun pp => decide (pp > 0)) fuel sol = some (0, sol) ∧
      solver fuel ⟨sol, backlog0, 0⟩ = .done (0, ⟨sol, backlog0, 0⟩) ∧
      main_loops fuel (blankRow sol r) = .done ⟨sol, backlog0, 0⟩ ∧
      check_solved sol ≠ 0 :=
  ⟨(main_loops_blankRow h hr hf).1, (main_loops_blankRow h hr hf).2.1,
    (main_loops_blankRow h hr hf).2.2.1, (main_loops_blankRow h hr hf).2.2.2, h.solved_check⟩

/-- C9, on `gridSolved` with row 4 left out. -/
theorem single_missing_row_witness :
    IsSolution gridSolved ∧
      main_loops 2 (blankRow gridSolved 4) = .done ⟨gridSolved, backlog0, 0⟩ ∧
      check_solved gridSolved ≠ 0 :=
  ⟨gridSolved_isSolution,
    (single_missing_row gridSolved gridSolved_isSolution 4 (by decide) 2 (by decide)).2.2.2⟩

/-- C10 as stated fails: row 0 of `gridRowDup` holds the digit 1 twice, the run
of `main` ends and reports the playfield as not solved, and the exit status is
`EXIT_SUCCESS`, not a failure. -/
theorem row_duplicate_exit_status :
    PLAYFIELD gridRowDup 0 0 = 1 <<< 1 ∧ PLAYFIELD gridRowDup 1 0 = 1 <<< 1 ∧
      (main 20 gridRowDup).result.map (fun r => (r.1, r.2.1)) = some (EXIT_SUCCESS, 0) := by
  decide!

/-- C10 amended: on a well-formed playfield in which two distinct cells of one
row hold the same value of `1..9`, the first call of `preprocess` returns `-1`
and thereby ends the first loop of `main`; and whenever the three loops of
`main` end, `main` returns `EXIT_SUCCESS` together with the result of
`check_solved` on the final playfield. -/
theorem main_row_duplicate (g : Grid) (hw : WF g) (v x1 x2 y : Nat)
    (hv1 : 1 ≤ v) (hv9 : v ≤ 9) (hx1 : x1 < 9) (hx2 : x2 < 9) (hy : y < 9) (hne : x1 ≠ x2)
    (h1 : PLAYFIELD g x1 y = 1 <<< v) (h2 : PLAYFIELD g x2 y = 1 <<< v) :
    (preprocess g).1 = -1 ∧
      (∀ fuel, repeatWhile preprocess (fun pp => decide (pp > 0)) (fuel + 1) g =
        some (preprocess g)) ∧
      ∀ fuel r, main fuel g = .done r →
        r.1 = EXIT_SUCCESS ∧ r.2.1 = check_solved r.2.2.playfield := by
  have hp := preprocess_of_row_pair hw hv1 hv9 hx1 hx2 hy hne h1 h2
  refine ⟨hp, fun fuel => repeatWhile_stop fuel (by rw [hp]; rfl), fun fuel r hr => ?_⟩
  unfold main at hr
  split at hr
  · simp at hr
  · simp at hr
  · simp only [Outcome.done.injEq] at hr
    subst hr
    exact ⟨rfl, rfl⟩

/-- C10 amended, on `gridRowDup`. -/
theorem main_row_duplicate_witness :
    WF gridRowDup ∧ PLAYFIELD gridRowDup 0 0 = 1 <<< 1 ∧ PLAYFIELD gridRowDup 1 0 = 1 <<< 1 ∧
      (preprocess gridRowDup).1 = -1 :=
  ⟨⟨by decide, by decide⟩, by decide, by decide,
    (main_row_duplicate gridRowDup ⟨by decide, by decide⟩ 1 0 1 0 (by decide) (by decide)
      (by decide) (by decide) (by decide) (by decide) (by decide) (by decide)).1⟩

/-- C11 fails on `gridFlip`, the file with the rows `.23......`, `4521.....`,
`678...1..` and six rows of dots.  The loops of `main` over `preprocess` and
`postprocess` end with the playfield `gridFlipSolver`, and the first call of
`solver` on it does not return: after its forced assignment of the value 1 to
the cell `(0, 0)` its loop over `preprocess` ends with the playfield
`gridFlipA`, and the loop `while (postprocess(1) > 0);` then runs on
`gridFlipA`, where every call of `postprocess` writes to the cell at the stale
offset `(0, 0)` and returns `1`.  So the run of `main` ends for no amount of
fuel. -/
theorem main_never_returns :
    (∀ fuel, main fuel gridFlip = .timeout) ∧
      repeatWhile preprocess (fun pp => decide (pp > 0)) 2 gridFlip = some (0, gridFlipSolver) ∧
      repeatWhile postprocess (fun pp => decide (pp > 0)) 1 gridFlipSolver =
        some (0, gridFlipSolver) ∧
      (∀ fuel, solver fuel ⟨gridFlipSolver, backlog0, 0⟩ = .timeout) ∧
      repeatWhile preprocess (fun pp => pp != -1 && decide (pp > 0)) 2
        (setPLAYFIELD gridFlipSolver 0 0 (1 <<< 1)) = some (0, gridFlipA) ∧
      ∀ fuel, repeatWhile postprocess (fun pp => decide (pp > 0)) fuel gridFlipA = none :=
  ⟨main_timeout gridFlip_main.1 gridFlip_main.2 (fun fuel => solver_gridFlip fuel backlog0 0),
    gridFlip_main.1, gridFlip_main.2, fun fuel => solver_gridFlip fuel backlog0 0,
    gridFlip_forced_loop, gridFlip_postprocess_loop⟩

/-- C12 fails on `gridOpen`, the playfield of nine rows of dots: every value has
nine open cells in every row and every column, so that no count is below
`cur_less`, which starts at `SIZE_X`, and the search ends with its locals as
they were initialised; `solver` leaves through
`if (cur_less == SIZE_X) return 0;` with the playfield, the backlog and
`cur_backlog` unchanged, `check_solved` returns `0` on that playfield, and the
run of `main` ends there and reports the playfield as not solved. -/
theorem solver_all_open :
    (∀ l < 9, ∀ v < 10, 1 ≤ v →
        countOpen gridOpen (rowCells l) v = 9 ∧ countOpen gridOpen (colCells l) v = 9) ∧
      searchCols gridOpen = ⟨0, 0, 0, SIZE_X, 0⟩ ∧
      (∀ fuel, solver fuel ⟨gridOpen, backlog0, 0⟩ = .done (0, ⟨gridOpen, backlog0, 0⟩)) ∧
      check_solved gridOpen = 0 ∧
      main 1 gridOpen = .done (EXIT_SUCCESS, 0, ⟨gridOpen, backlog0, 0⟩) :=
  ⟨gridOpen_counts, gridOpen_search.2,
    solver_nothing_chosen gridOpen_search.1 gridOpen_search.2 backlog0 0, gridOpen_main.1,
    gridOpen_main.2⟩

/-- C13 fails on the puzzle `gridRetry`.  The first two loops of `main` end
with the playfield `gridRetryP`.  The first call of `solver` chooses the value 6
in row 1, which has two open cells for it, `(0, 1)` and `(2, 1)`; it stores
`gridRetryP` with the number 6, the instance 0 and the direction `HORIZONTAL`
in `backlog[0]`, sets the cell `(0, 1)` and returns `1` with the state
`stateRetry`.  The second call finds the value 5 with a single open cell in
row 4, sets the cell `(6, 4)` at `flag`, and the loop over `preprocess` ends
with `-1`: at `try_backlog` the playfield, `cur_num`, `dir` and `instance` come
from `backlog[0]`, but `cur_y` is still `4`, so that `mark_number` looks for the
second open cell for 6 in row 4, finds none and returns `0`, whereupon `solver`
drops the frame and returns `0` with the playfield `gridRetryP`.  The next open
cell for 6 in row 1, the cell `(2, 1)`, is never assigned, although `solRetry`,
a solution of the puzzle, holds 6 there; `main` reports the puzzle as not
solved. -/
theorem backtrack_wrong_line :
    repeatWhile preprocess (fun pp => decide (pp > 0)) 6 gridRetry = some (0, gridRetryP) ∧
    postprocess gridRetryP = (0, gridRetryP) ∧
    (searchCols gridRetryP = ⟨SIZE_X, 1, HORIZONTAL, 2, 6⟩ ∧
      mark_find gridRetryP 6 (rowCells 1) 0 = .done (some (0, 1)) ∧
      mark_find gridRetryP 6 (rowCells 1) 1 = .done (some (2, 1))) ∧
    solver 6 ⟨gridRetryP, backlog0, 0⟩ = .done (1, stateRetry) ∧
    (searchRows gridRetryGuess = ⟨SIZE_X, 4, HORIZONTAL, 1, 5⟩ ∧
      (rowCells 4).findIdx (isOpen gridRetryGuess 5) = 6 ∧
      mark_find gridRetryP 6 (rowCells 4) 1 = .done none ∧
      mark_number 6 gridRetryP 6 1 HORIZONTAL 6 4 = .done (0, gridRetryP)) ∧
    solver 6 stateRetry = .done (0, stateRetryEnd) ∧
    main 6 gridRetry =
      .done (EXIT_SUCCESS, check_solved stateRetryEnd.playfield, stateRetryEnd) ∧
    check_solved gridRetryP = 0 ∧
    IsSolution solRetry ∧ PLAYFIELD solRetry 2 1 = 1 <<< 6 ∧
      ∀ x < 9, ∀ y < 9, PLAYFIELD gridRetry x y = ANY_NUMBER ∨
        PLAYFIELD gridRetry x y = PLAYFIELD solRetry x y :=
  ⟨gridRetry_preprocess, gridRetry_postprocess, gridRetry_search, gridRetry_first_call,
    gridRetry_retry, gridRetry_second_call, gridRetry_main, gridRetryP_cells.1,
    solRetry_isSolution, gridRetry_solvable⟩

/-- C14 fails on `gridRowDupSingle`, whose row 0 starts with `11` and whose
row 8 is `.23456789`: the first two loops of `main` end with the playfield
`gridRowDupSingleP`, on which the search of `solver` finds the value 2 with a
single open cell in row 8; the assignment at `flag` makes `preprocess` return
`-1`, and the jump to `try_backlog` reads `backlog[cur_backlog - 1]` with
`cur_backlog = 0`, so that neither `solver` nor `main` has a defined result. -/
theorem forced_single_empty_backlog :
    (∀ fuel, repeatWhile preprocess (fun pp => decide (pp > 0)) (fuel + 1) gridRowDupSingle =
        some (-1, gridRowDupSingleP)) ∧
      (∀ fuel, repeatWhile postprocess (fun pp => decide (pp > 0)) (fuel + 1) gridRowDupSingleP =
        some (0, gridRowDupSingleP)) ∧
      (List.range SIZE_Y).foldl (selectRow gridRowDupSingleP) ⟨0, 0, 0, SIZE_X, 0⟩ =
        ⟨SIZE_X, 8, HORIZONTAL, 1, 2⟩ ∧
      (preprocess (setPLAYFIELD gridRowDupSingleP 0 8 (1 <<< 2))).1 = -1 ∧
      (∀ fuel, solver (fuel + 1) ⟨gridRowDupSingleP, backlog0, 0⟩ = .undefined) ∧
      ∀ fuel, main (fuel + 1) gridRowDupSingle = .undefined := by
  have hs : ∀ fuel, solver (fuel + 1) ⟨gridRowDupSingleP, backlog0, 0⟩ = .undefined := by
    intro fuel
    unfold solver
    simp only [gridRowDupSingle_facts.2.2.1, gridRowDupSingle_facts.2.2.2.1, if_true]
    exact solver_flag_empty rfl (by decide) gridRowDupSingle_facts.2.2.2.2
  have h1 : ∀ fuel, repeatWhile preprocess (fun pp => decide (pp > 0)) (fuel + 1)
      gridRowDupSingle = some (-1, gridRowDupSingleP) := by
    intro fuel
    rw [repeatWhile_stop _ (by rw [gridRowDupSingle_facts.1]; rfl), gridRowDupSingle_facts.1]
  have h2 : ∀ fuel, repeatWhile postprocess (fun pp => decide (pp > 0)) (fuel + 1)
      gridRowDupSingleP = some (0, gridRowDupSingleP) := by
    intro fuel
    rw [repeatWhile_stop _ (by rw [gridRowDupSingle_facts.2.1]; rfl), gridRowDupSingle_facts.2.1]
  refine ⟨h1, h2, gridRowDupSingle_facts.2.2.1, gridRowDupSingle_facts.2.2.2.2, hs,
    fun fuel => ?_⟩
  unfold main main_loops
  simp only [h1 fuel, h2 fuel]
  unfold solverLoop
  simp only [hs fuel]

/-- C15: when the search of `solver` ends with `cur_less` below `SIZE_X`, that
is when `solver` chooses at all, the locals it has chosen are these.  Either
the direction is `HORIZONTAL` and `(cur_y, cur_num)` is the first (row, value)
pair in scan order that attains the smallest positive count of open cells among
all rows, and no (column, value) pair has a positive count below it; or the
direction is `VERTICAL`, `(cur_x, cur_num)` is the first (column, value) pair in
scan order that attains the smallest positive count among all columns, and that
count is strictly below every positive count of a row.  `cur_less` is the count
of the chosen pair.  When the horizontal check ends with `cur_less = 1`, where
`solver` jumps to `flag` without the vertical check, that check would change
nothing. -/
theorem selection_tie_break (g : Grid) (h : (searchCols g).cur_less < SIZE_X) :
    ((searchRows g).cur_less = 1 → searchCols g = searchRows g) ∧
      (((searchCols g).dir = HORIZONTAL ∧
          FirstMin (rowCount g) ((searchCols g).cur_y, (searchCols g).cur_num) ∧
          (searchCols g).cur_less = rowCount g ((searchCols g).cur_y, (searchCols g).cur_num) ∧
          ∀ r ∈ linePairs, 0 < colCount g r →
            rowCount g ((searchCols g).cur_y, (searchCols g).cur_num) ≤ colCount g r) ∨
        ((searchCols g).dir = VERTICAL ∧
          FirstMin (colCount g) ((searchCols g).cur_x, (searchCols g).cur_num) ∧
          (searchCols g).cur_less = colCount g ((searchCols g).cur_x, (searchCols g).cur_num) ∧
          ∀ r ∈ linePairs, 0 < rowCount g r →
            colCount g ((searchCols g).cur_x, (searchCols g).cur_num) < rowCount g r)) := by
  have hr := selStep_foldl (rowCount g) (fun q => ⟨SIZE_X, q.1, HORIZONTAL, rowCount g q, q.2⟩)
    (fun _ => rfl) linePairs ⟨0, 0, 0, SIZE_X, 0⟩
  have hc := selStep_foldl (colCount g) (fun q => ⟨q.1, SIZE_Y, VERTICAL, colCount g q, q.2⟩)
    (fun _ => rfl) linePairs (searchRows g)
  rw [← searchRows_eq] at hr
  rw [← searchCols_eq] at hc
  constructor
  · intro h1
    rcases hc with ⟨_, hc2⟩ | ⟨l1, q, l2, _, hpos, hlt, _, _, _⟩
    · exact hc2
    · omega
  · rcases hc with ⟨hc1, hc2⟩ | ⟨l1, q, l2, e, hpos, hlt, hfold, h5, h6⟩
    · rcases hr with ⟨_, hr2⟩ | ⟨k1, q1, k2, e1, hpos1, _, hfold1, h51, h61⟩
      · rw [hc2, hr2] at h
        exact absurd h (lt_irrefl _)
      · rw [hfold1] at hc1
        rw [hc2, hfold1]
        refine Or.inl ⟨rfl, firstMin_of_split e1 hpos1 h51 h61, rfl, fun r hm hp => ?_⟩
        rcases hc1 r hm with h0 | h0
        · omega
        · exact h0
    · rw [hfold]
      refine Or.inr ⟨rfl, firstMin_of_split e hpos h5 h6, rfl, fun r hm hp => ?_⟩
      show colCount g q < rowCount g r
      rcases hr with ⟨hr1, hr2⟩ | ⟨k1, q1, k2, e1, hpos1, _, hfold1, h51, h61⟩
      · rw [hr2] at hlt
        rcases hr1 r hm with h0 | h0
        · omega
        · simp only [SIZE_X] at hlt h0; omega
      · rw [hfold1] at hlt
        have := (firstMin_of_split e1 hpos1 h51 h61).choose_spec.choose_spec.2.2.1 r hm hp
        simp only at hlt
        omega

/-- C15 on `gridRetryP`, where the search ends with the value 6 in row 1, which
has two open cells. -/
theorem selection_tie_break_witness :
    (searchCols gridRetryP).cur_less < SIZE_X ∧
      ((searchRows gridRetryP).cur_less = 1 → searchCols gridRetryP = searchRows gridRetryP) ∧
      (((searchCols gridRetryP).dir = HORIZONTAL ∧
          FirstMin (rowCount gridRetryP)
            ((searchCols gridRetryP).cur_y, (searchCols gridRetryP).cur_num) ∧
          (searchCols gridRetryP).cur_less =
            rowCount gridRetryP ((searchCols gridRetryP).cur_y, (searchCols gridRetryP).cur_num) ∧
          ∀ r ∈ linePairs, 0 < colCount gridRetryP r →
            rowCount gridRetryP ((searchCols gridRetryP).cur_y, (searchCols gridRetryP).cur_num) ≤
              colCount gridRetryP r) ∨
        ((searchCols gridRetryP).dir = VERTICAL ∧
          FirstMin (colCount gridRetryP)
            ((searchCols gridRetryP).cur_x, (searchCols gridRetryP).cur_num) ∧
          (searchCols gridRetryP).cur_less =
            colCount gridRetryP ((searchCols gridRetryP).cur_x, (searchCols gridRetryP).cur_num) ∧
          ∀ r ∈ linePairs, 0 < rowCount gridRetryP r →
            colCount gridRetryP ((searchCols gridRetryP).cur_x, (searchCols gridRetryP).cur_num) <
              rowCount gridRetryP r)) :=
  ⟨cur_less_of_eq gridRetry_search.1 (by decide),
    selection_tie_break gridRetryP (cur_less_of_eq gridRetry_search.1 (by decide))⟩

/-- C16: on a playfield of 81 cells, when the cell `c` is `1 << v` for a value
`v` of `1..9` on entry and `preprocess` returns a non-negative count, then in
the resulting playfield `c` is still `1 << v` and no other cell of the row or
of the column of `c` has bit `v` set. -/
theorem line_elimination (g : Grid) (hw : WF g) (v : Nat) (hv1 : 1 ≤ v) (hv9 : v ≤ 9)
    (c : Nat × Nat) (hc1 : c.1 < 9) (hc2 : c.2 < 9) (hc : PLAYFIELD g c.1 c.2 = 1 <<< v)
    (h : 0 ≤ (preprocess g).1) :
    PLAYFIELD (preprocess g).2 c.1 c.2 = 1 <<< v ∧
      ∀ d : Nat × Nat, d.1 < 9 → d.2 < 9 → d ≠ c → SameLine d c →
        PLAYFIELD (preprocess g).2 d.1 d.2 &&& (1 <<< v) = 0 := by
  have hne : (preprocess g).1 ≠ -1 := fun h1 => by rw [h1] at h; exact absurd h (by decide)
  refine ⟨?_, fun d hd1 hd2 hdc hl => ?_⟩
  · rw [preprocess_solid_fixed hw hc1 ⟨v, hv1, hv9, hc⟩, hc]
  · have := preprocess_lines hw hne hv1 hv9 hc1 hc2 hc hd1 hd2 hdc hl
    by_contra h0
    rw [(and_bit_ne_zero _ _).1 h0] at this
    exact absurd this (by simp)

/-- C16 on `gridRetryP`, for the cell `(6, 1)` with the value 1 and the cell
`(0, 1)` of its row. -/
theorem line_elimination_witness :
    PLAYFIELD gridRetryP 6 1 = 1 <<< 1 ∧ 0 ≤ (preprocess gridRetryP).1 ∧
      PLAYFIELD (preprocess gridRetryP).2 6 1 = 1 <<< 1 ∧
      PLAYFIELD (preprocess gridRetryP).2 0 1 &&& (1 <<< 1) = 0 :=
  ⟨gridRetryP_cells.2.1, fst_nonneg_of_eq gridRetryP_fixpoint (by decide),
    (line_elimination gridRetryP ⟨by decide, by decide⟩ 1 (by decide) (by decide) (6, 1)
      (by decide) (by decide) gridRetryP_cells.2.1
      (fst_nonneg_of_eq gridRetryP_fixpoint (by decide))).1,
    (line_elimination gridRetryP ⟨by decide, by decide⟩ 1 (by decide) (by decide) (6, 1)
      (by decide) (by decide) gridRetryP_cells.2.1
      (fst_nonneg_of_eq gridRetryP_fixpoint (by decide))).2 (0, 1) (by decide) (by decide)
      (by decide) (Or.inr rfl)⟩

/-- C17 fails on `gridAlmostSolved`, whose row 0 starts with `33`: the first
call of `preprocess` in `main` returns `-1` and leaves the playfield as it is;
all nine cells of the top-left part are solid and the only value that none of
them holds is 5; `postprocess` makes the forced assignment and writes `1 << 5`
to the cell at the stale offset `(0, 0)`, which was solid with the value 3, and
returns `1` with the playfield `gridSolved`. -/
theorem postprocess_overwrites_solid :
    repeatWhile preprocess (fun pp => decide (pp > 0)) 1 gridAlmostSolved =
        some (-1, gridAlmostSolved) ∧
      (∀ o ∈ partOrder, check_solid (PLAYFIELD gridAlmostSolved o.1 o.2) = 1) ∧
      PLAYFIELD gridAlmostSolved 0 0 = 1 <<< 3 ∧
      postprocess gridAlmostSolved = (1, gridSolved) ∧
      PLAYFIELD gridSolved 0 0 = 1 <<< 5 :=
  ⟨repeatWhile_last gridAlmostSolved_call rfl 0, by decide, by decide, gridAlmostSolved_fill,
    by decide⟩

/-- C19: on a playfield `g` of 81 cells and for a solution `sol` (every cell
solid, every row, column and part holding each value of `1..9` exactly once)
such that every cell of `g` has the bit of the value that the cell holds in
`sol`, `preprocess` does not return `-1` and leaves a playfield of which the
same holds; and so does `postprocess`. -/
theorem propagation_sound (g sol : Grid) (hw : WF g) (hsol : IsSolution sol)
    (hc : Consistent sol g) :
    ((preprocess g).1 ≠ -1 ∧ Consistent sol (preprocess g).2) ∧
      (postprocess g).1 ≠ -1 ∧ Consistent sol (postprocess g).2 :=
  ⟨preprocess_sound hw hsol hc, postprocess_sound hw hsol hc⟩

/-- C19 on the puzzle `gridRetry` with its solution `solRetry`. -/
theorem propagation_sound_witness :
    IsSolution solRetry ∧ Consistent solRetry gridRetry ∧
      ((preprocess gridRetry).1 ≠ -1 ∧ Consistent solRetry (preprocess gridRetry).2) ∧
      (postprocess gridRetry).1 ≠ -1 ∧ Consistent solRetry (postprocess gridRetry).2 :=
  ⟨solRetry_isSolution, gridRetry_consistent,
    propagation_sound gridRetry solRetry ⟨by decide, by decide⟩ solRetry_isSolution
      gridRetry_consistent⟩

/-- C20: on a playfield of 81 cells, each a non-empty subset of the bits
`1..9`, in which no two distinct cells of one part are solid with the same
value, and on which `preprocess` returns `0`, `postprocess` returns `0` and
leaves the playfield as it is. -/
theorem postprocess_at_fixpoint (g : Grid) (hw : WF g)
    (hcells : ∀ x < 9, ∀ y < 9,
      PLAYFIELD g x y ≠ 0 ∧ PLAYFIELD g x y &&& NOT32 ANY_NUMBER = 0)
    (hdist : ∀ c d : Nat × Nat, c.1 < 9 → c.2 < 9 → d.1 < 9 → d.2 < 9 → c ≠ d → SamePart c d →
      Solid (PLAYFIELD g c.1 c.2) → Solid (PLAYFIELD g d.1 d.2) →
      PLAYFIELD g c.1 c.2 ≠ PLAYFIELD g d.1 d.2)
    (h0 : (preprocess g).1 = 0) : postprocess g = (0, g) :=
  postprocess_skip (fun _ hp ex ey num h1 h9 =>
    curmask_not_single ⟨hw, fun x hx y hy => (hcells x hx y hy).2⟩
      (fun x hx y hy => (hcells x hx y hy).1) hdist (preprocess_zero hw h0).2 hp ex ey num h1 h9)

/-- C20 on `gridRetryP`, the playfield on which the first loop of `main` ends
for the puzzle `gridRetry`. -/
theorem postprocess_at_fixpoint_witness :
    (preprocess gridRetryP).1 = 0 ∧ postprocess gridRetryP = (0, gridRetryP) :=
  ⟨fst_of_eq gridRetryP_fixpoint,
    postprocess_at_fixpoint gridRetryP ⟨by decide, by decide⟩ gridRetryP_cells.2.2
      (distinct_of_parts gridRetryP_parts) (fst_of_eq gridRetryP_fixpoint)⟩

end Sudsol
